import Mathlib

/-!
# Anand Finco web app: valuation, registry, portfolios, notifications and accounts

A shallow embedding of `src/anandfinco-web/src/App.jsx`.

Conventions of the embedding

* JavaScript numbers that the program stores as integers (`parseInt` results:
  `minInvest`, `currentValuation`, `initialValuation`, `buyValuation`,
  `investedAmt`) are `Int`; `stake` (a `parseFloat` result) and every derived
  amount are `ℚ`.  Arithmetic on these is exact.  Where the rounding of the
  IEEE doubles decides a result (`Math.round` in `addHolding`, the comparison
  of `gp` with `vp`) the computation is also given on `Dbl`, a model of the
  finite doubles with round-to-nearest-even.  The parsers `parseInt` and
  `parseFloat` return `none` where JavaScript returns `NaN`; the call
  `addHolding` makes for such an input is `addHoldingCall` (its `HoldingData`
  has `none` for a `NaN` field), while `addHolding`, which carries the call
  out on the store, has no result there, a stored `Holding` being a holding
  with numbers.
* `a || b` on numbers is `if a ≠ 0 then a else b`; on strings it is
  `if a ≠ "" then a else b`.
* Firestore is a record of collections.  Document ids produced by `addDoc` are
  drawn from a counter, so an id is never handed out twice.  A call fails only
  where Firestore rejects it by rule (`updateDoc` on a missing document);
  network failures are outside the model.
* `toUpperCase` and `toLowerCase` map the ASCII letters and leave every other
  character as it is: the Unicode case mapping outside ASCII is outside the
  model.
* The identity provider is a list of accounts.  It rejects the creation of an
  account whose email is in use or whose password is shorter than 6 characters,
  and a sign-in that matches no account; its other rejections (malformed
  address, rate limits) are outside the model.
* A React component is the record of its `useState` cells; an event handler is
  a function from the store and the component state to the next ones, together
  with the link it hands to `window.open` where it opens one.
-/

namespace AnandFinco

/-! ## Documents -/

/-- Firestore document id. -/
abbrev DocId := Nat

/-- A document of the `companies` collection together with its id
(`{ id: d.id, ...d.data() }`). -/
structure Company where
  id : DocId
  name : String
  sector : String
  minInvest : Int
  currentValuation : Int
  initialValuation : Int
  expectedReturns : String
  risk : String
  lotSize : String
  active : Bool
  description : String
deriving DecidableEq, Repr

/-- An element of the `holdings` array of a `portfolios` document. -/
structure Holding where
  companyId : DocId
  companyName : String
  sector : String
  stake : ℚ
  buyValuation : Int
  investedAmt : Int
  purchaseDate : String
deriving DecidableEq

/-- A document of the `notifications` collection together with its id. -/
structure Notification where
  id : DocId
  clientId : String
  clientName : String
  clientPhone : String
  clientEmail : String
  companyId : DocId
  companyName : String
  interestedMin : Int
  message : String
  timestamp : Nat
  read : Bool
deriving DecidableEq, Repr

/-- The `user` prop of the client screens (the profile built by `App`); a field that is
missing or empty is the empty string, the code tests these fields only through `||`. -/
structure User where
  uid : String
  email : String
  name : String
  phone : String
  isAdmin : Bool := false
  pan : String := ""
  city : String := ""
  joinDate : String := ""
  welcomeNote : String := ""
  username : String := ""
deriving DecidableEq, Repr

/-- A document of the `clients` collection together with its id, as far as the portfolio
screen of the admin uses it. -/
structure Client where
  id : String
  name : String
  email : String
  phone : String
deriving DecidableEq, Repr

/-- The data of a document of the `clients` collection as `snap.data()` returns it; a field
is `none` when the document does not carry it.  `addClient` writes the string fields except
`uid`; `uid` and `isAdmin` (by its truthiness) stand for fields of these names, which no
writer of the app sets and the spread in `App` reads like every other field. -/
structure ClientDoc where
  name : Option String := none
  email : Option String := none
  phone : Option String := none
  city : Option String := none
  pan : Option String := none
  joinDate : Option String := none
  welcomeNote : Option String := none
  username : Option String := none
  uid : Option String := none
  isAdmin : Option Bool := none
deriving DecidableEq, Repr

/-- The signed-in user the identity provider hands to `onAuthStateChanged`. -/
structure FbUser where
  uid : String
  email : String
deriving DecidableEq, Repr

/-- The constant `ADMIN_EMAIL`. -/
def ADMIN_EMAIL : String := "admin@anandfinco.com"

/-! ## Valuation code shared by the screens -/

/-- The lookup `companies.find(c => c.id === h.companyId)`. -/
def findCompany (companies : List Company) (h : Holding) : Option Company :=
  companies.find? (fun c => c.id == h.companyId)

/-- The expression `co?.currentValuation || h.buyValuation`. -/
def nowValuation (co : Option Company) (h : Holding) : Int :=
  match co with
  | some c => if c.currentValuation ≠ 0 then c.currentValuation else h.buyValuation
  | none => h.buyValuation

namespace PortfolioScreen

/-- One element of `enriched`: the holding with its derived figures. -/
structure Enriched where
  h : Holding
  curr : ℚ
  buy : ℚ
  g : ℚ
  gp : ℚ
  vp : ℚ
  nowVal : Int

/-- The callback of `holdings.map(h => ...)` in `PortfolioScreen`. -/
def enrich (companies : List Company) (h : Holding) : Enriched :=
  let co := findCompany companies h
  let curr : ℚ := (h.stake / 100) * (nowValuation co h : ℚ)
  let buy : ℚ := (h.stake / 100) * (h.buyValuation : ℚ)
  let g : ℚ := curr - buy
  let gp : ℚ := if buy > 0 then (g / buy) * 100 else 0
  let vp : ℚ :=
    if h.buyValuation > 0 then
      (((nowValuation co h : ℚ)) - (h.buyValuation : ℚ)) / (h.buyValuation : ℚ) * 100
    else 0
  { h := h, curr := curr, buy := buy, g := g, gp := gp, vp := vp, nowVal := nowValuation co h }

/-- The array `enriched`. -/
def enriched (companies : List Company) (holdings : List Holding) : List Enriched :=
  holdings.map (enrich companies)

/-- The total `enriched.reduce((s, h) => s + h.buy, 0)`. -/
def totI (companies : List Company) (holdings : List Holding) : ℚ :=
  (enriched companies holdings).foldl (fun s e => s + e.buy) 0

/-- The total `enriched.reduce((s, h) => s + h.curr, 0)`. -/
def totC (companies : List Company) (holdings : List Holding) : ℚ :=
  (enriched companies holdings).foldl (fun s e => s + e.curr) 0

/-- The difference `totC - totI`. -/
def totG (companies : List Company) (holdings : List Holding) : ℚ :=
  totC companies holdings - totI companies holdings

/-- The ratio `totI > 0 ? (totG / totI) * 100 : 0`. -/
def totP (companies : List Company) (holdings : List Holding) : ℚ :=
  if totI companies holdings > 0 then
    (totG companies holdings / totI companies holdings) * 100
  else 0

end PortfolioScreen

namespace HomeScreen

/-- The figures of one row of "Active Investments" (`portfolio.map((h, i) => ...)`). -/
structure Row where
  curr : ℚ
  buy : ℚ
  g : ℚ
  gp : ℚ

/-- The callback of `portfolio.map` in `HomeScreen`. -/
def row (companies : List Company) (h : Holding) : Row :=
  let co := findCompany companies h
  let curr : ℚ := (h.stake / 100) * (nowValuation co h : ℚ)
  let buy : ℚ := (h.stake / 100) * (h.buyValuation : ℚ)
  let g : ℚ := curr - buy
  let gp : ℚ := if buy > 0 then (g / buy) * 100 else 0
  { curr := curr, buy := buy, g := g, gp := gp }

/-- The total `portfolio.reduce((s, h) => s + (h.stake / 100) * h.buyValuation, 0)`. -/
def totI (portfolio : List Holding) : ℚ :=
  portfolio.foldl (fun s h => s + (h.stake / 100) * (h.buyValuation : ℚ)) 0

/-- The total `portfolio.reduce((s, h) => { const co = ...; return s + ... }, 0)`. -/
def totC (companies : List Company) (portfolio : List Holding) : ℚ :=
  portfolio.foldl
    (fun s h => s + (h.stake / 100) * (nowValuation (findCompany companies h) h : ℚ)) 0

/-- The difference `totC - totI`. -/
def totG (companies : List Company) (portfolio : List Holding) : ℚ :=
  totC companies portfolio - totI portfolio

/-- The ratio `totI > 0 ? (totG / totI) * 100 : 0`. -/
def totGP (companies : List Company) (portfolio : List Holding) : ℚ :=
  if totI portfolio > 0 then (totG companies portfolio / totI portfolio) * 100 else 0

end HomeScreen

/-! ## JavaScript string and number helpers -/

/-- The code points of ECMAScript `WhiteSpace` and `LineTerminator`, which `trim` and
`parseInt` strip. -/
def isStrWhiteSpaceChar (c : Char) : Bool :=
  let n := c.toNat
  n == 0x09 || n == 0x0A || n == 0x0B || n == 0x0C || n == 0x0D || n == 0x20 ||
  n == 0xA0 || n == 0x1680 || (0x2000 ≤ n && n ≤ 0x200A) || n == 0x2028 || n == 0x2029 ||
  n == 0x202F || n == 0x205F || n == 0x3000 || n == 0xFEFF

/-- The method `String.prototype.trim`. -/
def jsTrim (s : String) : String :=
  String.mk ((s.toList.dropWhile isStrWhiteSpaceChar).reverse.dropWhile
    isStrWhiteSpaceChar).reverse

/-- The method `String.prototype.toUpperCase` (ASCII letters; other characters unchanged). -/
def toUpperCase (s : String) : String :=
  String.mk (s.toList.map
    (fun c => if 97 ≤ c.toNat ∧ c.toNat ≤ 122 then Char.ofNat (c.toNat - 32) else c))

/-- The method `String.prototype.toLowerCase` (ASCII letters; other characters unchanged). -/
def toLowerCase (s : String) : String :=
  String.mk (s.toList.map
    (fun c => if 65 ≤ c.toNat ∧ c.toNat ≤ 90 then Char.ofNat (c.toNat + 32) else c))

/-- The expression `s.replace(/\s/g, '.')`; `\s` matches the characters `trim` strips. -/
def replaceWhiteSpace (s : String) : String :=
  String.mk (s.toList.map (fun c => if isStrWhiteSpaceChar c then '.' else c))

/-- The property `s.length`: the number of UTF-16 code units. -/
def utf16Length (s : String) : Nat :=
  (s.toList.map (fun c => if c.toNat < 0x10000 then 1 else 2)).sum

/-- The value of a character as a digit in some radix up to 36. -/
def digitValue (c : Char) : Option Nat :=
  let n := c.toNat
  if 48 ≤ n ∧ n ≤ 57 then some (n - 48)
  else if 97 ≤ n ∧ n ≤ 122 then some (n - 87)
  else if 65 ≤ n ∧ n ≤ 90 then some (n - 55)
  else none

/-- The value of a character as a digit of radix `R`, if it is one. -/
def radixDigit (R : Nat) (c : Char) : Option Nat :=
  match digitValue c with
  | some d => if d < R then some d else none
  | none => none

/-- The digits of the longest prefix made of radix-`R` digits. -/
def digitsPrefix (R : Nat) : List Char → List Nat
  | [] => []
  | c :: cs =>
    match radixDigit R c with
    | some d => d :: digitsPrefix R cs
    | none => []

/-- The number written by a list of radix-`R` digits, most significant first. -/
def digitsValue (R : Nat) (ds : List Nat) : Nat :=
  ds.foldl (fun a d => a * R + d) 0

/-- The sign character that `parseInt` consumes: the sign and the rest of the input. -/
def splitSign : List Char → Bool × List Char
  | '-' :: cs => (true, cs)
  | '+' :: cs => (false, cs)
  | cs => (false, cs)

/-- The radix `parseInt` chooses when none is passed, and the input without a `0x` mark. -/
def splitRadix : List Char → Nat × List Char
  | '0' :: 'x' :: cs => (16, cs)
  | '0' :: 'X' :: cs => (16, cs)
  | cs => (10, cs)

/-- The last steps of `parseInt`: the longest prefix of radix-`R` digits of `body` with
the sign applied; `none` (for `NaN`) when that prefix is empty. -/
def signedValue (neg : Bool) (R : Nat) (body : List Char) : Option Int :=
  match digitsPrefix R body with
  | [] => none
  | ds => some (if neg then -(digitsValue R ds : Int) else (digitsValue R ds : Int))

/-- The global function `parseInt` called with one argument; `none` stands for `NaN`. -/
def parseInt (s : String) : Option Int :=
  let signed := splitSign (s.toList.dropWhile isStrWhiteSpaceChar)
  let radix := splitRadix signed.2
  signedValue signed.1 radix.1 radix.2

/-- The expression `parseInt(s) || 0`. -/
def parseIntOrZero (s : String) : Int :=
  (parseInt s).getD 0

/-- Decimal digits of a natural number, most significant first; `fuel` bounds the
number of digits. -/
def decimalDigits : Nat → Nat → List Nat
  | 0, _ => []
  | fuel + 1, n => if n < 10 then [n] else decimalDigits fuel (n / 10) ++ [n % 10]

/-- The character of a decimal digit. -/
def digitChar (d : Nat) : Char :=
  Char.ofNat (48 + d)

/-- The decimal numeral of a natural number. -/
def natToString (n : Nat) : String :=
  String.mk ((decimalDigits (n + 1) n).map digitChar)

/-- The digits `d`, `ddd` of the exponent form `d.ddde+x` of `n`: its decimal digits without
the trailing zeros. -/
def significantDigits (n : Nat) : List Nat :=
  ((decimalDigits (n + 1) n).reverse.dropWhile (fun d => d == 0)).reverse

/-- The exponent form `d.ddde+x` of a positive integer, with the digits of the integer
itself (a double has at most 17 significant digits). -/
def exponentForm (n : Nat) : String :=
  match significantDigits n with
  | [] => "0"
  | d :: rest =>
    String.mk
      ((digitChar d :: (match rest with
                        | [] => []
                        | r :: rs => '.' :: (r :: rs).map digitChar)) ++
        'e' :: '+' :: (natToString ((decimalDigits (n + 1) n).length - 1)).toList)

/-- The conversion `String(n)` of a non-negative integer: the decimal digits below `1e21`,
the exponent form from `1e21` on (`String(1e21)` is "1e+21"). -/
def natToJsString (n : Nat) : String :=
  if n < 10 ^ 21 then natToString n else exponentForm n

/-- The conversion `String(n)` of an integer (`-` before a negative one). -/
def jsNumberToString : Int → String
  | Int.ofNat n => natToJsString n
  | Int.negSucc n => String.mk ('-' :: (natToJsString (n + 1)).toList)

/-- The expression `a || b` on numbers. -/
def orElse (a b : Int) : Int :=
  if a ≠ 0 then a else b

/-- The expression `a || b` on strings. -/
def orElseStr (a b : String) : String :=
  if a ≠ "" then a else b

/-- The characters matched by `\d` (and left in place by `replace(/\D/g, '')`). -/
def isDecimalDigit (c : Char) : Bool :=
  48 ≤ c.toNat && c.toNat ≤ 57

/-- The expression `s.replace(/\D/g, '')`. -/
def stripNonDigits (s : String) : String :=
  String.mk (s.toList.filter isDecimalDigit)

/-- The number written by a list of decimal digit characters. -/
def decimalValue (cs : List Char) : Nat :=
  cs.foldl (fun a c => a * 10 + (c.toNat - 48)) 0

/-- The exponent of an `ExponentPart` (`e` or `E`, an optional sign, at least one digit) at
the head of the input; 0 when there is none. -/
def exponentPart : List Char → Int
  | [] => 0
  | c :: rest =>
    if c = 'e' ∨ c = 'E' then
      match (splitSign rest).2.takeWhile isDecimalDigit with
      | [] => 0
      | ds => if (splitSign rest).1 then -(decimalValue ds : Int) else (decimalValue ds : Int)
    else 0

/-- The pieces of the longest `StrDecimalLiteral` at the head of a string. -/
structure FloatScan where
  neg : Bool
  mantissa : Nat
  fracLen : Nat
  exponent : Int
deriving DecidableEq, Repr

/-- The scan of `parseFloat`: leading white space, a sign, digits, a fraction, an exponent.
`none` when the string starts with no decimal numeral. -/
def scanFloat (s : String) : Option FloatScan :=
  let signed := splitSign (s.toList.dropWhile isStrWhiteSpaceChar)
  let intDigits := signed.2.takeWhile isDecimalDigit
  let afterInt := signed.2.dropWhile isDecimalDigit
  let fracDigits :=
    match afterInt with
    | '.' :: r => r.takeWhile isDecimalDigit
    | _ => []
  let afterFrac :=
    match afterInt with
    | '.' :: r => r.dropWhile isDecimalDigit
    | _ => afterInt
  if intDigits = [] ∧ fracDigits = [] then none
  else
    some { neg := signed.1, mantissa := decimalValue (intDigits ++ fracDigits),
           fracLen := fracDigits.length, exponent := exponentPart afterFrac }

/-- The number a scanned numeral denotes. -/
def FloatScan.value (f : FloatScan) : ℚ :=
  let v : ℚ := ((f.mantissa : ℚ) / (10 : ℚ) ^ f.fracLen) * (10 : ℚ) ^ f.exponent
  if f.neg then -v else v

/-- The global function `parseFloat`, exact; `none` stands for `NaN` and for the results
`Infinity` and `-Infinity` of the literals of that name. -/
def parseFloat (s : String) : Option ℚ :=
  (scanFloat s).map FloatScan.value

/-! ## Double arithmetic -/

/-- A finite IEEE double, the number `m * 2^e`; `m` is 0 or has exactly 53 binary digits.
The exponent is not bounded: overflow, the subnormal numbers, `NaN` and the infinities are
outside the model. -/
structure Dbl where
  m : Int
  e : Int
deriving DecidableEq, Repr

namespace Dbl

/-- The double 0. -/
def zero : Dbl :=
  { m := 0, e := 0 }

/-- The number of binary digits of `n` (`fuel` bounds it). -/
def bitLength : Nat → Nat → Nat
  | 0, _ => 0
  | fuel + 1, n => if n = 0 then 0 else bitLength fuel (n / 2) + 1

/-- The double nearest to `(n / d) * 2^e` for positive `n` and `d`, a tie going to the even
mantissa. -/
def roundPos (n d : Nat) (e : Int) : Dbl :=
  let s : Int := (bitLength 4096 d : Int) + 53 - (bitLength 4096 n : Int)
  let n1 : Nat := if 0 ≤ s then n * 2 ^ s.toNat else n
  let d1 : Nat := if 0 ≤ s then d else d * 2 ^ (-s).toNat
  let big : Bool := decide (2 ^ 53 ≤ n1 / d1)
  let d2 : Nat := if big then d1 * 2 else d1
  let e2 : Int := if big then e - s + 1 else e - s
  let q : Nat := n1 / d2
  let r : Nat := n1 % d2
  let q1 : Nat := if 2 * r > d2 then q + 1 else if 2 * r = d2 then q + q % 2 else q
  if q1 = 2 ^ 53 then { m := 2 ^ 52, e := e2 + 1 } else { m := q1, e := e2 }

/-- The double nearest to `(n / d) * 2^e`. -/
def round (n : Int) (d : Nat) (e : Int) : Dbl :=
  if n = 0 ∨ d = 0 then zero
  else if 0 < n then roundPos n.natAbs d e
  else { m := -(roundPos n.natAbs d e).m, e := (roundPos n.natAbs d e).e }

/-- The double of an integer. -/
def ofInt (n : Int) : Dbl :=
  round n 1 0

/-- The double nearest to a rational number (the value of a decimal numeral). -/
def ofRat (q : ℚ) : Dbl :=
  round q.num q.den 0

/-- The operator `*` on doubles. -/
def mul (a b : Dbl) : Dbl :=
  round (a.m * b.m) 1 (a.e + b.e)

/-- The operator `/` on doubles, for a divisor other than 0. -/
def div (a b : Dbl) : Dbl :=
  if 0 ≤ b.m then round a.m b.m.natAbs (a.e - b.e) else round (-a.m) b.m.natAbs (a.e - b.e)

/-- The operator `-` on doubles. -/
def sub (a b : Dbl) : Dbl :=
  round (a.m * 2 ^ (a.e - min a.e b.e).toNat - b.m * 2 ^ (b.e - min a.e b.e).toNat) 1
    (min a.e b.e)

/-- The function `Math.round` on a double: the nearest integer, the greater one of two that
are equally near. -/
def mathRound (x : Dbl) : Int :=
  if 0 ≤ x.e then x.m * 2 ^ x.e.toNat
  else Int.fdiv (2 * x.m + 2 ^ (-x.e).toNat) (2 ^ ((-x.e).toNat + 1))

/-- The number a double stands for. -/
def toRat (x : Dbl) : ℚ :=
  (x.m : ℚ) * (2 : ℚ) ^ x.e

end Dbl

/-- The characters `encodeURIComponent` leaves as they are: ASCII letters, digits and
`- _ . ! ~ * ' ( )`. -/
def isUriUnreserved (c : Char) : Bool :=
  let n := c.toNat
  (48 ≤ n && n ≤ 57) || (65 ≤ n && n ≤ 90) || (97 ≤ n && n ≤ 122) ||
  n == 45 || n == 95 || n == 46 || n == 33 || n == 126 || n == 42 || n == 39 || n == 40 ||
  n == 41

/-- The UTF-8 bytes of a code point. -/
def utf8Bytes (n : Nat) : List Nat :=
  if n < 0x80 then [n]
  else if n < 0x800 then [0xC0 + n / 64, 0x80 + n % 64]
  else if n < 0x10000 then [0xE0 + n / 4096, 0x80 + (n / 64) % 64, 0x80 + n % 64]
  else [0xF0 + n / 262144, 0x80 + (n / 4096) % 64, 0x80 + (n / 64) % 64, 0x80 + n % 64]

/-- An upper-case hexadecimal digit. -/
def hexDigitChar (d : Nat) : Char :=
  if d < 10 then Char.ofNat (48 + d) else Char.ofNat (55 + d)

/-- The escape `%XX` of a byte. -/
def percentByte (b : Nat) : List Char :=
  ['%', hexDigitChar (b / 16), hexDigitChar (b % 16)]

/-- The chars `encodeURIComponent` writes for one character. -/
def encodeURIChar (c : Char) : List Char :=
  if isUriUnreserved c then [c] else (utf8Bytes c.toNat).flatMap percentByte

/-- The global function `encodeURIComponent` (a Lean string holds no lone surrogate, so the
call does not throw). -/
def encodeURIComponent (s : String) : String :=
  String.mk (s.toList.flatMap encodeURIChar)

/-- The value of a hexadecimal digit. -/
def hexValue (c : Char) : Option Nat :=
  if 48 ≤ c.toNat ∧ c.toNat ≤ 57 then some (c.toNat - 48)
  else if 65 ≤ c.toNat ∧ c.toNat ≤ 70 then some (c.toNat - 55)
  else if 97 ≤ c.toNat ∧ c.toNat ≤ 102 then some (c.toNat - 87)
  else none

/-- The bytes a percent-encoded text stands for: `%XX` is the byte with the hexadecimal
digits `XX`, any other character the byte of its code. -/
def percentDecode : List Char → Option (List Nat)
  | [] => some []
  | c :: rest =>
    if c = '%' then
      match rest with
      | a :: b :: rest2 =>
        match hexValue a, hexValue b, percentDecode rest2 with
        | some x, some y, some bs => some ((16 * x + y) :: bs)
        | _, _, _ => none
      | _ => none
    else (percentDecode rest).map (fun bs => c.toNat :: bs)

/-- The characters a list of UTF-8 bytes stands for. -/
def utf8Decode : List Nat → Option (List Char)
  | [] => some []
  | b0 :: rest =>
    if b0 < 0x80 then (utf8Decode rest).map (fun cs => Char.ofNat b0 :: cs)
    else if b0 < 0xE0 then
      match rest with
      | b1 :: r1 =>
        (utf8Decode r1).map (fun cs => Char.ofNat ((b0 - 0xC0) * 64 + (b1 - 0x80)) :: cs)
      | _ => none
    else if b0 < 0xF0 then
      match rest with
      | b1 :: b2 :: r2 =>
        (utf8Decode r2).map
          (fun cs => Char.ofNat ((b0 - 0xE0) * 4096 + (b1 - 0x80) * 64 + (b2 - 0x80)) :: cs)
      | _ => none
    else
      match rest with
      | b1 :: b2 :: b3 :: r3 =>
        (utf8Decode r3).map
          (fun cs =>
            Char.ofNat ((b0 - 0xF0) * 262144 + (b1 - 0x80) * 4096 + (b2 - 0x80) * 64 +
              (b3 - 0x80)) :: cs)
      | _ => none

/-- The text a percent-encoded string stands for (the reading of the `text` parameter by
the receiver of a link): the UTF-8 reading of its bytes. -/
def percentUtf8Decode (s : String) : Option String :=
  match percentDecode s.toList with
  | some bs => (utf8Decode bs).map String.mk
  | none => none

/-- Digits in groups of two separated by commas, least significant digit first. -/
def groupPairs : List Char → List Char
  | a :: b :: c :: rest => a :: b :: ',' :: groupPairs (c :: rest)
  | ds => ds

/-- Digits grouped the `en-IN` way: the last three, then groups of two, given and returned
least significant digit first. -/
def groupIndian : List Char → List Char
  | a :: b :: c :: d :: rest => a :: b :: c :: ',' :: groupPairs (d :: rest)
  | ds => ds

/-- The text `new Intl.NumberFormat('en-IN').format(n)` of an integer. -/
def formatIndian (n : Int) : String :=
  let digits := String.mk (groupIndian (natToString n.natAbs).toList.reverse).reverse
  if n < 0 then String.mk ('-' :: digits.toList) else digits

/-- The helper `fmt` on an integer amount (`Math.round(n || 0)` is then `n`). -/
def fmt (n : Int) : String :=
  String.mk ('₹' :: (formatIndian n).toList)

/-! ## The document store -/

/-- The collections the valuation and registry code reads and writes. -/
structure Store where
  companies : List Company
  portfolios : List (String × List Holding)
  nextId : DocId
  notifications : List Notification := []
  nextNotificationId : DocId := 0
  adminWhatsapp : Option String := none
  clients : List (String × ClientDoc) := []

/-- The call `updateDoc(doc(db, 'companies', id), patch)`: the patch is applied to the
document with this id; the call is rejected (`none`) when there is no such document. -/
def updateCompanyDoc (db : Store) (id : DocId) (patch : Company → Company) : Option Store :=
  if db.companies.any (fun c => c.id == id) then
    some { db with companies := db.companies.map (fun c => if c.id == id then patch c else c) }
  else none

/-- The call `addDoc(collection(db, 'companies'), data)`: the document gets a fresh id. -/
def addCompanyDoc (db : Store) (data : DocId → Company) : Store :=
  { db with companies := db.companies ++ [data db.nextId], nextId := db.nextId + 1 }

/-- The call `deleteDoc(doc(db, 'companies', id))`. -/
def deleteCompanyDoc (db : Store) (id : DocId) : Store :=
  { db with companies := db.companies.filter (fun c => !(c.id == id)) }

/-- The read `getDoc(doc(db, 'portfolios', uid))` followed by
`pd.exists() ? pd.data().holdings || [] : []`. -/
def holdingsOf (db : Store) (uid : String) : List Holding :=
  (db.portfolios.lookup uid).getD []

/-- The call `setDoc(doc(db, 'portfolios', uid), { holdings })`: the document is created or
replaced as a whole. -/
def setPortfolioDoc (db : Store) (uid : String) (holdings : List Holding) : Store :=
  { db with portfolios := (uid, holdings) :: db.portfolios.filter (fun p => !(p.1 == uid)) }

/-- The call `addDoc(collection(db, 'notifications'), data)`: the document gets a fresh id. -/
def addNotificationDoc (db : Store) (data : DocId → Notification) : Store :=
  { db with notifications := db.notifications ++ [data db.nextNotificationId],
            nextNotificationId := db.nextNotificationId + 1 }

/-- The call `updateDoc(doc(db, 'notifications', id), patch)`; rejected (`none`) when there
is no such document. -/
def updateNotificationDoc (db : Store) (id : DocId) (patch : Notification → Notification) :
    Option Store :=
  if db.notifications.any (fun n => n.id == id) then
    some { db with
      notifications := db.notifications.map (fun n => if n.id == id then patch n else n) }
  else none

/-- The read `getDoc(doc(db, 'clients', uid))`: `none` when `snap.exists()` is false. -/
def getClientDoc (db : Store) (uid : String) : Option ClientDoc :=
  db.clients.lookup uid

/-- The call `updateDoc(doc(db, 'clients', uid), patch)`; rejected (`none`) when there is no
such document. -/
def updateClientDoc (db : Store) (uid : String) (patch : ClientDoc → ClientDoc) :
    Option Store :=
  if db.clients.any (fun p => p.1 == uid) then
    some { db with
      clients := db.clients.map (fun p => if p.1 == uid then (p.1, patch p.2) else p) }
  else none

/-- The call `setDoc(doc(db, 'clients', uid), data)`: the document is created or replaced as
a whole. -/
def setClientDoc (db : Store) (uid : String) (data : ClientDoc) : Store :=
  { db with clients := (uid, data) :: db.clients.filter (fun p => !(p.1 == uid)) }

/-- What `HomeScreen.load` puts into `companies` and `portfolio`: the companies selected by
`where('active', '==', true)` and the caller's holdings. -/
def HomeScreen.load (db : Store) (uid : String) : List Company × List Holding :=
  (db.companies.filter (fun c => c.active == true), holdingsOf db uid)

/-- What the load effect of `PortfolioScreen` puts into `holdings` and `companies`: the
caller's holdings and the whole `companies` collection. -/
def PortfolioScreen.load (db : Store) (uid : String) : List Holding × List Company :=
  (holdingsOf db uid, db.companies)

/-! ## AdminCompanies -/

/-- The `t` field of a toast (`success` when it is left out). -/
inductive ToastType
  | success
  | error
deriving DecidableEq, Repr

/-- The error codes of the identity provider that the model produces. -/
inductive AuthError
  | emailAlreadyInUse
  | weakPassword
  | userNotFound
  | wrongPassword
deriving DecidableEq, Repr

/-- The message templates of the toasts of the admin screens (their text is
presentation). -/
inductive ToastMsg
  | required
  | companyUpdated
  | companyAdded
  | saveFailed
  | enterValidValuation
  | repriced (name : String) (nv : Int)
  | deleted
  | selectCompanyStakeValuation
  | holdingAdded
  | removed
  | couldNotSend
  | invalidPan
  | panSaved
  | couldNotSavePan
  | nameUsernamePasswordRequired
  | passwordTooShort
  | clientAdded (name username password : String)
  | usernameExists
  | passwordTooWeak
  | errorMessage (e : AuthError)
deriving DecidableEq, Repr

/-- The toast state `{ m, t }`. -/
structure Toast where
  m : ToastMsg
  t : ToastType
deriving DecidableEq, Repr

/-- The form state of the company sheet: the numeric fields are the input strings. -/
structure CompanyForm where
  name : String
  sector : String
  minInvest : String
  currentValuation : String
  initialValuation : String
  expectedReturns : String
  risk : String
  lotSize : String
  active : Bool
  description : String
deriving DecidableEq, Repr

/-- The constant `BLANK_CO`. -/
def BLANK_CO : CompanyForm :=
  { name := "", sector := "Technology", minInvest := "", currentValuation := "",
    initialValuation := "", expectedReturns := "", risk := "Medium", lotSize := "0.5% / lot",
    active := true, description := "" }

/-- The `useState` cells of `AdminCompanies`. -/
structure AdminCompanies where
  companies : List Company
  sheet : Bool
  form : CompanyForm
  editId : Option DocId
  valMap : List (DocId × String)
  confirm : Option DocId
  toast : Option Toast

namespace AdminCompanies

/-- The component state at mount. -/
def init : AdminCompanies :=
  { companies := [], sheet := false, form := BLANK_CO, editId := none, valMap := [],
    confirm := none, toast := none }

/-- The object `data` that `save` writes, as the document with a given id. -/
def saveData (form : CompanyForm) (id : DocId) : Company :=
  { id := id, name := form.name, sector := form.sector,
    minInvest := parseIntOrZero form.minInvest,
    currentValuation := parseIntOrZero form.currentValuation,
    initialValuation :=
      parseIntOrZero
        (if form.initialValuation ≠ "" then form.initialValuation else form.currentValuation),
    expectedReturns := form.expectedReturns, risk := form.risk, lotSize := form.lotSize,
    active := form.active, description := form.description }

/-- The callback `load`: the whole `companies` collection. -/
def load (db : Store) (st : AdminCompanies) : AdminCompanies :=
  { st with companies := db.companies }

/-- The handler `save` (its trailing `load()` is the separate step `load`). -/
def save (db : Store) (st : AdminCompanies) : Store × AdminCompanies :=
  if jsTrim st.form.name = "" ∨ st.form.minInvest = "" ∨ st.form.currentValuation = "" then
    (db, { st with toast := some { m := ToastMsg.required, t := ToastType.error } })
  else
    match st.editId with
    | some id =>
      match updateCompanyDoc db id (fun _ => saveData st.form id) with
      | some db1 =>
        (db1, { st with toast := some { m := ToastMsg.companyUpdated, t := ToastType.success },
                        sheet := false, editId := none, form := BLANK_CO })
      | none =>
        (db, { st with toast := some { m := ToastMsg.saveFailed, t := ToastType.error } })
    | none =>
      (addCompanyDoc db (saveData st.form),
        { st with toast := some { m := ToastMsg.companyAdded, t := ToastType.success },
                  sheet := false, editId := none, form := BLANK_CO })

/-- The handler `updateVal(co)`; a rejected `updateDoc` is not caught, so the handler stops
there. -/
def updateVal (db : Store) (st : AdminCompanies) (co : Company) : Store × AdminCompanies :=
  match parseInt ((st.valMap.lookup co.id).getD "undefined") with
  | none =>
    (db, { st with toast := some { m := ToastMsg.enterValidValuation, t := ToastType.error } })
  | some nv =>
    if nv = 0 ∨ nv < 100 then
      (db, { st with toast := some { m := ToastMsg.enterValidValuation, t := ToastType.error } })
    else
      match updateCompanyDoc db co.id (fun c => { c with currentValuation := nv }) with
      | some db1 =>
        (db1, { st with toast := some { m := ToastMsg.repriced co.name nv, t := ToastType.success },
                        valMap := (co.id, "") :: st.valMap })
      | none => (db, st)

/-- The handler `toggleActive(co)`. -/
def toggleActive (db : Store) (st : AdminCompanies) (co : Company) : Store × AdminCompanies :=
  match updateCompanyDoc db co.id (fun c => { c with active := !co.active }) with
  | some db1 => (db1, st)
  | none => (db, st)

/-- The handler `doDelete`; without a pending confirmation `confirm.id` throws. -/
def doDelete (db : Store) (st : AdminCompanies) : Store × AdminCompanies :=
  match st.confirm with
  | some id =>
    (deleteCompanyDoc db id,
      { st with toast := some { m := ToastMsg.deleted, t := ToastType.success }, confirm := none })
  | none => (db, st)

/-- The handler `startEdit(co)`. -/
def startEdit (st : AdminCompanies) (co : Company) : AdminCompanies :=
  { st with
    form :=
      { name := co.name, sector := co.sector,
        minInvest := jsNumberToString co.minInvest,
        currentValuation := jsNumberToString co.currentValuation,
        initialValuation := jsNumberToString (orElse co.initialValuation co.currentValuation),
        expectedReturns := co.expectedReturns, risk := co.risk, lotSize := co.lotSize,
        active := co.active, description := co.description },
    editId := some co.id, sheet := true }

/-- The fields of the sheet that have an input (`sf(k)`); there is none for
`initialValuation` and `active`. -/
inductive FormField
  | name
  | minInvest
  | currentValuation
  | expectedReturns
  | lotSize
  | sector
  | risk
  | description
deriving DecidableEq, Repr

/-- The setter `sf(k)(v)`. -/
def sf (st : AdminCompanies) (k : FormField) (v : String) : AdminCompanies :=
  { st with
    form :=
      match k with
      | FormField.name => { st.form with name := v }
      | FormField.minInvest => { st.form with minInvest := v }
      | FormField.currentValuation => { st.form with currentValuation := v }
      | FormField.expectedReturns => { st.form with expectedReturns := v }
      | FormField.lotSize => { st.form with lotSize := v }
      | FormField.sector => { st.form with sector := v }
      | FormField.risk => { st.form with risk := v }
      | FormField.description => { st.form with description := v } }

/-- The user and timer events of the admin's company screen.  An event on a listed company
names it by its id in the loaded list. -/
inductive Event
  | load
  | openAdd
  | type (k : FormField) (v : String)
  | typeVal (id : DocId) (v : String)
  | startEdit (id : DocId)
  | closeSheet
  | save
  | updateVal (id : DocId)
  | toggleActive (id : DocId)
  | askDelete (id : DocId)
  | cancelDelete
  | doDelete

/-- The listed company with a given id (the card the user acts on). -/
def listed (st : AdminCompanies) (id : DocId) : Option Company :=
  st.companies.find? (fun c => c.id == id)

/-- One event of the screen, applied to the store and the component state. -/
def step (s : Store × AdminCompanies) : Event → Store × AdminCompanies
  | Event.load => (s.1, load s.1 s.2)
  | Event.openAdd => (s.1, { s.2 with form := BLANK_CO, editId := none, sheet := true })
  | Event.type k v => (s.1, sf s.2 k v)
  | Event.typeVal id v => (s.1, { s.2 with valMap := (id, v) :: s.2.valMap })
  | Event.startEdit id =>
    match listed s.2 id with
    | some co => (s.1, startEdit s.2 co)
    | none => s
  | Event.closeSheet => (s.1, { s.2 with sheet := false })
  | Event.save => save s.1 s.2
  | Event.updateVal id =>
    match listed s.2 id with
    | some co => updateVal s.1 s.2 co
    | none => s
  | Event.toggleActive id =>
    match listed s.2 id with
    | some co => toggleActive s.1 s.2 co
    | none => s
  | Event.askDelete id =>
    match listed s.2 id with
    | some co => (s.1, { s.2 with confirm := some co.id })
    | none => s
  | Event.cancelDelete => (s.1, { s.2 with confirm := none })
  | Event.doDelete => doDelete s.1 s.2

/-- A sequence of events, applied from left to right. -/
def run (s : Store × AdminCompanies) (evs : List Event) : Store × AdminCompanies :=
  evs.foldl step s

/-- The start: an empty `companies` collection and a freshly mounted screen. -/
def start (portfolios : List (String × List Holding)) : Store × AdminCompanies :=
  ({ companies := [], portfolios := portfolios, nextId := 0 }, init)

end AdminCompanies

/-! ## Messaging handoff -/

/-- The link `https://wa.me/<digits of phone>?text=<encoded text>` that `window.open`
receives. -/
def waLink (phone text : String) : String :=
  "https://wa.me/" ++ stripNonDigits phone ++ "?text=" ++ encodeURIComponent text

/-! ## HomeScreen -/

namespace HomeScreen

/-- The `useState` cells of `HomeScreen`. -/
structure State where
  companies : List Company
  portfolio : List Holding
  adminPhone : String
  investing : Option Company
  sending : Bool
  done : Bool
  toast : Option Toast
deriving DecidableEq

/-- The component state at mount. -/
def init : State :=
  { companies := [], portfolio := [], adminPhone := "", investing := none, sending := false,
    done := false, toast := none }

/-- The callback `load` on the component state: the active companies, the caller's
holdings and, when the `adminConfig/main` document exists, its `whatsapp` field. -/
def loadState (db : Store) (user : User) (st : State) : State :=
  { st with
    companies := (load db user.uid).1,
    portfolio := (load db user.uid).2,
    adminPhone :=
      match db.adminWhatsapp with
      | some w => w
      | none => st.adminPhone }

/-- The button "Invest Now" of a listed company: `setInvesting(co); setDone(false)`. -/
def invest (st : State) (co : Company) : State :=
  { st with investing := some co, done := false }

/-- The `message` field of the notification. -/
def interestMessage (user : User) (co : Company) : String :=
  orElseStr user.name "Client" ++ " is interested in " ++ co.name ++ " (min " ++
    fmt co.minInvest ++ ")"

/-- The text of the client's handoff message, before encoding. -/
def handoffText (user : User) (co : Company) : String :=
  "Hello Anand Finco!\n\nI'm *" ++ orElseStr user.name "your client" ++ "* (" ++ user.email ++
    ").\nInterested in *" ++ co.name ++ "*.\nMin: " ++ fmt co.minInvest ++ "\nContact: " ++
    orElseStr user.phone "see app" ++ "\n\n– Anand Finco App"

/-- The document `confirmInvest` adds; `now` is `Timestamp.now()`. -/
def notificationOf (user : User) (co : Company) (now : Nat) (id : DocId) : Notification :=
  { id := id, clientId := user.uid, clientName := orElseStr user.name user.email,
    clientPhone := orElseStr user.phone "N/A", clientEmail := user.email,
    companyId := co.id, companyName := co.name, interestedMin := co.minInvest,
    message := interestMessage user co, timestamp := now, read := false }

/-- What a handler call leaves behind: the store, the component state and the link given to
`window.open`, if any. -/
structure Outcome where
  db : Store
  st : State
  opened : Option String

/-- The handler `confirmInvest`; the toast `couldNotSend` of its `catch` branch needs a
failing `addDoc`, which the store model does not have. -/
def confirmInvest (db : Store) (user : User) (now : Nat) (st : State) : Outcome :=
  match st.investing with
  | none => { db := db, st := st, opened := none }
  | some investing =>
    { db := addNotificationDoc db (notificationOf user investing now),
      st := { st with sending := false, done := true },
      opened :=
        if st.adminPhone ≠ "" then some (waLink st.adminPhone (handoffText user investing))
        else none }

/-- The client presses "Invest Now" on `co` and then "Confirm Interest", once for each
timestamp of the list. -/
def confirmRepeatedly (user : User) (co : Company) (db : Store) (st : State) :
    List Nat → Store × State
  | [] => (db, st)
  | now :: rest =>
    confirmRepeatedly user co (confirmInvest db user now (invest st co)).db
      (confirmInvest db user now (invest st co)).st rest

end HomeScreen

/-! ## AdminNotifications -/

namespace AdminNotifications

/-- The handler `markRead(n)` on the store (its trailing `load()` only refreshes the list);
a rejected `updateDoc` is not caught and leaves the store as it is. -/
def markRead (db : Store) (n : Notification) : Store :=
  if n.read then db
  else
    match updateNotificationDoc db n.id (fun m => { m with read := true }) with
    | some db1 => db1
    | none => db

/-- The text of the admin's handoff message, before encoding. -/
def handoffText (n : Notification) : String :=
  "Hello " ++ n.clientName ++ "! 👋\n\nThis is Team Anand Finco. We received your interest in *" ++
    n.companyName ++ "*.\n\nLet's connect to discuss the investment details!\n\n– Anand Finco"

/-- The handler `openWA(n)`: the link given to `window.open`, if any.  It has no access to
the store. -/
def openWA (n : Notification) : Option String :=
  let ph := stripNonDigits (orElseStr n.clientPhone "")
  if ph = "" ∨ ph = "NA" then none
  else some ("https://wa.me/" ++ ph ++ "?text=" ++ encodeURIComponent (handoffText n))

end AdminNotifications

/-! ## AdminPortfolios -/

/-- The form state of the holding sheet; `companyId` is `none` for the initial `''`. -/
structure HoldingForm where
  companyId : Option DocId
  stake : String
  buyValuation : String
  investedAmt : String
  purchaseDate : String
deriving DecidableEq, Repr

/-- The `useState` cells of `AdminPortfolios`; `confirm` holds the `idx` of the pending
removal. -/
structure AdminPortfolios where
  clients : List Client
  companies : List Company
  selected : Option Client
  holdings : List Holding
  sheet : Bool
  confirm : Option Nat
  toast : Option Toast
  saving : Bool
  form : HoldingForm

namespace AdminPortfolios

/-- The figures of one holding card of the admin's portfolio screen. -/
structure Row where
  curr : ℚ
  buy : ℚ
  g : ℚ

/-- The callback of `holdings.map((h, i) => ...)` in `AdminPortfolios`. -/
def row (companies : List Company) (h : Holding) : Row :=
  let co := findCompany companies h
  let curr : ℚ := (h.stake / 100) * (nowValuation co h : ℚ)
  let buy : ℚ := (h.stake / 100) * (h.buyValuation : ℚ)
  let g : ℚ := curr - buy
  { curr := curr, buy := buy, g := g }

/-- The handler `selectClient(c)`. -/
def selectClient (db : Store) (st : AdminPortfolios) (c : Client) : AdminPortfolios :=
  { st with selected := some c, holdings := holdingsOf db c.id }

/-- The expression `Math.round((stake / 100) * buyV)`, computed in doubles as the code
computes it: `stake` is the double nearest to the parsed numeral. -/
def roundedAmount (stake : ℚ) (buyV : Int) : Int :=
  Dbl.mathRound (Dbl.mul (Dbl.div (Dbl.ofRat stake) (Dbl.ofInt 100)) (Dbl.ofInt buyV))

/-- The object `h` that `addHolding` builds, given the parsed `stake` and `buyV`. -/
def builtHolding (form : HoldingForm) (co : Company) (stake : ℚ) (buyV : Int) : Holding :=
  { companyId := co.id, companyName := co.name, sector := co.sector, stake := stake,
    buyValuation := buyV,
    investedAmt := orElse (parseIntOrZero form.investedAmt) (roundedAmount stake buyV),
    purchaseDate := form.purchaseDate }

/-- The parsing steps of `addHolding` and the object `h` as a holding with numbers; `none`
when the parsed stake or buy valuation is `NaN` (`holdingData` is the object for every
input). -/
def newHolding (form : HoldingForm) (co : Company) : Option Holding :=
  match parseFloat form.stake, parseInt form.buyValuation with
  | some stake, some buyV => some (builtHolding form co stake buyV)
  | _, _ => none

/-- The lookup `companies.find(c => c.id === form.companyId)`. -/
def formCompany (st : AdminPortfolios) : Option Company :=
  match st.form.companyId with
  | some id => st.companies.find? (fun c => c.id == id)
  | none => none

/-- The object `h` of `addHolding` with its numbers as they are computed; `none` is `NaN`
(or an infinity, see `parseFloat`). -/
structure HoldingData where
  companyId : DocId
  companyName : String
  sector : String
  stake : Option ℚ
  buyValuation : Option Int
  investedAmt : Option Int
  purchaseDate : String
deriving DecidableEq, Repr

/-- A holding with numbers as such an object. -/
def HoldingData.ofHolding (h : Holding) : HoldingData :=
  { companyId := h.companyId, companyName := h.companyName, sector := h.sector,
    stake := some h.stake, buyValuation := some h.buyValuation,
    investedAmt := some h.investedAmt, purchaseDate := h.purchaseDate }

/-- The value `Math.round((stake / 100) * buyV)` of `addHolding`, `NaN` when `stake` or
`buyV` is. -/
def computedAmount (form : HoldingForm) : Option Int :=
  match parseFloat form.stake, parseInt form.buyValuation with
  | some stake, some buyV => some (roundedAmount stake buyV)
  | _, _ => none

/-- The object `h` that `addHolding` builds from the form, for every input:
`stake = parseFloat(form.stake)`, `buyValuation = parseInt(form.buyValuation)` and
`investedAmt = parseInt(form.investedAmt) || Math.round((stake / 100) * buyV)`. -/
def holdingData (form : HoldingForm) (co : Company) : HoldingData :=
  { companyId := co.id, companyName := co.name, sector := co.sector,
    stake := parseFloat form.stake, buyValuation := parseInt form.buyValuation,
    investedAmt :=
      match parseInt form.investedAmt with
      | some n => if n ≠ 0 then some n else computedAmount form
      | none => computedAmount form,
    purchaseDate := form.purchaseDate }

/-- What a call of `addHolding` does to the `portfolios` collection: nothing after the
guard, the call `setDoc(doc(db, 'portfolios', uid), { holdings })`, or nothing after
`selected.id` has thrown inside the `try` block. -/
inductive AddHoldingCall
  | refused
  | setDoc (uid : String) (holdings : List HoldingData)
  | thrown
deriving DecidableEq, Repr

/-- The handler `addHolding` as the write it makes and the toast it raises, for every
input. -/
def addHoldingCall (st : AdminPortfolios) : AddHoldingCall × Toast :=
  match formCompany st with
  | none =>
    (AddHoldingCall.refused,
      { m := ToastMsg.selectCompanyStakeValuation, t := ToastType.error })
  | some co =>
    if st.form.stake = "" ∨ st.form.buyValuation = "" then
      (AddHoldingCall.refused,
        { m := ToastMsg.selectCompanyStakeValuation, t := ToastType.error })
    else
      match st.selected with
      | some c =>
        (AddHoldingCall.setDoc c.id
            (st.holdings.map HoldingData.ofHolding ++ [holdingData st.form co]),
          { m := ToastMsg.holdingAdded, t := ToastType.success })
      | none =>
        (AddHoldingCall.thrown, { m := ToastMsg.saveFailed, t := ToastType.error })

/-- The handler `addHolding` carried out on the store.  Without a selected client
`selected.id` throws inside the `try` block.  The result is `none` only where `newHolding`
is: the written holding then has a `NaN` field (see `addHoldingCall`). -/
def addHolding (db : Store) (st : AdminPortfolios) : Option (Store × AdminPortfolios) :=
  match formCompany st with
  | none =>
    some (db, { st with
      toast := some { m := ToastMsg.selectCompanyStakeValuation, t := ToastType.error } })
  | some co =>
    if st.form.stake = "" ∨ st.form.buyValuation = "" then
      some (db, { st with
        toast := some { m := ToastMsg.selectCompanyStakeValuation, t := ToastType.error } })
    else
      match newHolding st.form co with
      | none => none
      | some h =>
        match st.selected with
        | some c =>
          some (setPortfolioDoc db c.id (st.holdings ++ [h]),
            { st with holdings := st.holdings ++ [h], sheet := false, saving := false,
                      toast := some { m := ToastMsg.holdingAdded, t := ToastType.success } })
        | none =>
          some (db,
            { st with saving := false,
                      toast := some { m := ToastMsg.saveFailed, t := ToastType.error } })

/-- The expression `holdings.filter((_, i) => i !== idx)`. -/
def filterIndexNe (holdings : List Holding) (idx : Nat) : List Holding :=
  (holdings.enum.filter (fun p => p.1 != idx)).map (fun p => p.2)

/-- The handler `removeHolding`; without a pending confirmation or a selected client the
handler throws before it writes. -/
def removeHolding (db : Store) (st : AdminPortfolios) : Store × AdminPortfolios :=
  match st.confirm, st.selected with
  | some idx, some c =>
    (setPortfolioDoc db c.id (filterIndexNe st.holdings idx),
      { st with holdings := filterIndexNe st.holdings idx, confirm := none,
                toast := some { m := ToastMsg.removed, t := ToastType.success } })
  | _, _ => (db, st)

end AdminPortfolios

/-! ## PortfolioScreen: sector breakdown -/

namespace PortfolioScreen

/-- One bar of the sector breakdown: the entry `[sec, val]` and its share `p`. -/
structure SectorBar where
  sec : String
  val : ℚ
  p : ℚ

/-- The callback of `enriched.reduce(..., {})`:
`a[h.sector] = (a[h.sector] || 0) + h.curr`.  The object `a` is the list of its own
properties in creation order: assigning to an existing key keeps its place, a new key goes
to the end.  A sector named like a property of `Object.prototype` or like an array index,
which an object treats differently, is outside the model (the company form offers the
names of `SECTORS`). -/
def addSector (a : List (String × ℚ)) (e : Enriched) : List (String × ℚ) :=
  let v : ℚ := (a.lookup e.h.sector).getD 0 + e.curr
  if a.any (fun p => p.1 == e.h.sector) then
    a.map (fun p => if p.1 == e.h.sector then (p.1, v) else p)
  else a ++ [(e.h.sector, v)]

/-- The object `sectors`. -/
def sectors (es : List Enriched) : List (String × ℚ) :=
  es.foldl addSector []

/-- The list `Object.entries(sectors).sort(([, a], [, b]) => b - a)`; `sort` is stable. -/
def sortedSectors (es : List Enriched) : List (String × ℚ) :=
  (sectors es).insertionSort (fun x y => y.2 ≤ x.2)

/-- The share `p = totC > 0 ? (val / totC) * 100 : 0` of one entry. -/
def sectorShare (totC val : ℚ) : ℚ :=
  if totC > 0 then (val / totC) * 100 else 0

/-- The bars of the block `enriched.length > 0 && ...`, in the order they are rendered. -/
def sectorBars (companies : List Company) (holdings : List Holding) : List SectorBar :=
  if (enriched companies holdings).length > 0 then
    (sortedSectors (enriched companies holdings)).map
      (fun x => { sec := x.1, val := x.2, p := sectorShare (totC companies holdings) x.2 })
  else []

end PortfolioScreen

/-! ## PortfolioScreen in double arithmetic -/

namespace PortfolioScreen

/-- The figures of one element of `enriched` as doubles. -/
structure EnrichedDouble where
  curr : Dbl
  buy : Dbl
  g : Dbl
  gp : Dbl
  vp : Dbl
deriving DecidableEq, Repr

/-- The callback of `holdings.map(h => ...)` in `PortfolioScreen` with every operation
rounded to the nearest double, as the code computes it; the stored stake is the double
nearest to `h.stake`. -/
def enrichDouble (companies : List Company) (h : Holding) : EnrichedDouble :=
  let co := findCompany companies h
  let stake := Dbl.ofRat h.stake
  let now := Dbl.ofInt (nowValuation co h)
  let buyValuation := Dbl.ofInt h.buyValuation
  let curr := Dbl.mul (Dbl.div stake (Dbl.ofInt 100)) now
  let buy := Dbl.mul (Dbl.div stake (Dbl.ofInt 100)) buyValuation
  let g := Dbl.sub curr buy
  let gp := if 0 < buy.m then Dbl.mul (Dbl.div g buy) (Dbl.ofInt 100) else Dbl.zero
  let vp :=
    if h.buyValuation > 0 then
      Dbl.mul (Dbl.div (Dbl.sub now buyValuation) buyValuation) (Dbl.ofInt 100)
    else Dbl.zero
  { curr := curr, buy := buy, g := g, gp := gp, vp := vp }

end PortfolioScreen

/-! ## ProfileScreen -/

/-- The `useState` cells of `ProfileScreen`. -/
structure ProfileScreen where
  pan : String
  editing : Bool
  saving : Bool
  toast : Option Toast
deriving DecidableEq, Repr

namespace ProfileScreen

/-- The initial state: `pan` is `user.pan || ''`. -/
def init (user : User) : ProfileScreen :=
  { pan := orElseStr user.pan "", editing := false, saving := false, toast := none }

/-- The characters matched by `[A-Z]`. -/
def isUpperLetter (c : Char) : Bool :=
  65 ≤ c.toNat && c.toNat ≤ 90

/-- The test `/^[A-Z]{5}[0-9]{4}[A-Z]$/.test(v)`; without the `m` flag `$` matches at the end
of the input only. -/
def panRegexTest (v : String) : Bool :=
  match v.toList with
  | [a, b, c, d, e, f, g, h, i, j] =>
    isUpperLetter a && isUpperLetter b && isUpperLetter c && isUpperLetter d &&
    isUpperLetter e && isDecimalDigit f && isDecimalDigit g && isDecimalDigit h &&
    isDecimalDigit i && isUpperLetter j
  | _ => false

/-- The handler `savePan`. -/
def savePan (db : Store) (user : User) (st : ProfileScreen) : Store × ProfileScreen :=
  let v := toUpperCase st.pan
  if !panRegexTest v then
    (db, { st with toast := some { m := ToastMsg.invalidPan, t := ToastType.error } })
  else
    match updateClientDoc db user.uid (fun d => { d with pan := some v }) with
    | some db1 =>
      (db1, { st with editing := false, saving := false,
                      toast := some { m := ToastMsg.panSaved, t := ToastType.success } })
    | none =>
      (db, { st with saving := false,
                     toast := some { m := ToastMsg.couldNotSavePan, t := ToastType.error } })

end ProfileScreen

/-! ## The identity provider -/

/-- An account of the identity provider. -/
structure Account where
  uid : String
  email : String
  password : String
deriving DecidableEq, Repr

/-- The identity provider: its accounts and the counter the uids of new accounts are made
from. -/
structure Auth where
  accounts : List Account
  nextUid : Nat
deriving DecidableEq, Repr

/-- The call `createUserWithEmailAndPassword(auth, email, password)`: the new account and
its user (the provider also signs that user in; the session is not part of the model). -/
def createUserWithEmailAndPassword (auth : Auth) (email password : String) :
    Except AuthError (Auth × FbUser) :=
  if auth.accounts.any (fun a => a.email == email) then
    Except.error AuthError.emailAlreadyInUse
  else if utf16Length password < 6 then
    Except.error AuthError.weakPassword
  else
    Except.ok
      ({ accounts :=
            auth.accounts ++
              [{ uid := "uid" ++ natToString auth.nextUid, email := email,
                 password := password }],
         nextUid := auth.nextUid + 1 },
       { uid := "uid" ++ natToString auth.nextUid, email := email })

/-- The call `signInWithEmailAndPassword(auth, email, password)`. -/
def signInWithEmailAndPassword (auth : Auth) (email password : String) :
    Except AuthError FbUser :=
  match auth.accounts.find? (fun a => a.email == email) with
  | none => Except.error AuthError.userNotFound
  | some a =>
    if a.password = password then Except.ok { uid := a.uid, email := a.email }
    else Except.error AuthError.wrongPassword

/-! ## LoginScreen -/

/-- The messages of the `error` cell of the login screen. -/
inductive LoginError
  | enterUsernameAndPassword
  | rejected (e : AuthError)
deriving DecidableEq, Repr

/-- The `useState` cells of `LoginScreen`; `error` is `none` for `''`. -/
structure LoginScreen where
  un : String
  pw : String
  showPw : Bool
  loading : Bool
  error : Option LoginError
deriving DecidableEq, Repr

namespace LoginScreen

/-- The address `login` signs in with:
`un.trim().toLowerCase() === 'admin' ? ADMIN_EMAIL : un.trim().toLowerCase() + '@anandfinco.com'`. -/
def email (un : String) : String :=
  if toLowerCase (jsTrim un) = "admin" then ADMIN_EMAIL
  else toLowerCase (jsTrim un) ++ "@anandfinco.com"

/-- The handler `login`: the next state of the screen and the user signed in, if any. -/
def login (auth : Auth) (st : LoginScreen) : LoginScreen × Option FbUser :=
  if st.un = "" ∨ st.pw = "" then
    ({ st with error := some LoginError.enterUsernameAndPassword }, none)
  else
    match signInWithEmailAndPassword auth (email st.un) st.pw with
    | Except.ok u => ({ st with loading := false, error := none }, some u)
    | Except.error e => ({ st with loading := false, error := some (LoginError.rejected e) }, none)

end LoginScreen

/-! ## AdminClients -/

/-- The form state of the client sheet. -/
structure ClientForm where
  name : String
  username : String
  password : String
  phone : String
  email : String
  city : String
  joinDate : String
  welcomeNote : String
deriving DecidableEq, Repr

/-- The `useState` cells of `AdminClients`; a client is a document with its id. -/
structure AdminClients where
  clients : List (String × ClientDoc)
  sheet : Bool
  saving : Bool
  toast : Option Toast
  form : ClientForm
deriving DecidableEq, Repr

namespace AdminClients

/-- The empty form; `year` is `String(new Date().getFullYear())`. -/
def blankForm (year : String) : ClientForm :=
  { name := "", username := "", password := "", phone := "", email := "", city := "",
    joinDate := year, welcomeNote := "" }

/-- What `load` puts into `clients`: the documents whose `email` is not `ADMIN_EMAIL`. -/
def load (db : Store) : List (String × ClientDoc) :=
  db.clients.filter (fun p => p.2.email != some ADMIN_EMAIL)

/-- The address `addClient` registers:
`form.username.trim().toLowerCase().replace(/\s/g, '.') + '@anandfinco.com'`. -/
def email (username : String) : String :=
  replaceWhiteSpace (toLowerCase (jsTrim username)) ++ "@anandfinco.com"

/-- The document `addClient` writes for the new client. -/
def clientDoc (form : ClientForm) : ClientDoc :=
  { name := some form.name, email := some (email form.username), phone := some form.phone,
    city := some form.city, pan := some "", joinDate := some form.joinDate,
    welcomeNote := some form.welcomeNote,
    username := some (toLowerCase (jsTrim form.username)) }

/-- What a call of `addClient` leaves behind. -/
structure Outcome where
  auth : Auth
  db : Store
  st : AdminClients

/-- The handler `addClient`. -/
def addClient (auth : Auth) (db : Store) (year : String) (st : AdminClients) : Outcome :=
  if st.form.name = "" ∨ st.form.username = "" ∨ st.form.password = "" then
    { auth := auth, db := db,
      st := { st with toast := some { m := ToastMsg.nameUsernamePasswordRequired,
                                      t := ToastType.error } } }
  else if utf16Length st.form.password < 6 then
    { auth := auth, db := db,
      st := { st with toast := some { m := ToastMsg.passwordTooShort,
                                      t := ToastType.error } } }
  else
    match createUserWithEmailAndPassword auth (email st.form.username) st.form.password with
    | Except.ok (auth1, userCred) =>
      { auth := auth1, db := setClientDoc db userCred.uid (clientDoc st.form),
        st := { clients := load (setClientDoc db userCred.uid (clientDoc st.form)),
                sheet := false, saving := false,
                toast := some { m := ToastMsg.clientAdded st.form.name st.form.username
                                       st.form.password,
                                t := ToastType.success },
                form := blankForm year } }
    | Except.error e =>
      { auth := auth, db := db,
        st := { st with saving := false,
                        toast := some { m := (match e with
                                              | AuthError.emailAlreadyInUse =>
                                                ToastMsg.usernameExists
                                              | AuthError.weakPassword =>
                                                ToastMsg.passwordTooWeak
                                              | other => ToastMsg.errorMessage other),
                                        t := ToastType.error } } }

end AdminClients

/-! ## App -/

/-- The value of the state cell `user` of `App`: `undefined` while loading, `null` when
nobody is signed in. -/
inductive AuthState
  | undefined
  | null
  | user (fbUser : FbUser)
deriving DecidableEq, Repr

/-- The `useState` cells of `App`. -/
structure App where
  user : AuthState
  profile : Option User
deriving DecidableEq, Repr

/-- What `App` renders inside the shell. -/
inductive Screen
  | loader
  | loginScreen
  | adminApp (user : User)
  | clientApp (user : User)
deriving DecidableEq, Repr

namespace App

/-- The initial state. -/
def init : App :=
  { user := AuthState.undefined, profile := none }

/-- The object `{ uid: fbUser.uid, email: fbUser.email, isAdmin }`. -/
def bareProfile (fbUser : FbUser) (isAdmin : Bool) : User :=
  { uid := fbUser.uid, email := fbUser.email, name := "", phone := "", isAdmin := isAdmin }

/-- The object `{ uid: fbUser.uid, email: fbUser.email, isAdmin, ...snap.data() }`: a field
the document carries replaces the one written before the spread. -/
def spreadProfile (fbUser : FbUser) (isAdmin : Bool) (data : ClientDoc) : User :=
  { uid := data.uid.getD fbUser.uid, email := data.email.getD fbUser.email,
    name := data.name.getD "", phone := data.phone.getD "",
    isAdmin := data.isAdmin.getD isAdmin, pan := data.pan.getD "",
    city := data.city.getD "", joinDate := data.joinDate.getD "",
    welcomeNote := data.welcomeNote.getD "", username := data.username.getD "" }

/-- The callback of `onAuthStateChanged` (the `catch` around `getDoc` needs a failing read,
which the store model does not have). -/
def onAuthStateChanged (db : Store) (fbUser : Option FbUser) (_app : App) : App :=
  match fbUser with
  | some fbUser =>
    let isAdmin : Bool := decide (fbUser.email = ADMIN_EMAIL)
    if !isAdmin then
      match getClientDoc db fbUser.uid with
      | some data =>
        { user := AuthState.user fbUser, profile := some (spreadProfile fbUser isAdmin data) }
      | none =>
        { user := AuthState.user fbUser, profile := some (bareProfile fbUser isAdmin) }
    else
      { user := AuthState.user fbUser, profile := some (bareProfile fbUser isAdmin) }
  | none => { user := AuthState.null, profile := none }

/-- The screen selected by the conditional of the `return`. -/
def render (app : App) : Screen :=
  match app.user with
  | AuthState.undefined => Screen.loader
  | AuthState.null => Screen.loginScreen
  | AuthState.user user =>
    match app.profile with
    | some profile =>
      if profile.isAdmin then Screen.adminApp profile else Screen.clientApp profile
    | none =>
      Screen.clientApp
        { uid := user.uid, email := user.email, name := "", phone := "", isAdmin := false }

end App

/-! ## Invariants of the admin's company screen -/

namespace AdminCompanies

/-- Every id in use (in the store, in the loaded list, in `editId`) was handed out by the
counter, and a sheet that is not editing a company has an empty `initialValuation` field. -/
def WellFormed (s : Store × AdminCompanies) : Prop :=
  (∀ c ∈ s.1.companies, c.id < s.1.nextId) ∧
  (∀ c ∈ s.2.companies, c.id < s.1.nextId) ∧
  (∀ id, s.2.editId = some id → id < s.1.nextId) ∧
  (s.2.editId = none → s.2.form.initialValuation = "")

/-- Every copy of the company `k` (the stored document, the loaded list entry, the sheet
that edits it) carries the initial valuation `v`. -/
def Tracks (k : DocId) (v : Int) (s : Store × AdminCompanies) : Prop :=
  k < s.1.nextId ∧
  (∀ c ∈ s.1.companies, c.id = k → c.initialValuation = v) ∧
  (∀ c ∈ s.2.companies, c.id = k → c.initialValuation = v) ∧
  (s.2.editId = some k → s.2.form.initialValuation = jsNumberToString v)

end AdminCompanies

/-! ## Scenario data -/

/-- A company document with the given id, valuation and visibility. -/
def sampleCompany (id : DocId) (cv : Int) ( active : Bool) : Company :=
  { id := id, name := "Acme Tech", sector := "Technology", minInvest := 50000,
    currentValuation := cv, initialValuation := 5000000, expectedReturns := "15-20%",
    risk := "Medium", lotSize := "0.5% / lot", active := active, description := "" }

/-- The holding of scenarios A and B: a 1% stake bought at a valuation of 5000000. -/
def sampleHolding (companyId : DocId) : Holding :=
  { companyId := companyId, companyName := "Acme Tech", sector := "Technology", stake := 1,
    buyValuation := 5000000, investedAmt := 50000, purchaseDate := "2024-01-01" }

/-- A store with one company (id 1, valued at 5000000) in which two clients hold stakes of
1% and 2%. -/
def sampleStore ( active : Bool) : Store :=
  { companies := [sampleCompany 1 5000000 active],
    portfolios := [("u1", [sampleHolding 1]), ("u2", [{ sampleHolding 1 with stake := 2 }])],
    nextId := 2 }

/-- The admin's screen over `sampleStore` with a new valuation typed into the company's
"Update Valuation" box. -/
def sampleAdmin ( active : Bool) (input : String) : AdminCompanies :=
  { AdminCompanies.init with
    companies := [sampleCompany 1 5000000 active], valMap := [(1, input)] }

/-- The sheet opened with "+ Add" and filled in with a name, a minimum investment and a
valuation. -/
def filledSheet (name minInvest currentValuation : String) : AdminCompanies :=
  { AdminCompanies.init with
    sheet := true,
    form := { BLANK_CO with name := name, minInvest := minInvest,
                            currentValuation := currentValuation } }

/-- The events that add a company through the sheet. -/
def createEvents (name minInvest currentValuation : String) : List AdminCompanies.Event :=
  [AdminCompanies.Event.openAdd,
   AdminCompanies.Event.type AdminCompanies.FormField.name name,
   AdminCompanies.Event.type AdminCompanies.FormField.minInvest minInvest,
   AdminCompanies.Event.type AdminCompanies.FormField.currentValuation currentValuation]

/-- The events that reprice the company `id` through its "Update Valuation" box and then
save it unchanged from the edit sheet. -/
def repriceThenEditEvents (id : DocId) (input : String) : List AdminCompanies.Event :=
  [AdminCompanies.Event.load,
   AdminCompanies.Event.typeVal id input,
   AdminCompanies.Event.updateVal id,
   AdminCompanies.Event.load,
   AdminCompanies.Event.startEdit id,
   AdminCompanies.Event.save]

/-- The events that reload the list, open the edit sheet of the company `id` and save it
with nothing typed. -/
def editUnchangedEvents (id : DocId) : List AdminCompanies.Event :=
  [AdminCompanies.Event.load,
   AdminCompanies.Event.startEdit id,
   AdminCompanies.Event.save]

/-- The events that open the edit sheet of the company `id`, type a new valuation and
save. -/
def editValuationEvents (id : DocId) (input : String) : List AdminCompanies.Event :=
  [AdminCompanies.Event.startEdit id,
   AdminCompanies.Event.type AdminCompanies.FormField.currentValuation input,
   AdminCompanies.Event.save]

/-- The sample store after the company was hidden and repriced to 6000000. -/
def hiddenRepricedStore : Store :=
  { sampleStore false with companies := [sampleCompany 1 6000000 false] }

/-- A client of the sample store. -/
def sampleClient : Client :=
  { id := "u1", name := "Asha", email := "asha@anandfinco.com", phone := "+91 98765 43210" }

/-- The profile of the same client as the client screens receive it. -/
def sampleUser : User :=
  { uid := "u1", email := "asha@anandfinco.com", name := "Asha", phone := "+91 98765 43210" }

/-- The admin's portfolio screen with the sample client selected, the given holdings loaded
and the holding sheet filled in for the company with id 1. -/
def holdingSheet (holdings : List Holding) (stake buyValuation investedAmt : String) :
    AdminPortfolios :=
  { clients := [sampleClient], companies := [sampleCompany 1 5000000 true],
    selected := some sampleClient, holdings := holdings, sheet := true, confirm := none,
    toast := none, saving := false,
    form := { companyId := some 1, stake := stake, buyValuation := buyValuation,
              investedAmt := investedAmt, purchaseDate := "2025-01-15" } }

/-- The holding with the given stake in the company with id 1, bought at 5000000. -/
def stakeHolding (stake : ℚ) : Holding :=
  { sampleHolding 1 with stake := stake }

/-- The admin's portfolio screen with the sample client selected, the given holdings loaded
and the removal of position `idx` pending. -/
def removalPending (holdings : List Holding) (idx : Nat) : AdminPortfolios :=
  { holdingSheet holdings "1" "" "" with sheet := false, confirm := some idx }

/-- The client's home screen loaded from a store, with the sample company selected through
"Invest Now". -/
def investingState (db : Store) : HomeScreen.State :=
  HomeScreen.invest (HomeScreen.loadState db sampleUser HomeScreen.init)
    (sampleCompany 1 5000000 true)

/-- The stored document of the sample client. -/
def sampleClientDoc : ClientDoc :=
  { name := some "Asha", email := some "asha@anandfinco.com",
    phone := some "+91 98765 43210", city := some "Mumbai", pan := some "",
    joinDate := some "2025", welcomeNote := some "", username := some "asha" }

/-- The sample store with the document of the sample client. -/
def clientStore : Store :=
  { sampleStore true with clients := [("u1", sampleClientDoc)] }

/-- The profile screen of the sample client with `s` in the PAN field. -/
def panEntry (s : String) : ProfileScreen :=
  { pan := s, editing := true, saving := false, toast := none }

/-- The sample client as the identity provider reports it. -/
def sampleFbUser : FbUser :=
  { uid := "u1", email := "asha@anandfinco.com" }

/-- The sample store in which the document of the sample client carries `isAdmin: true`. -/
def selfPromotedStore : Store :=
  { sampleStore true with clients := [("u1", { sampleClientDoc with isAdmin := some true })] }

/-- The sample store in which the document of the sample client carries `uid: 'u2'`. -/
def foreignUidStore : Store :=
  { sampleStore true with clients := [("u1", { sampleClientDoc with uid := some "u2" })] }

/-- The identity provider with the account of the admin only. -/
def adminAuth : Auth :=
  { accounts := [{ uid := "admin-uid", email := ADMIN_EMAIL, password := "admin-secret" }],
    nextUid := 1 }

/-- The client sheet of the admin filled in with a name, a username and a password. -/
def clientSheet (name username password : String) : AdminClients :=
  { clients := [], sheet := true, saving := false, toast := none,
    form := { name := name, username := username, password := password, phone := "",
              email := "", city := "", joinDate := "2025", welcomeNote := "" } }

/-- The login screen with a username and a password typed in. -/
def loginEntry (un pw : String) : LoginScreen :=
  { un := un, pw := pw, showPw := false, loading := false, error := none }

/-- A holding of 0.7% of the sample company bought at a valuation of 3000000. -/
def smallHolding : Holding :=
  { sampleHolding 1 with stake := 7 / 10, buyValuation := 3000000 }

/-- A holding of 0.9% of the sample company bought at a valuation of 2000000. -/
def thinHolding : Holding :=
  { sampleHolding 1 with stake := 9 / 10, buyValuation := 2000000 }

/-- A holding of the sample company with a stake of -5%, as `addHolding` stores it for the
input "-5". -/
def negativeHolding : Holding :=
  { sampleHolding 1 with stake := -5 }

/-! ## Helper lemmas -/

theorem foldl_add_eq_sum {α : Type} (f : α → ℚ) (l : List α) (a : ℚ) :
    l.foldl (fun s x => s + f x) a = a + (l.map f).sum := by
  induction l generalizing a with
  | nil => simp
  | cons x xs ih => simp [ih, add_assoc]

theorem findCompany_eq_none {companies : List Company} {h : Holding}
    (hn : ∀ c ∈ companies, c.id ≠ h.companyId) : findCompany companies h = none := by
  unfold findCompany
  rw [List.find?_eq_none]
  intro c hc
  simpa using hn c hc

theorem findCompany_some_id {companies : List Company} {h : Holding} {c : Company}
    (hf : findCompany companies h = some c) : c.id = h.companyId ∧ c ∈ companies := by
  unfold findCompany at hf
  exact ⟨by simpa using List.find?_some hf, List.mem_of_find?_eq_some hf⟩


theorem radixDigit_digitChar {d : Nat} (hd : d < 10) : radixDigit 10 (digitChar d) = some d := by
  interval_cases d <;> rfl

theorem digitChar_not_whiteSpace {d : Nat} (hd : d < 10) :
    isStrWhiteSpaceChar (digitChar d) = false := by
  interval_cases d <;> rfl

theorem splitSign_digitChar {d : Nat} (hd : d < 10) (cs : List Char) :
    splitSign (digitChar d :: cs) = (false, digitChar d :: cs) := by
  interval_cases d <;> rfl

theorem splitRadix_digitChar_pos {d : Nat} (hd : d < 10) (h0 : d ≠ 0) (cs : List Char) :
    splitRadix (digitChar d :: cs) = (10, digitChar d :: cs) := by
  interval_cases d <;> first | rfl | exact absurd rfl h0

theorem digitsPrefix_map_digitChar (ds : List Nat) (h : ∀ d ∈ ds, d < 10) :
    digitsPrefix 10 (ds.map digitChar) = ds := by
  induction ds with
  | nil => rfl
  | cons d ds ih =>
    have hd : d < 10 := h d (List.mem_cons_self _ _)
    have ht : ∀ x ∈ ds, x < 10 := fun x hx => h x (List.mem_cons_of_mem _ hx)
    simp [digitsPrefix, radixDigit_digitChar hd, ih ht]

theorem digitsValue_append_single (R : Nat) (ds : List Nat) (d : Nat) :
    digitsValue R (ds ++ [d]) = digitsValue R ds * R + d := by
  simp [digitsValue, List.foldl_append]

theorem decimalDigits_spec (fuel : Nat) : ∀ n, n < fuel →
    (∀ d ∈ decimalDigits fuel n, d < 10) ∧ digitsValue 10 (decimalDigits fuel n) = n ∧
    decimalDigits fuel n ≠ [] ∧
    (∀ ds, decimalDigits fuel n = 0 :: ds → ds = []) := by
  induction fuel with
  | zero => intro n h; omega
  | succ fuel ih =>
    intro n h
    by_cases hn : n < 10
    · simp [decimalDigits, hn, digitsValue]
    · have hlt : n / 10 < fuel := by omega
      obtain ⟨h1, h2, h3, h4⟩ := ih (n / 10) hlt
      simp only [decimalDigits, hn, if_false]
      refine ⟨?_, ?_, by simp, ?_⟩
      · intro d hd
        rcases List.mem_append.mp hd with hd | hd
        · exact h1 d hd
        · simp at hd; omega
      · rw [digitsValue_append_single, h2]; omega
      · intro ds hds
        cases hl : decimalDigits fuel (n / 10) with
        | nil => exact absurd hl h3
        | cons x xs =>
          rw [hl] at hds
          simp at hds
          have hx : x = 0 := hds.1
          subst hx
          have hxs := h4 xs hl
          subst hxs
          rw [hl] at h2
          simp [digitsValue] at h2
          omega


theorem signedValue_decimalDigits (neg : Bool) (n : Nat) :
    signedValue neg (splitRadix ((decimalDigits (n + 1) n).map digitChar)).1
        (splitRadix ((decimalDigits (n + 1) n).map digitChar)).2
      = some (if neg then -(n : Int) else (n : Int)) := by
  obtain ⟨h1, h2, h3, h4⟩ := decimalDigits_spec (n + 1) n (Nat.lt_succ_self n)
  cases hl : decimalDigits (n + 1) n with
  | nil => exact absurd hl h3
  | cons d ds =>
    have hd : d < 10 := h1 d (by rw [hl]; exact List.mem_cons_self _ _)
    have hall : ∀ x ∈ d :: ds, x < 10 := by rw [← hl]; exact h1
    have hsplit : splitRadix ((d :: ds).map digitChar) = (10, (d :: ds).map digitChar) := by
      by_cases h0 : d = 0
      · subst h0
        have := h4 ds hl
        subst this
        rfl
      · exact splitRadix_digitChar_pos hd h0 _
    rw [hsplit]
    simp only [signedValue]
    rw [digitsPrefix_map_digitChar _ hall]
    rw [hl] at h2
    simp [h2]

theorem decimalDigits_head (n : Nat) :
    ∃ d ds, d < 10 ∧ (decimalDigits (n + 1) n).map digitChar = digitChar d :: ds := by
  obtain ⟨h1, _, h3, _⟩ := decimalDigits_spec (n + 1) n (Nat.lt_succ_self n)
  cases hl : decimalDigits (n + 1) n with
  | nil => exact absurd hl h3
  | cons d ds =>
    exact ⟨d, ds.map digitChar, h1 d (by rw [hl]; exact List.mem_cons_self _ _), rfl⟩

theorem parseInt_natToString (n : Nat) : parseInt (natToString n) = some (n : Int) := by
  have key := signedValue_decimalDigits false n
  obtain ⟨d, ds, hd, hl⟩ := decimalDigits_head n
  have hdw : List.dropWhile isStrWhiteSpaceChar ((decimalDigits (n + 1) n).map digitChar) =
      (decimalDigits (n + 1) n).map digitChar := by
    rw [hl]
    simp [List.dropWhile_cons, digitChar_not_whiteSpace hd]
  have hsg : splitSign ((decimalDigits (n + 1) n).map digitChar) =
      (false, (decimalDigits (n + 1) n).map digitChar) := by
    rw [hl]
    exact splitSign_digitChar hd ds
  show signedValue _ _ _ = _
  simp only [natToString, String.toList]
  rw [hdw, hsg]
  exact key

theorem parseInt_jsNumberToString (v : Int) (hv : v.natAbs < 10 ^ 21) :
    parseInt (jsNumberToString v) = some v := by
  cases v with
  | ofNat n =>
    have hn : n < 10 ^ 21 := hv
    simp only [jsNumberToString, natToJsString, hn, if_true]
    exact parseInt_natToString n
  | negSucc n =>
    have hn : n + 1 < 10 ^ 21 := hv
    have hjs : jsNumberToString (Int.negSucc n) =
        String.mk ('-' :: (natToString (n + 1)).toList) := by
      simp only [jsNumberToString, natToJsString, hn, if_true]
    rw [hjs]
    have key := signedValue_decimalDigits true (n + 1)
    have hdw : ∀ cs : List Char, List.dropWhile isStrWhiteSpaceChar ('-' :: cs) = '-' :: cs := by
      intro cs
      have hws : isStrWhiteSpaceChar '-' = false := rfl
      simp [List.dropWhile_cons, hws]
    show signedValue _ _ _ = _
    simp only [natToString, String.toList, hdw, splitSign]
    rw [key]
    simp [Int.negSucc_eq]

theorem parseIntOrZero_jsNumberToString (v : Int) (hv : v.natAbs < 10 ^ 21) :
    parseIntOrZero (jsNumberToString v) = v := by
  simp [parseIntOrZero, parseInt_jsNumberToString v hv]


/-! ## The admin's company screen: helper lemmas -/

namespace AdminCompanies

theorem jsNumberToString_ne_empty (v : Int) (hv : v.natAbs < 10 ^ 21) :
    jsNumberToString v ≠ "" := by
  intro h
  have h1 := parseInt_jsNumberToString v hv
  rw [h] at h1
  have h2 : parseInt "" = none := by decide
  rw [h2] at h1
  cases h1

theorem listed_mem {st : AdminCompanies} {id : DocId} {co : Company}
    (h : listed st id = some co) : co ∈ st.companies ∧ co.id = id := by
  unfold listed at h
  exact ⟨List.mem_of_find?_eq_some h, by simpa using List.find?_some h⟩

theorem updateCompanyDoc_some {db db1 : Store} {id : DocId} {patch : Company → Company}
    (h : updateCompanyDoc db id patch = some db1) :
    db1.companies = db.companies.map (fun c => if c.id == id then patch c else c) ∧
    db1.portfolios = db.portfolios ∧ db1.nextId = db.nextId := by
  unfold updateCompanyDoc at h
  split at h
  · cases h; exact ⟨rfl, rfl, rfl⟩
  · cases h

theorem updateCompanyDoc_none {db : Store} {id : DocId} {patch : Company → Company}
    (h : updateCompanyDoc db id patch = none) :
    db.companies.map (fun c => if c.id == id then patch c else c) = db.companies := by
  unfold updateCompanyDoc at h
  split at h
  · cases h
  · rename_i hany
    have hno : ∀ c ∈ db.companies, (c.id == id) = false := by
      intro c hc
      by_contra hcon
      exact hany (List.any_eq_true.mpr ⟨c, hc, by simpa using hcon⟩)
    calc db.companies.map (fun c => if c.id == id then patch c else c)
        = db.companies.map (fun c => c) := by
          apply List.map_congr_left
          intro c hc
          simp [hno c hc]
      _ = db.companies := by simp

theorem wellFormed_start (portfolios : List (String × List Holding)) :
    WellFormed (start portfolios) := by
  simp [WellFormed, start, init, BLANK_CO]

theorem wellFormed_step {s : Store × AdminCompanies} (hw : WellFormed s) (e : Event) :
    WellFormed (step s e) := by
  obtain ⟨db, st⟩ := s
  obtain ⟨ha, hb, hc, hd⟩ := hw
  simp only at ha hb hc hd
  cases e with
  | load => exact ⟨ha, ha, hc, hd⟩
  | openAdd => exact ⟨ha, hb, fun id h => by simp [step] at h, fun _ => rfl⟩
  | type k v =>
    refine ⟨ha, hb, hc, ?_⟩
    intro he
    have := hd he
    cases k <;> simpa [sf] using this
  | typeVal id v => exact ⟨ha, hb, hc, hd⟩
  | startEdit id =>
    simp only [step]
    cases hl : listed st id with
    | none => exact ⟨ha, hb, hc, hd⟩
    | some co =>
      obtain ⟨hmem, _⟩ := listed_mem hl
      refine ⟨ha, hb, ?_, ?_⟩
      · intro i hi
        simp [startEdit] at hi
        subst hi
        exact hb co hmem
      · intro hi
        simp [startEdit] at hi
  | closeSheet => exact ⟨ha, hb, hc, hd⟩
  | save =>
    simp only [step, save]
    split
    · exact ⟨ha, hb, hc, hd⟩
    · cases he : st.editId with
      | none =>
        refine ⟨?_, ?_, by simp, by simp [BLANK_CO]⟩
        · intro c hcm
          simp only [addCompanyDoc, List.mem_append, List.mem_singleton] at hcm ⊢
          rcases hcm with hcm | hcm
          · exact Nat.lt_succ_of_lt (ha c hcm)
          · subst hcm
            simp [saveData]
        · intro c hcm
          exact Nat.lt_succ_of_lt (hb c hcm)
      | some id =>
        simp only []
        cases hu : updateCompanyDoc db id (fun _ => saveData st.form id) with
        | none => exact ⟨ha, hb, by simpa [he] using hc, by simp [he]⟩
        | some db1 =>
          obtain ⟨h1, _, h3⟩ := updateCompanyDoc_some hu
          refine ⟨?_, ?_, by simp, by simp [BLANK_CO]⟩
          · intro c hcm
            simp only [h1, h3, List.mem_map] at hcm ⊢
            obtain ⟨c0, hc0, rfl⟩ := hcm
            by_cases hid : (c0.id == id) = true
            · simp only [hid, if_true]
              show id < db.nextId
              have hlt := ha c0 hc0
              have hid1 : c0.id = id := by simpa using hid
              rw [← hid1]
              exact hlt
            · simp only [hid]
              exact ha c0 hc0
          · intro c hcm
            simp only [h3]
            exact hb c hcm
  | updateVal id =>
    simp only [step]
    cases hl : listed st id with
    | none => exact ⟨ha, hb, hc, hd⟩
    | some co =>
      simp only [updateVal]
      split
      · exact ⟨ha, hb, hc, hd⟩
      · split
        · exact ⟨ha, hb, hc, hd⟩
        · split
          · rename_i db1 hu
            obtain ⟨h1, _, h3⟩ := updateCompanyDoc_some hu
            refine ⟨?_, ?_, by simpa [h3] using hc, hd⟩
            · intro c hcm
              simp only [h1, h3, List.mem_map] at hcm ⊢
              obtain ⟨c0, hc0, rfl⟩ := hcm
              by_cases hid : (c0.id == co.id) = true
              · simp only [hid, if_true]
                exact ha c0 hc0
              · simp only [hid]
                exact ha c0 hc0
            · intro c hcm
              simp only [h3]
              exact hb c hcm
          · exact ⟨ha, hb, hc, hd⟩
  | toggleActive id =>
    simp only [step]
    cases hl : listed st id with
    | none => exact ⟨ha, hb, hc, hd⟩
    | some co =>
      simp only [toggleActive]
      split
      · rename_i db1 hu
        obtain ⟨h1, _, h3⟩ := updateCompanyDoc_some hu
        refine ⟨?_, ?_, by simpa [h3] using hc, hd⟩
        · intro c hcm
          simp only [h1, h3, List.mem_map] at hcm ⊢
          obtain ⟨c0, hc0, rfl⟩ := hcm
          by_cases hid : (c0.id == co.id) = true
          · simp only [hid, if_true]
            exact ha c0 hc0
          · simp only [hid]
            exact ha c0 hc0
        · intro c hcm
          simp only [h3]
          exact hb c hcm
      · exact ⟨ha, hb, hc, hd⟩
  | askDelete id =>
    simp only [step]
    cases hl : listed st id with
    | none => exact ⟨ha, hb, hc, hd⟩
    | some co => exact ⟨ha, hb, hc, hd⟩
  | cancelDelete => exact ⟨ha, hb, hc, hd⟩
  | doDelete =>
    simp only [step, doDelete]
    cases hcf : st.confirm with
    | none => exact ⟨ha, hb, hc, hd⟩
    | some id =>
      refine ⟨?_, hb, hc, hd⟩
      intro c hcm
      simp only [deleteCompanyDoc, List.mem_filter] at hcm
      exact ha c hcm.1

end AdminCompanies


namespace AdminCompanies

theorem tracks_step {s : Store × AdminCompanies} {k : DocId} {v : Int} (hv : v ≠ 0)
    (hb : v.natAbs < 10 ^ 21) (ht : Tracks k v s) (e : Event) : Tracks k v (step s e) := by
  obtain ⟨db, st⟩ := s
  obtain ⟨hk, he, hf, hg⟩ := ht
  simp only at hk he hf hg
  cases e with
  | load => exact ⟨hk, he, he, hg⟩
  | openAdd => exact ⟨hk, he, hf, fun h => by simp [step] at h⟩
  | type f v1 =>
    refine ⟨hk, he, hf, ?_⟩
    intro hed
    have := hg hed
    cases f <;> simpa [step, sf] using this
  | typeVal id v1 => exact ⟨hk, he, hf, hg⟩
  | startEdit id =>
    simp only [step]
    cases hl : listed st id with
    | none => exact ⟨hk, he, hf, hg⟩
    | some co =>
      obtain ⟨hmem, _⟩ := listed_mem hl
      refine ⟨hk, he, hf, ?_⟩
      intro hi
      have hid : co.id = k := by simpa [startEdit] using hi
      have hiv : co.initialValuation = v := hf co hmem hid
      simp [startEdit, orElse, hiv, hv]
  | closeSheet => exact ⟨hk, he, hf, hg⟩
  | save =>
    simp only [step, save]
    split
    · exact ⟨hk, he, hf, hg⟩
    · cases hed : st.editId with
      | none =>
        refine ⟨Nat.lt_succ_of_lt hk, ?_, hf, fun h => by simp at h⟩
        intro c hcm hid
        simp only [addCompanyDoc, List.mem_append, List.mem_singleton] at hcm
        rcases hcm with hcm | hcm
        · exact he c hcm hid
        · subst hcm
          have hid1 : db.nextId = k := hid
          rw [← hid1] at hk
          exact absurd hk (Nat.lt_irrefl _)
      | some id =>
        simp only []
        cases hu : updateCompanyDoc db id (fun _ => saveData st.form id) with
        | none => exact ⟨hk, he, hf, by simpa [hed] using hg⟩
        | some db1 =>
          obtain ⟨h1, _, h3⟩ := updateCompanyDoc_some hu
          refine ⟨by simpa [h3] using hk, ?_, hf, fun h => by simp at h⟩
          intro c hcm hid
          simp only [h1, List.mem_map] at hcm
          obtain ⟨c0, hc0, rfl⟩ := hcm
          by_cases hid0 : (c0.id == id) = true
          · simp only [hid0, if_true] at hid ⊢
            have hidk : id = k := hid
            have hform := hg (by rw [hed, hidk])
            simp [saveData, hform, jsNumberToString_ne_empty v hb,
              parseIntOrZero_jsNumberToString v hb]
          · simp only [hid0] at hid ⊢
            exact he c0 hc0 hid
  | updateVal id =>
    simp only [step]
    cases hl : listed st id with
    | none => exact ⟨hk, he, hf, hg⟩
    | some co =>
      simp only [updateVal]
      split
      · exact ⟨hk, he, hf, hg⟩
      · split
        · exact ⟨hk, he, hf, hg⟩
        · split
          · rename_i db1 hu
            obtain ⟨h1, _, h3⟩ := updateCompanyDoc_some hu
            refine ⟨by simpa [h3] using hk, ?_, hf, hg⟩
            intro c hcm hid
            simp only [h1, List.mem_map] at hcm
            obtain ⟨c0, hc0, rfl⟩ := hcm
            by_cases hid0 : (c0.id == co.id) = true
            · simp only [hid0, if_true] at hid ⊢
              exact he c0 hc0 hid
            · simp only [hid0] at hid ⊢
              exact he c0 hc0 hid
          · exact ⟨hk, he, hf, hg⟩
  | toggleActive id =>
    simp only [step]
    cases hl : listed st id with
    | none => exact ⟨hk, he, hf, hg⟩
    | some co =>
      simp only [toggleActive]
      split
      · rename_i db1 hu
        obtain ⟨h1, _, h3⟩ := updateCompanyDoc_some hu
        refine ⟨by simpa [h3] using hk, ?_, hf, hg⟩
        intro c hcm hid
        simp only [h1, List.mem_map] at hcm
        obtain ⟨c0, hc0, rfl⟩ := hcm
        by_cases hid0 : (c0.id == co.id) = true
        · simp only [hid0, if_true] at hid ⊢
          exact he c0 hc0 hid
        · simp only [hid0] at hid ⊢
          exact he c0 hc0 hid
      · exact ⟨hk, he, hf, hg⟩
  | askDelete id =>
    simp only [step]
    cases hl : listed st id with
    | none => exact ⟨hk, he, hf, hg⟩
    | some co => exact ⟨hk, he, hf, hg⟩
  | cancelDelete => exact ⟨hk, he, hf, hg⟩
  | doDelete =>
    simp only [step, doDelete]
    cases hcf : st.confirm with
    | none => exact ⟨hk, he, hf, hg⟩
    | some id =>
      refine ⟨hk, ?_, hf, hg⟩
      intro c hcm hid
      simp only [deleteCompanyDoc, List.mem_filter] at hcm
      exact he c hcm.1 hid

theorem wellFormed_run {s : Store × AdminCompanies} (hw : WellFormed s) (evs : List Event) :
    WellFormed (run s evs) := by
  induction evs generalizing s with
  | nil => exact hw
  | cons e es ih => exact ih (wellFormed_step hw e)

theorem tracks_run {s : Store × AdminCompanies} {k : DocId} {v : Int} (hv : v ≠ 0)
    (hb : v.natAbs < 10 ^ 21) (ht : Tracks k v s) (evs : List Event) :
    Tracks k v (run s evs) := by
  induction evs generalizing s with
  | nil => exact ht
  | cons e es ih => exact ih (tracks_step hv hb ht e)

/-- What a `save` that creates a document does: on a well-formed state, a document whose id
is the next fresh id after the step was written by this step, with both valuations equal to
the parsed valuation input, and every copy of it carries that initial valuation. -/
theorem save_creates {s : Store × AdminCompanies} (hw : WellFormed s) {c : Company}
    (hc : c ∈ (step s Event.save).1.companies) (hid : c.id = s.1.nextId) :
    c.initialValuation = c.currentValuation ∧
    Tracks c.id c.currentValuation (step s Event.save) := by
  obtain ⟨db, st⟩ := s
  obtain ⟨ha, hb, hcc, hd⟩ := hw
  simp only at ha hb hcc hd hid
  have hfresh : ∀ c0 ∈ db.companies, c0.id ≠ c.id := by
    intro c0 hc0 heq
    have := ha c0 hc0
    rw [heq, hid] at this
    exact Nat.lt_irrefl _ this
  simp only [step, save] at hc ⊢
  split at hc
  · exact absurd rfl (hfresh c hc)
  · rename_i hval
    simp only [hval, if_false]
    cases hed : st.editId with
    | some id =>
      rw [hed] at hc
      simp only [] at hc
      have hlt := hcc id hed
      cases hu : updateCompanyDoc db id (fun _ => saveData st.form id) with
      | none =>
        rw [hu] at hc
        exact absurd rfl (hfresh c hc)
      | some db1 =>
        rw [hu] at hc
        obtain ⟨h1, _, _⟩ := updateCompanyDoc_some hu
        simp only [h1, List.mem_map] at hc
        obtain ⟨c0, hc0, hceq⟩ := hc
        by_cases hid0 : (c0.id == id) = true
        · simp only [hid0, if_true] at hceq
          have hidk : id = db.nextId := by rw [← hid, ← hceq]; rfl
          rw [hidk] at hlt
          exact absurd hlt (Nat.lt_irrefl _)
        · simp only [hid0] at hceq
          have hceq1 : c0 = c := by simpa using hceq
          exact absurd (by rw [hceq1]) (hfresh c0 hc0)
    | none =>
      rw [hed] at hc
      simp only [addCompanyDoc, List.mem_append, List.mem_singleton] at hc
      have hiv := hd hed
      rcases hc with hc | hc
      · exact absurd rfl (hfresh c hc)
      · subst hc
        have hivcv : (saveData st.form db.nextId).initialValuation =
            (saveData st.form db.nextId).currentValuation := by
          simp [saveData, hiv]
        refine ⟨hivcv, ?_, ?_, ?_, ?_⟩
        · show db.nextId < db.nextId + 1
          exact Nat.lt_succ_self _
        · intro c1 hc1 hid1
          simp only [addCompanyDoc, List.mem_append, List.mem_singleton] at hc1
          rcases hc1 with hc1 | hc1
          · exact absurd hid1 (hfresh c1 hc1)
          · rw [hc1]; exact hivcv
        · intro c1 hc1 hid1
          have := hb c1 hc1
          rw [hid1] at this
          exact absurd this (Nat.lt_irrefl _)
        · intro h
          simp at h

end AdminCompanies


/-! ## Repricing -/

theorem find_map_patch (l : List Company) (k : DocId) (g : Company → Company)
    (hg : ∀ c, (g c).id = c.id) :
    (l.map (fun c => if c.id == k then g c else c)).find? (fun c => c.id == k) =
      (l.find? (fun c => c.id == k)).map g := by
  induction l with
  | nil => rfl
  | cons c cs ih =>
    simp only [List.map_cons, List.find?_cons]
    by_cases hc : (c.id == k) = true
    · have hgc : ((g c).id == k) = true := by rw [hg]; exact hc
      simp only [hc, if_true, hgc, Option.map_some']
    · have hcf : (c.id == k) = false := by simpa using hc
      simp only [hcf, Bool.false_eq_true, if_false]
      exact ih

theorem filter_active_map_patch (l : List Company) (k : DocId) (g : Company → Company)
    (hg : ∀ c, (g c).active = c.active) :
    (l.map (fun c => if c.id == k then g c else c)).filter (fun c => c.active == true) =
      (l.filter (fun c => c.active == true)).map (fun c => if c.id == k then g c else c) := by
  induction l with
  | nil => rfl
  | cons c cs ih =>
    have hact : ((if (c.id == k) = true then g c else c).active == true) = (c.active == true) := by
      by_cases hc : (c.id == k) = true
      · simp only [hc, if_true, hg]
      · simp only [hc, if_false, Bool.false_eq_true]
    simp only [List.map_cons, List.filter_cons, hact]
    by_cases ha : (c.active == true) = true
    · simp only [ha, if_true, List.map_cons, ih]
    · simp only [ha, if_false, ih, Bool.false_eq_true]

theorem updateVal_store (db : Store) (st : AdminCompanies) (co : Company) {nv : Int}
    (hparse : parseInt ((st.valMap.lookup co.id).getD "undefined") = some nv)
    (hfloor : 100 ≤ nv) :
    (AdminCompanies.updateVal db st co).1.companies =
      db.companies.map (fun c => if c.id == co.id then { c with currentValuation := nv } else c) ∧
    (AdminCompanies.updateVal db st co).1.portfolios = db.portfolios ∧
    (AdminCompanies.updateVal db st co).1.nextId = db.nextId := by
  have hno : ¬ (nv = 0 ∨ nv < 100) := by omega
  simp only [AdminCompanies.updateVal, hparse, hno, if_false]
  cases hu : updateCompanyDoc db co.id (fun c => { c with currentValuation := nv }) with
  | none => exact ⟨(AdminCompanies.updateCompanyDoc_none hu).symm, rfl, rfl⟩
  | some db1 => exact AdminCompanies.updateCompanyDoc_some hu

theorem updateVal_store_eq (db : Store) (st : AdminCompanies) (co : Company) {nv : Int}
    (hparse : parseInt ((st.valMap.lookup co.id).getD "undefined") = some nv)
    (hfloor : 100 ≤ nv) :
    (AdminCompanies.updateVal db st co).1 =
      { db with
        companies :=
          db.companies.map
            (fun c => if c.id == co.id then { c with currentValuation := nv } else c) } := by
  have hno : ¬ (nv = 0 ∨ nv < 100) := by omega
  simp only [AdminCompanies.updateVal, hparse, hno, if_false]
  cases hu : updateCompanyDoc db co.id (fun c => { c with currentValuation := nv }) with
  | none =>
    simp only []
    rw [AdminCompanies.updateCompanyDoc_none hu]
  | some db1 =>
    unfold updateCompanyDoc at hu
    split at hu
    · cases hu
      rfl
    · cases hu

theorem updateVal_rejects (db : Store) (st : AdminCompanies) (co : Company)
    (hbad : parseInt ((st.valMap.lookup co.id).getD "undefined") = none ∨
      ∃ n, parseInt ((st.valMap.lookup co.id).getD "undefined") = some n ∧ n < 100) :
    (AdminCompanies.updateVal db st co).1 = db ∧
    (AdminCompanies.updateVal db st co).2.toast =
      some { m := ToastMsg.enterValidValuation, t := ToastType.error } := by
  rcases hbad with hnone | ⟨n, hsome, hlt⟩
  · simp [AdminCompanies.updateVal, hnone]
  · have hyes : n = 0 ∨ n < 100 := Or.inr hlt
    simp [AdminCompanies.updateVal, hsome, hyes]

/-! ## Valuation claims -/

/-- C1 (counterexample): a matched company whose `currentValuation` is 0 does not price the
holding at `(stake/100) * currentValuation`; both screens fall back to `buyValuation` and
show 50000 (per holding and in the home screen total) where the claimed formula gives 0. -/
theorem C1_zero_valuation_counterexample :
    findCompany [sampleCompany 1 0 true] (sampleHolding 1) = some (sampleCompany 1 0 true) ∧
    (PortfolioScreen.enrich [sampleCompany 1 0 true] (sampleHolding 1)).curr = 50000 ∧
    (HomeScreen.row [sampleCompany 1 0 true] (sampleHolding 1)).curr = 50000 ∧
    HomeScreen.totC [sampleCompany 1 0 true] [sampleHolding 1] = 50000 ∧
    ((sampleHolding 1).stake / 100) * ((sampleCompany 1 0 true).currentValuation : ℚ) = 0 ∧
    (PortfolioScreen.enrich [sampleCompany 1 0 true] (sampleHolding 1)).curr ≠
      ((sampleHolding 1).stake / 100) * ((sampleCompany 1 0 true).currentValuation : ℚ) := by
  refine ⟨by decide, ?_, ?_, ?_, ?_, ?_⟩ <;>
    norm_num [PortfolioScreen.enrich, HomeScreen.row, HomeScreen.totC, findCompany,
      nowValuation, sampleCompany, sampleHolding]

/-- C1 (amended): when the first company `c` with `c.id = h.companyId` exists, both client
screens compute `curr = (h.stake/100) * c.currentValuation` provided `c.currentValuation` is
not 0 (in the portfolio screen's `enriched`, in the home screen's row and in the summand of
the home screen's `totC`); when it is 0 they compute `(h.stake/100) * h.buyValuation`. -/
theorem C1_current_value_of_matched_company (h : Holding) (companies : List Company)
    (c : Company) (hf : findCompany companies h = some c) :
    (c.currentValuation ≠ 0 →
      (PortfolioScreen.enrich companies h).curr = (h.stake / 100) * (c.currentValuation : ℚ) ∧
      (HomeScreen.row companies h).curr = (h.stake / 100) * (c.currentValuation : ℚ) ∧
      HomeScreen.totC companies [h] = (h.stake / 100) * (c.currentValuation : ℚ)) ∧
    (c.currentValuation = 0 →
      (PortfolioScreen.enrich companies h).curr = (h.stake / 100) * (h.buyValuation : ℚ) ∧
      (HomeScreen.row companies h).curr = (h.stake / 100) * (h.buyValuation : ℚ) ∧
      HomeScreen.totC companies [h] = (h.stake / 100) * (h.buyValuation : ℚ)) := by
  constructor
  · intro hcv
    simp [PortfolioScreen.enrich, HomeScreen.row, HomeScreen.totC, hf, nowValuation, hcv]
  · intro hcv
    simp [PortfolioScreen.enrich, HomeScreen.row, HomeScreen.totC, hf, nowValuation, hcv]

/-- Witness of C1 (amended): scenario B, a company repriced to 6000000, is valued at 60000. -/
theorem C1_current_value_of_matched_company_witness :
    (PortfolioScreen.enrich [sampleCompany 1 6000000 true] (sampleHolding 1)).curr = 60000 ∧
    (HomeScreen.row [sampleCompany 1 6000000 true] (sampleHolding 1)).curr = 60000 ∧
    HomeScreen.totC [sampleCompany 1 6000000 true] [sampleHolding 1] = 60000 := by
  have h := (C1_current_value_of_matched_company (sampleHolding 1)
    [sampleCompany 1 6000000 true] (sampleCompany 1 6000000 true) (by decide)).1 (by decide)
  norm_num [sampleCompany, sampleHolding] at h
  exact h

/-- C2: a holding whose `companyId` matches no company of the loaded list is valued at its
invested value `(stake/100) * buyValuation`; its gain `g`, return `gp` and valuation change
`vp` are 0 (on the portfolio screen and in the home screen row).  This is the case of a
holding whose company was removed by `doDelete`, and on the home screen of a holding whose
company is hidden. -/
theorem C2_unmatched_holding_falls_back (h : Holding) (companies : List Company)
    (hn : ∀ c ∈ companies, c.id ≠ h.companyId) :
    ((PortfolioScreen.enrich companies h).curr = (h.stake / 100) * (h.buyValuation : ℚ) ∧
      (PortfolioScreen.enrich companies h).curr = (PortfolioScreen.enrich companies h).buy ∧
      (PortfolioScreen.enrich companies h).g = 0 ∧
      (PortfolioScreen.enrich companies h).gp = 0 ∧
      (PortfolioScreen.enrich companies h).vp = 0 ∧
      (HomeScreen.row companies h).curr = (h.stake / 100) * (h.buyValuation : ℚ) ∧
      (HomeScreen.row companies h).g = 0 ∧
      (HomeScreen.row companies h).gp = 0) ∧
    (∀ (db : Store) (st : AdminCompanies) (uid : String), st.confirm = some h.companyId →
      (PortfolioScreen.enrich (PortfolioScreen.load (AdminCompanies.doDelete db st).1 uid).2
        h).curr = (h.stake / 100) * (h.buyValuation : ℚ) ∧
      (HomeScreen.row (HomeScreen.load (AdminCompanies.doDelete db st).1 uid).1 h).curr =
        (h.stake / 100) * (h.buyValuation : ℚ)) ∧
    (∀ (db : Store) (uid : String),
      (∀ c ∈ db.companies, c.id = h.companyId → c.active = false) →
      (HomeScreen.row (HomeScreen.load db uid).1 h).curr =
        (h.stake / 100) * (h.buyValuation : ℚ)) := by
  have key : ∀ l : List Company, (∀ c ∈ l, c.id ≠ h.companyId) →
      (PortfolioScreen.enrich l h).curr = (h.stake / 100) * (h.buyValuation : ℚ) ∧
      (HomeScreen.row l h).curr = (h.stake / 100) * (h.buyValuation : ℚ) := by
    intro l hl
    have hf := findCompany_eq_none hl
    simp [PortfolioScreen.enrich, HomeScreen.row, hf, nowValuation]
  refine ⟨?_, ?_, ?_⟩
  · have hf := findCompany_eq_none hn
    simp [PortfolioScreen.enrich, HomeScreen.row, hf, nowValuation]
  · intro db st uid hconf
    have hgone : ∀ c ∈ (AdminCompanies.doDelete db st).1.companies, c.id ≠ h.companyId := by
      intro c hc
      simp only [AdminCompanies.doDelete, hconf, deleteCompanyDoc, List.mem_filter] at hc
      simpa using hc.2
    refine ⟨(key _ hgone).1, (key _ ?_).2⟩
    intro c hc
    exact hgone c (List.mem_filter.mp hc).1
  · intro db uid hall
    refine (key _ ?_).2
    intro c hc hid
    obtain ⟨hc1, hc2⟩ := List.mem_filter.mp hc
    have := hall c hc1 hid
    simp [this] at hc2

/-- Witness of C2: the sample holding against a list that only holds another company. -/
theorem C2_unmatched_holding_falls_back_witness :
    (PortfolioScreen.enrich [sampleCompany 2 6000000 true] (sampleHolding 1)).curr = 50000 ∧
    (PortfolioScreen.enrich [sampleCompany 2 6000000 true] (sampleHolding 1)).g = 0 := by
  have h := (C2_unmatched_holding_falls_back (sampleHolding 1) [sampleCompany 2 6000000 true]
    (by decide)).1
  refine ⟨?_, h.2.2.1⟩
  rw [h.1]
  norm_num [sampleHolding]

/-- C3: for every holding, `g = curr - buy`, and `gp = g/buy*100` when
`buy = (stake/100) * buyValuation` is positive and 0 otherwise; a holding with
`buyValuation = 0` has `gp = 0`; scenario B (stake 1, bought at 5000000, company repriced to
6000000) gives `curr = 60000`, `g = 10000`, `gp = 20`. -/
theorem C3_gain_and_return_pct (h : Holding) (companies : List Company) :
    (PortfolioScreen.enrich companies h).buy = (h.stake / 100) * (h.buyValuation : ℚ) ∧
    (PortfolioScreen.enrich companies h).g =
      (PortfolioScreen.enrich companies h).curr - (PortfolioScreen.enrich companies h).buy ∧
    (PortfolioScreen.enrich companies h).gp =
      (if (PortfolioScreen.enrich companies h).buy > 0 then
        (PortfolioScreen.enrich companies h).g / (PortfolioScreen.enrich companies h).buy * 100
       else 0) ∧
    (h.buyValuation = 0 → (PortfolioScreen.enrich companies h).gp = 0) ∧
    (PortfolioScreen.enrich [sampleCompany 1 6000000 true] (sampleHolding 1)).curr = 60000 ∧
    (PortfolioScreen.enrich [sampleCompany 1 6000000 true] (sampleHolding 1)).g = 10000 ∧
    (PortfolioScreen.enrich [sampleCompany 1 6000000 true] (sampleHolding 1)).gp = 20 := by
  refine ⟨rfl, rfl, rfl, ?_, ?_, ?_, ?_⟩
  · intro hb
    simp [PortfolioScreen.enrich, hb]
  all_goals
    norm_num [PortfolioScreen.enrich, findCompany, nowValuation, sampleCompany, sampleHolding]

/-- Witness of C3: a holding bought at valuation 0 in a company now valued at 6000000 has
`gp = 0`. -/
theorem C3_gain_and_return_pct_witness :
    (PortfolioScreen.enrich [sampleCompany 1 6000000 true]
      { sampleHolding 1 with buyValuation := 0 }).gp = 0 :=
  (C3_gain_and_return_pct { sampleHolding 1 with buyValuation := 0 }
    [sampleCompany 1 6000000 true]).2.2.2.1 rfl

/-- C4: the portfolio aggregates are `totI = Σ buy`, `totC = Σ curr`, `totG = totC - totI`
and `totP = totG/totI*100` when `totI > 0` and 0 otherwise, on the portfolio screen and on
the home screen alike; an empty portfolio yields 0 for all four. -/
theorem C4_portfolio_aggregates (companies : List Company) (holdings : List Holding) :
    PortfolioScreen.totI companies holdings =
      ((PortfolioScreen.enriched companies holdings).map (fun e => e.buy)).sum ∧
    PortfolioScreen.totC companies holdings =
      ((PortfolioScreen.enriched companies holdings).map (fun e => e.curr)).sum ∧
    PortfolioScreen.totG companies holdings =
      PortfolioScreen.totC companies holdings - PortfolioScreen.totI companies holdings ∧
    PortfolioScreen.totP companies holdings =
      (if PortfolioScreen.totI companies holdings > 0 then
        PortfolioScreen.totG companies holdings / PortfolioScreen.totI companies holdings * 100
       else 0) ∧
    HomeScreen.totI holdings = (holdings.map (fun h => (HomeScreen.row companies h).buy)).sum ∧
    HomeScreen.totC companies holdings =
      (holdings.map (fun h => (HomeScreen.row companies h).curr)).sum ∧
    HomeScreen.totG companies holdings = HomeScreen.totC companies holdings - HomeScreen.totI holdings ∧
    HomeScreen.totGP companies holdings =
      (if HomeScreen.totI holdings > 0 then
        HomeScreen.totG companies holdings / HomeScreen.totI holdings * 100
       else 0) ∧
    (PortfolioScreen.totI companies [] = 0 ∧ PortfolioScreen.totC companies [] = 0 ∧
      PortfolioScreen.totG companies [] = 0 ∧ PortfolioScreen.totP companies [] = 0) ∧
    (HomeScreen.totI [] = 0 ∧ HomeScreen.totC companies [] = 0 ∧
      HomeScreen.totG companies [] = 0 ∧ HomeScreen.totGP companies [] = 0) := by
  refine ⟨?_, ?_, rfl, rfl, ?_, ?_, rfl, rfl, ?_, ?_⟩
  · simp [PortfolioScreen.totI, foldl_add_eq_sum]
  · simp [PortfolioScreen.totC, foldl_add_eq_sum]
  · simp [HomeScreen.totI, HomeScreen.row, foldl_add_eq_sum]
  · simp [HomeScreen.totC, HomeScreen.row, foldl_add_eq_sum]
  · simp [PortfolioScreen.totI, PortfolioScreen.totC, PortfolioScreen.totG,
      PortfolioScreen.totP, PortfolioScreen.enriched]
  · simp [HomeScreen.totI, HomeScreen.totC, HomeScreen.totG, HomeScreen.totGP]

/-! ## Repricing claims -/

/-- C5 (code at the failing input): two clients hold stakes of 1% and 2% in a company that
is hidden from clients; `updateVal` from 5000000 to 6000000 succeeds and rewrites only the
company, yet `HomeScreen` still shows the first client 50000 (the value before the update),
not `(1/100) * 6000000 = 60000`; `PortfolioScreen` shows 60000. -/
theorem C5_hidden_company_counterexample :
    (AdminCompanies.updateVal (sampleStore false) (sampleAdmin false "6000000")
      (sampleCompany 1 5000000 false)).1.companies = [sampleCompany 1 6000000 false] ∧
    sampleHolding 1 ∈ holdingsOf (sampleStore false) "u1" ∧
    { sampleHolding 1 with stake := 2 } ∈ holdingsOf (sampleStore false) "u2" ∧
    (HomeScreen.row (HomeScreen.load (sampleStore false) "u1").1 (sampleHolding 1)).curr = 50000 ∧
    (HomeScreen.row (HomeScreen.load (AdminCompanies.updateVal (sampleStore false)
      (sampleAdmin false "6000000") (sampleCompany 1 5000000 false)).1 "u1").1
      (sampleHolding 1)).curr = 50000 ∧
    ((sampleHolding 1).stake / 100) * (6000000 : ℚ) = 60000 ∧
    (PortfolioScreen.enrich (PortfolioScreen.load (AdminCompanies.updateVal (sampleStore false)
      (sampleAdmin false "6000000") (sampleCompany 1 5000000 false)).1 "u1").2
      (sampleHolding 1)).curr = 60000 := by
  have hdb : (AdminCompanies.updateVal (sampleStore false) (sampleAdmin false "6000000")
      (sampleCompany 1 5000000 false)).1.companies = [sampleCompany 1 6000000 false] := by
    decide
  refine ⟨hdb, by decide, by decide, ?_, ?_, ?_, ?_⟩
  · norm_num [HomeScreen.row, HomeScreen.load, findCompany, nowValuation, sampleStore,
      sampleCompany, sampleHolding]
  · simp only [HomeScreen.load, hdb]
    norm_num [HomeScreen.row, findCompany, nowValuation, sampleCompany, sampleHolding]
  · norm_num [sampleHolding]
  · simp only [PortfolioScreen.load, hdb]
    norm_num [PortfolioScreen.enrich, findCompany, nowValuation, sampleCompany, sampleHolding]

/-- C5 (the code in general): a successful `updateVal(C, nv)` (parsed `nv ≥ 100`, `C` in
the store) changes nothing in the store but `currentValuation := nv` on `C`: the store after
the call is the store before with that one field set, so no portfolio document is written.
On the next read `PortfolioScreen` values every holding in `C` at `(stake/100) * nv`, and so
does `HomeScreen` when `C` is active; for a hidden `C` `HomeScreen`, which loads the active
companies only, keeps the value it showed before the update, `(stake/100) * buyValuation`. -/
theorem C5_reprice_propagation (db : Store) (st : AdminCompanies) (co : Company) (nv : Int)
    (uid : String) (h : Holding)
    (hparse : parseInt ((st.valMap.lookup co.id).getD "undefined") = some nv)
    (hfloor : 100 ≤ nv) (hex : ∃ c ∈ db.companies, c.id = co.id)
    (hh : h ∈ holdingsOf db uid) (hco : h.companyId = co.id) :
    (AdminCompanies.updateVal db st co).1 =
      { db with
        companies :=
          db.companies.map
            (fun c => if c.id == co.id then { c with currentValuation := nv } else c) } ∧
    (AdminCompanies.updateVal db st co).1.portfolios = db.portfolios ∧
    h ∈ (PortfolioScreen.load (AdminCompanies.updateVal db st co).1 uid).1 ∧
    h ∈ (HomeScreen.load (AdminCompanies.updateVal db st co).1 uid).2 ∧
    (PortfolioScreen.enrich (PortfolioScreen.load (AdminCompanies.updateVal db st co).1 uid).2
      h).curr = (h.stake / 100) * (nv : ℚ) ∧
    ((∃ c ∈ db.companies, c.id = co.id ∧ c.active = true) →
      (HomeScreen.row (HomeScreen.load (AdminCompanies.updateVal db st co).1 uid).1 h).curr =
        (h.stake / 100) * (nv : ℚ)) ∧
    ((∀ c ∈ db.companies, c.id = co.id → c.active = false) →
      (HomeScreen.row (HomeScreen.load (AdminCompanies.updateVal db st co).1 uid).1 h).curr =
        (HomeScreen.row (HomeScreen.load db uid).1 h).curr ∧
      (HomeScreen.row (HomeScreen.load (AdminCompanies.updateVal db st co).1 uid).1 h).curr =
        (h.stake / 100) * (h.buyValuation : ℚ)) := by
  obtain ⟨hcomp, hport, _⟩ := updateVal_store db st co hparse hfloor
  have hnv0 : nv ≠ 0 := by omega
  have hpid : ∀ c : Company, ({ c with currentValuation := nv } : Company).id = c.id :=
    fun _ => rfl
  have hpact : ∀ c : Company, ({ c with currentValuation := nv } : Company).active = c.active :=
    fun _ => rfl
  -- the lookups after the update
  have hfindP : findCompany (AdminCompanies.updateVal db st co).1.companies h =
      (findCompany db.companies h).map (fun c => { c with currentValuation := nv }) := by
    unfold findCompany
    rw [hcomp, hco]
    exact find_map_patch db.companies co.id _ hpid
  have hfindH : findCompany ((AdminCompanies.updateVal db st co).1.companies.filter
        (fun c => c.active == true)) h =
      (findCompany (db.companies.filter (fun c => c.active == true)) h).map
        (fun c => { c with currentValuation := nv }) := by
    unfold findCompany
    rw [hcomp, hco, filter_active_map_patch db.companies co.id _ hpact]
    exact find_map_patch _ co.id _ hpid
  have hholds : holdingsOf (AdminCompanies.updateVal db st co).1 uid = holdingsOf db uid := by
    unfold holdingsOf
    rw [hport]
  -- a match exists before the update
  have hsomeP : ∃ c0, findCompany db.companies h = some c0 := by
    obtain ⟨c, hc, hid⟩ := hex
    cases hf : findCompany db.companies h with
    | some c0 => exact ⟨c0, rfl⟩
    | none =>
      unfold findCompany at hf
      rw [List.find?_eq_none] at hf
      have := hf c hc
      rw [hco] at this
      simp [hid] at this
  have hcurrP : (PortfolioScreen.enrich
      (PortfolioScreen.load (AdminCompanies.updateVal db st co).1 uid).2 h).curr =
      (h.stake / 100) * (nv : ℚ) := by
    obtain ⟨c0, hc0⟩ := hsomeP
    simp [PortfolioScreen.enrich, PortfolioScreen.load, hfindP, hc0, nowValuation, hnv0]
  have hrowH : ∀ d : Store, (HomeScreen.row (HomeScreen.load d uid).1 h).curr =
      (h.stake / 100) *
        (nowValuation (findCompany (d.companies.filter (fun c => c.active == true)) h) h : ℚ) :=
    fun _ => rfl
  have hcurrH : (∃ c ∈ db.companies, c.id = co.id ∧ c.active = true) →
      (HomeScreen.row (HomeScreen.load (AdminCompanies.updateVal db st co).1 uid).1 h).curr =
        (h.stake / 100) * (nv : ℚ) := by
    rintro ⟨c, hc, hid, hact⟩
    have hsomeH : ∃ c0, findCompany (db.companies.filter (fun c => c.active == true)) h
        = some c0 := by
      cases hf : findCompany (db.companies.filter (fun c => c.active == true)) h with
      | some c0 => exact ⟨c0, rfl⟩
      | none =>
        unfold findCompany at hf
        rw [List.find?_eq_none] at hf
        have := hf c (List.mem_filter.mpr ⟨hc, by simp [hact]⟩)
        rw [hco] at this
        simp [hid] at this
    obtain ⟨c0, hc0⟩ := hsomeH
    rw [hrowH, hfindH, hc0]
    simp [nowValuation, hnv0]
  refine ⟨updateVal_store_eq db st co hparse hfloor, hport, ?_, ?_, hcurrP, hcurrH, ?_⟩
  · show h ∈ holdingsOf _ uid
    rw [hholds]; exact hh
  · show h ∈ holdingsOf _ uid
    rw [hholds]; exact hh
  · intro hall
    have hnone : findCompany (db.companies.filter (fun c => c.active == true)) h = none := by
      apply findCompany_eq_none
      intro c hc hid
      obtain ⟨hc1, hc2⟩ := List.mem_filter.mp hc
      have := hall c hc1 (by rw [hid, hco])
      simp [this] at hc2
    refine ⟨?_, ?_⟩
    · rw [hrowH, hrowH, hfindH, hnone]
      rfl
    · rw [hrowH, hfindH, hnone]
      rfl

/-- Witness of C5: the hidden sample company repriced from 5000000 to 6000000: the store
changes in that one field, `PortfolioScreen` shows the first client 60000 and `HomeScreen`
still 50000; for the visible sample company both screens show 60000. -/
theorem C5_reprice_propagation_witness :
    (PortfolioScreen.enrich (PortfolioScreen.load (AdminCompanies.updateVal (sampleStore false)
      (sampleAdmin false "6000000") (sampleCompany 1 5000000 false)).1 "u1").2
      (sampleHolding 1)).curr = 60000 ∧
    (HomeScreen.row (HomeScreen.load (AdminCompanies.updateVal (sampleStore false)
      (sampleAdmin false "6000000") (sampleCompany 1 5000000 false)).1 "u1").1
      (sampleHolding 1)).curr = 50000 ∧
    (PortfolioScreen.enrich (PortfolioScreen.load (AdminCompanies.updateVal (sampleStore true)
      (sampleAdmin true "6000000") (sampleCompany 1 5000000 true)).1 "u1").2
      (sampleHolding 1)).curr = 60000 ∧
    (HomeScreen.row (HomeScreen.load (AdminCompanies.updateVal (sampleStore true)
      (sampleAdmin true "6000000") (sampleCompany 1 5000000 true)).1 "u1").1
      (sampleHolding 1)).curr = 60000 := by
  have hf := C5_reprice_propagation (sampleStore false) (sampleAdmin false "6000000")
    (sampleCompany 1 5000000 false) 6000000 "u1" (sampleHolding 1) (by decide) (by decide)
    ⟨sampleCompany 1 5000000 false, by decide, rfl⟩ (by decide) rfl
  have ht := C5_reprice_propagation (sampleStore true) (sampleAdmin true "6000000")
    (sampleCompany 1 5000000 true) 6000000 "u1" (sampleHolding 1) (by decide) (by decide)
    ⟨sampleCompany 1 5000000 true, by decide, rfl⟩ (by decide) rfl
  have f1 := hf.2.2.2.2.1
  have f2 := (hf.2.2.2.2.2.2 (by decide)).2
  have t1 := ht.2.2.2.2.1
  have t2 := ht.2.2.2.2.2.1 ⟨sampleCompany 1 5000000 true, by decide, rfl, rfl⟩
  rw [f1, f2, t1, t2]
  norm_num [sampleHolding]

/-- C6: `updateVal` writes `currentValuation := nv` on the company exactly when the input
parses to an integer `nv ≥ 100` (nothing else in the store changes); for an input that does
not parse or parses below 100 the store is unchanged and an error toast is raised. -/
theorem C6_updateVal_floor (db : Store) (st : AdminCompanies) (co : Company) :
    (∀ n, parseInt ((st.valMap.lookup co.id).getD "undefined") = some n → 100 ≤ n →
      (AdminCompanies.updateVal db st co).1.companies =
        db.companies.map
          (fun c => if c.id == co.id then { c with currentValuation := n } else c) ∧
      (AdminCompanies.updateVal db st co).1.portfolios = db.portfolios) ∧
    ((parseInt ((st.valMap.lookup co.id).getD "undefined") = none ∨
        ∃ n, parseInt ((st.valMap.lookup co.id).getD "undefined") = some n ∧ n < 100) →
      (AdminCompanies.updateVal db st co).1 = db ∧
      (AdminCompanies.updateVal db st co).2.toast =
        some { m := ToastMsg.enterValidValuation, t := ToastType.error }) ∧
    ((AdminCompanies.updateVal db st co).1.companies ≠ db.companies →
      ∃ n, parseInt ((st.valMap.lookup co.id).getD "undefined") = some n ∧ 100 ≤ n) := by
  refine ⟨?_, updateVal_rejects db st co, ?_⟩
  · intro n hparse hfloor
    exact ⟨(updateVal_store db st co hparse hfloor).1, (updateVal_store db st co hparse hfloor).2.1⟩
  · intro hne
    cases hp : parseInt ((st.valMap.lookup co.id).getD "undefined") with
    | none =>
      exact absurd (by rw [(updateVal_rejects db st co (Or.inl hp)).1]) hne
    | some n =>
      by_cases hlt : n < 100
      · exact absurd
          (by rw [(updateVal_rejects db st co (Or.inr ⟨n, hp, hlt⟩)).1]) hne
      · exact ⟨n, rfl, by omega⟩

/-- Witness of C6: the input "6000000" is written; the inputs "99", "0", "-5" and "abc"
leave the store as it was. -/
theorem C6_updateVal_floor_witness :
    (AdminCompanies.updateVal (sampleStore true) (sampleAdmin true "6000000")
      (sampleCompany 1 5000000 true)).1.companies = [sampleCompany 1 6000000 true] ∧
    (AdminCompanies.updateVal (sampleStore true) (sampleAdmin true "99")
      (sampleCompany 1 5000000 true)).1 = sampleStore true ∧
    (AdminCompanies.updateVal (sampleStore true) (sampleAdmin true "0")
      (sampleCompany 1 5000000 true)).1 = sampleStore true ∧
    (AdminCompanies.updateVal (sampleStore true) (sampleAdmin true "-5")
      (sampleCompany 1 5000000 true)).1 = sampleStore true ∧
    (AdminCompanies.updateVal (sampleStore true) (sampleAdmin true "abc")
      (sampleCompany 1 5000000 true)).1 = sampleStore true := by
  refine ⟨?_, ?_, ?_, ?_, ?_⟩
  · rw [((C6_updateVal_floor (sampleStore true) (sampleAdmin true "6000000")
      (sampleCompany 1 5000000 true)).1 6000000 (by decide) (by decide)).1]
    decide
  · exact ((C6_updateVal_floor (sampleStore true) (sampleAdmin true "99")
      (sampleCompany 1 5000000 true)).2.1 (Or.inr ⟨99, by decide, by decide⟩)).1
  · exact ((C6_updateVal_floor (sampleStore true) (sampleAdmin true "0")
      (sampleCompany 1 5000000 true)).2.1 (Or.inr ⟨0, by decide, by decide⟩)).1
  · exact ((C6_updateVal_floor (sampleStore true) (sampleAdmin true "-5")
      (sampleCompany 1 5000000 true)).2.1 (Or.inr ⟨-5, by decide, by decide⟩)).1
  · exact ((C6_updateVal_floor (sampleStore true) (sampleAdmin true "abc")
      (sampleCompany 1 5000000 true)).2.1 (Or.inl (by decide))).1

/-! ## Registry claims -/

/-- C7 (counterexample): in create mode `save` accepts the form with `minInvest` "0" and
`currentValuation` "-5" (and the one with the valuation "abc"): it adds a company with
`minInvest = 0` and `currentValuation = -5` (resp. 0) and raises the success toast. -/
theorem C7_nonpositive_inputs_counterexample :
    (AdminCompanies.save (sampleStore true) (filledSheet "Zed" "0" "-5")).1.companies.map
        (fun c => (c.id, c.minInvest, c.currentValuation)) =
      [(1, 50000, 5000000), (2, 0, -5)] ∧
    (AdminCompanies.save (sampleStore true) (filledSheet "Zed" "0" "-5")).2.toast =
      some { m := ToastMsg.companyAdded, t := ToastType.success } ∧
    (AdminCompanies.save (sampleStore true) (filledSheet "Zed" "1000" "abc")).1.companies.map
        (fun c => (c.id, c.minInvest, c.currentValuation)) =
      [(1, 50000, 5000000), (2, 1000, 0)] ∧
    (AdminCompanies.save (sampleStore true) (filledSheet "Zed" "1000" "abc")).2.toast =
      some { m := ToastMsg.companyAdded, t := ToastType.success } := by
  decide

/-- C7 (amended): in create mode `save` adds a company exactly when the trimmed name, the
`minInvest` input and the `currentValuation` input are all non-empty; the stored numbers are
the `parseInt` of the inputs, or 0 where that is `NaN`.  When one of the three is empty it
writes nothing and raises the validation error.  Forms with a non-blank name whose inputs
parse to positive numbers are among the accepted ones. -/
theorem C7_create_requires_nonempty_inputs (db : Store) (st : AdminCompanies)
    (hcreate : st.editId = none) :
    ((jsTrim st.form.name ≠ "" ∧ st.form.minInvest ≠ "" ∧ st.form.currentValuation ≠ "") →
      (AdminCompanies.save db st).1.companies =
        db.companies ++ [AdminCompanies.saveData st.form db.nextId] ∧
      (AdminCompanies.saveData st.form db.nextId).minInvest =
        (parseInt st.form.minInvest).getD 0 ∧
      (AdminCompanies.saveData st.form db.nextId).currentValuation =
        (parseInt st.form.currentValuation).getD 0 ∧
      (AdminCompanies.save db st).2.toast =
        some { m := ToastMsg.companyAdded, t := ToastType.success }) ∧
    ((jsTrim st.form.name = "" ∨ st.form.minInvest = "" ∨ st.form.currentValuation = "") →
      (AdminCompanies.save db st).1 = db ∧
      (AdminCompanies.save db st).2.toast =
        some { m := ToastMsg.required, t := ToastType.error }) ∧
    ((jsTrim st.form.name ≠ "" ∧ 0 < (parseInt st.form.minInvest).getD 0 ∧
        0 < (parseInt st.form.currentValuation).getD 0) →
      (AdminCompanies.save db st).1.companies =
        db.companies ++ [AdminCompanies.saveData st.form db.nextId]) := by
  have hempty : parseInt "" = none := by decide
  have haccept : (jsTrim st.form.name ≠ "" ∧ st.form.minInvest ≠ "" ∧
      st.form.currentValuation ≠ "") →
      (AdminCompanies.save db st).1.companies =
        db.companies ++ [AdminCompanies.saveData st.form db.nextId] ∧
      (AdminCompanies.save db st).2.toast =
        some { m := ToastMsg.companyAdded, t := ToastType.success } := by
    rintro ⟨h1, h2, h3⟩
    simp [AdminCompanies.save, h1, h2, h3, hcreate, addCompanyDoc]
  refine ⟨?_, ?_, ?_⟩
  · intro h
    exact ⟨(haccept h).1, rfl, rfl, (haccept h).2⟩
  · intro h
    simp [AdminCompanies.save, h]
  · rintro ⟨h1, h2, h3⟩
    refine (haccept ⟨h1, ?_, ?_⟩).1
    · intro he
      rw [he, hempty] at h2
      exact absurd h2 (by decide)
    · intro he
      rw [he, hempty] at h3
      exact absurd h3 (by decide)

/-- Witness of C7 (amended): a complete form is added with its parsed numbers; a form
without a valuation is refused. -/
theorem C7_create_requires_nonempty_inputs_witness :
    (AdminCompanies.save (sampleStore true) (filledSheet "Zed" "1000" "700000")).1.companies.map
        (fun c => (c.id, c.minInvest, c.currentValuation)) =
      [(1, 50000, 5000000), (2, 1000, 700000)] ∧
    (AdminCompanies.save (sampleStore true) (filledSheet "Zed" "1000" "")).1 =
      sampleStore true := by
  refine ⟨?_, ?_⟩
  · rw [((C7_create_requires_nonempty_inputs (sampleStore true)
      (filledSheet "Zed" "1000" "700000") rfl).1 (by decide)).1]
    decide
  · exact ((C7_create_requires_nonempty_inputs (sampleStore true)
      (filledSheet "Zed" "1000" "") rfl).2.1 (by decide)).1

/-- C8 (code at the failing input): the edit sheet of a company valued at 5000000 saved with
the valuation "50" stores `currentValuation = 50` and raises the success toast, while the
same input in the "Update Valuation" box is refused with an error and no write. -/
theorem C8_edit_bypasses_floor :
    (AdminCompanies.run (sampleStore true, sampleAdmin true "") (editValuationEvents 1 "50")).1.companies.map
        (fun c => (c.id, c.currentValuation, c.initialValuation)) = [(1, 50, 5000000)] ∧
    (AdminCompanies.run (sampleStore true, sampleAdmin true "") (editValuationEvents 1 "50")).2.toast =
      some { m := ToastMsg.companyUpdated, t := ToastType.success } ∧
    (AdminCompanies.run (sampleStore true, sampleAdmin true "") (editValuationEvents 1 "-5")).1.companies.map
        (fun c => (c.id, c.currentValuation, c.initialValuation)) = [(1, -5, 5000000)] ∧
    (AdminCompanies.step (sampleStore true, sampleAdmin true "50")
        (AdminCompanies.Event.updateVal 1)).1.companies.map
        (fun c => (c.id, c.currentValuation, c.initialValuation)) = [(1, 5000000, 5000000)] ∧
    (AdminCompanies.step (sampleStore true, sampleAdmin true "50")
        (AdminCompanies.Event.updateVal 1)).2.toast =
      some { m := ToastMsg.enterValidValuation, t := ToastType.error } := by
  decide

/-- C9 (counterexample): a company added with the valuation input "0" is created with
`currentValuation = 0` and `initialValuation = 0`; after `updateVal` to 500 and a save from
the edit sheet its `initialValuation` is 500, not the valuation it was created with.  A
company added with the input "1000000000000000000000" is created with both valuations
`10^21`; the edit sheet shows them as "1e+21", and a save with nothing typed stores
`initialValuation = 1`. -/
theorem C9_zero_creation_counterexample :
    (AdminCompanies.run (AdminCompanies.start [])
        (createEvents "Zed" "1000" "0" ++ [AdminCompanies.Event.save])).1.companies.map
        (fun c => (c.id, c.currentValuation, c.initialValuation)) = [(0, 0, 0)] ∧
    (AdminCompanies.run (AdminCompanies.start [])
        (createEvents "Zed" "1000" "0" ++ [AdminCompanies.Event.save] ++
          repriceThenEditEvents 0 "500")).1.companies.map
        (fun c => (c.id, c.currentValuation, c.initialValuation)) = [(0, 500, 500)] ∧
    (AdminCompanies.run (AdminCompanies.start [])
        (createEvents "Big" "1000" "1000000000000000000000" ++
          [AdminCompanies.Event.save])).1.companies.map
        (fun c => (c.id, c.currentValuation, c.initialValuation)) =
      [(0, 10 ^ 21, 10 ^ 21)] ∧
    jsNumberToString (10 ^ 21) = "1e+21" ∧
    parseInt "1e+21" = some 1 ∧
    (AdminCompanies.run (AdminCompanies.start [])
        (createEvents "Big" "1000" "1000000000000000000000" ++
          [AdminCompanies.Event.save] ++ editUnchangedEvents 0)).1.companies.map
        (fun c => (c.id, c.currentValuation, c.initialValuation)) = [(0, 1, 1)] := by
  refine ⟨by decide, by decide, by decide, by decide, by decide, by decide⟩

/-- C9 (amended): in every state reached from an empty `companies` collection, a `save` that
creates a company sets its `initialValuation` to the `currentValuation` it stores, and when
that valuation is not 0 and below `10^21` in absolute value (the numbers `String` writes in
plain digits) no later sequence of events (loads, edits and saves, `updateVal`,
`toggleActive`, `doDelete`, further creations) changes the `initialValuation` of that
company.  The created company is the one whose id is the fresh id of the step. -/
theorem C9_initialValuation_fixed_from_creation (portfolios : List (String × List Holding))
    (before later : List AdminCompanies.Event) (c : Company)
    (hc : c ∈ (AdminCompanies.step (AdminCompanies.run (AdminCompanies.start portfolios) before)
      AdminCompanies.Event.save).1.companies)
    (hnew : c.id = (AdminCompanies.run (AdminCompanies.start portfolios) before).1.nextId) :
    c.initialValuation = c.currentValuation ∧
    (c.currentValuation ≠ 0 → c.currentValuation.natAbs < 10 ^ 21 →
      ∀ d ∈ (AdminCompanies.run
          (AdminCompanies.step (AdminCompanies.run (AdminCompanies.start portfolios) before)
            AdminCompanies.Event.save) later).1.companies,
        d.id = c.id → d.initialValuation = c.currentValuation) := by
  have hw := AdminCompanies.wellFormed_run (AdminCompanies.wellFormed_start portfolios) before
  obtain ⟨h1, h2⟩ := AdminCompanies.save_creates hw hc hnew
  refine ⟨h1, ?_⟩
  intro hv hb d hd hid
  exact (AdminCompanies.tracks_run hv hb h2 later).2.1 d hd hid

/-- Witness of C9 (amended): a company created with the valuation "5000000", then repriced
to 6000000 and saved from the edit sheet, is stored with `currentValuation = 6000000` and
still has `initialValuation = 5000000`. -/
theorem C9_initialValuation_fixed_from_creation_witness :
    { sampleCompany 0 6000000 true with name := "Acme", expectedReturns := "" } ∈
      (AdminCompanies.run
        (AdminCompanies.step
          (AdminCompanies.run (AdminCompanies.start []) (createEvents "Acme" "50000" "5000000"))
          AdminCompanies.Event.save) (repriceThenEditEvents 0 "6000000")).1.companies ∧
    ({ sampleCompany 0 6000000 true with name := "Acme", expectedReturns := "" } :
      Company).initialValuation =
      ({ sampleCompany 0 5000000 true with name := "Acme", expectedReturns := "" } :
        Company).currentValuation :=
  ⟨by decide,
    (C9_initialValuation_fixed_from_creation [] (createEvents "Acme" "50000" "5000000")
      (repriceThenEditEvents 0 "6000000")
      { sampleCompany 0 5000000 true with name := "Acme", expectedReturns := "" }
      (by decide) (by decide)).2 (by decide) (by decide)
      { sampleCompany 0 6000000 true with name := "Acme", expectedReturns := "" }
      (by decide) rfl⟩

/-! ## Visibility claims -/

/-- C10: the company list `HomeScreen.load` gives a client is the store's company list
restricted to the companies with `active = true` (in the same order, none added, none with
`active = false`), and the list `AdminCompanies.load` gives the admin is the whole
collection, hidden companies included. -/
theorem C10_company_lists (db : Store) (uid : String) (st : AdminCompanies) :
    (∀ c, c ∈ (HomeScreen.load db uid).1 ↔ c ∈ db.companies ∧ c.active = true) ∧
    (∀ c ∈ (HomeScreen.load db uid).1, c.active ≠ false) ∧
    List.Sublist (HomeScreen.load db uid).1 db.companies ∧
    (∀ c, (HomeScreen.load db uid).1.count c = if c.active = true then db.companies.count c else 0) ∧
    (AdminCompanies.load db st).companies = db.companies ∧
    (∀ c ∈ db.companies, c.active = false → c ∈ (AdminCompanies.load db st).companies) := by
  refine ⟨?_, ?_, ?_, ?_, rfl, ?_⟩
  · intro c
    simp [HomeScreen.load, List.mem_filter]
  · intro c hc
    have : c.active = true := by
      simpa using (List.mem_filter.mp hc).2
    simp [this]
  · exact List.filter_sublist _
  · intro c
    simp only [HomeScreen.load]
    by_cases ha : c.active = true
    · rw [List.count_filter (by simp [ha])]
      simp [ha]
    · rw [if_neg ha]
      apply List.count_eq_zero_of_not_mem
      intro hm
      have := (List.mem_filter.mp hm).2
      simp at this
      exact ha this
  · intro c hc _
    exact hc

/-! ## Portfolio store: helper lemmas -/

theorem holdingsOf_setPortfolioDoc (db : Store) (uid : String) (l : List Holding) :
    holdingsOf (setPortfolioDoc db uid l) uid = l := by
  simp [holdingsOf, setPortfolioDoc, List.lookup]

theorem enumFrom_filter_ne (l : List Holding) (n idx : Nat) :
    ((l.enumFrom n).filter (fun p => p.1 != n + idx)).map (fun p => p.2) = l.eraseIdx idx := by
  induction l generalizing n idx with
  | nil => rfl
  | cons x xs ih =>
    cases idx with
    | zero =>
      have hall : ∀ p ∈ xs.enumFrom (n + 1), (p.1 != n + 0) = true := by
        intro p hp
        have := List.le_fst_of_mem_enumFrom hp
        simp only [bne_iff_ne, ne_eq]
        omega
      simp only [List.enumFrom_cons, List.filter_cons, Nat.add_zero, bne_self_eq_false,
        Bool.false_eq_true, if_false, List.eraseIdx_cons_zero]
      rw [List.filter_eq_self.mpr (by simpa using hall)]
      exact List.enumFrom_map_snd (n + 1) xs
    | succ i =>
      have hne : (n != n + (i + 1)) = true := by
        simp only [bne_iff_ne, ne_eq]
        omega
      simp only [List.enumFrom_cons, List.filter_cons, hne, if_true, List.map_cons,
        List.eraseIdx_cons_succ]
      have := ih (n + 1) i
      rw [show n + 1 + i = n + (i + 1) by omega] at this
      rw [this]

theorem filterIndexNe_eq_eraseIdx (l : List Holding) (idx : Nat) :
    AdminPortfolios.filterIndexNe l idx = l.eraseIdx idx := by
  have := enumFrom_filter_ne l 0 idx
  simpa [AdminPortfolios.filterIndexNe, List.enum] using this

theorem addHolding_refuses (db : Store) (st : AdminPortfolios)
    (h : AdminPortfolios.formCompany st = none ∨ st.form.stake = "" ∨
      st.form.buyValuation = "") :
    AdminPortfolios.addHolding db st =
      some (db, { st with
        toast := some { m := ToastMsg.selectCompanyStakeValuation, t := ToastType.error } }) := by
  unfold AdminPortfolios.addHolding
  cases hc : AdminPortfolios.formCompany st with
  | none => rfl
  | some co =>
    rcases h with h | h
    · rw [hc] at h; cases h
    · simp only [h, if_true]

theorem addHolding_accepts (db : Store) (st : AdminPortfolios) (co : Company) (c : Client)
    (stake : ℚ) (buyV : Int)
    (hco : AdminPortfolios.formCompany st = some co) (hs : st.form.stake ≠ "")
    (hb : st.form.buyValuation ≠ "") (hstake : parseFloat st.form.stake = some stake)
    (hbuy : parseInt st.form.buyValuation = some buyV) (hsel : st.selected = some c) :
    AdminPortfolios.newHolding st.form co =
      some (AdminPortfolios.builtHolding st.form co stake buyV) ∧
    AdminPortfolios.addHolding db st =
      some (setPortfolioDoc db c.id
          (st.holdings ++ [AdminPortfolios.builtHolding st.form co stake buyV]),
        { st with
          holdings := st.holdings ++ [AdminPortfolios.builtHolding st.form co stake buyV],
          sheet := false, saving := false,
          toast := some { m := ToastMsg.holdingAdded, t := ToastType.success } }) := by
  have hnew : AdminPortfolios.newHolding st.form co =
      some (AdminPortfolios.builtHolding st.form co stake buyV) := by
    simp [AdminPortfolios.newHolding, hstake, hbuy]
  refine ⟨hnew, ?_⟩
  have hg : ¬ (st.form.stake = "" ∨ st.form.buyValuation = "") := by
    rintro (h1 | h1)
    · exact hs h1
    · exact hb h1
  simp only [AdminPortfolios.addHolding, hco, hg, if_false, hnew, hsel]

theorem addHoldingCall_refused (st : AdminPortfolios)
    (h : AdminPortfolios.formCompany st = none ∨ st.form.stake = "" ∨
      st.form.buyValuation = "") :
    AdminPortfolios.addHoldingCall st =
      (AdminPortfolios.AddHoldingCall.refused,
        { m := ToastMsg.selectCompanyStakeValuation, t := ToastType.error }) := by
  unfold AdminPortfolios.addHoldingCall
  cases hc : AdminPortfolios.formCompany st with
  | none => rfl
  | some co =>
    rcases h with h | h
    · rw [hc] at h; cases h
    · simp only [h, if_true]

theorem addHoldingCall_accepts (st : AdminPortfolios) (co : Company) (c : Client)
    (hco : AdminPortfolios.formCompany st = some co) (hs : st.form.stake ≠ "")
    (hb : st.form.buyValuation ≠ "") (hsel : st.selected = some c) :
    AdminPortfolios.addHoldingCall st =
      (AdminPortfolios.AddHoldingCall.setDoc c.id
          (st.holdings.map AdminPortfolios.HoldingData.ofHolding ++
            [AdminPortfolios.holdingData st.form co]),
        { m := ToastMsg.holdingAdded, t := ToastType.success }) := by
  have hg : ¬ (st.form.stake = "" ∨ st.form.buyValuation = "") := by
    rintro (h1 | h1)
    · exact hs h1
    · exact hb h1
  simp only [AdminPortfolios.addHoldingCall, hco, hg, if_false, hsel]

theorem holdingData_of_newHolding (form : HoldingForm) (co : Company) (h : Holding)
    (hn : AdminPortfolios.newHolding form co = some h) :
    AdminPortfolios.HoldingData.ofHolding h = AdminPortfolios.holdingData form co := by
  unfold AdminPortfolios.newHolding at hn
  cases hs : parseFloat form.stake with
  | none => rw [hs] at hn; cases hn
  | some stake =>
    cases hb : parseInt form.buyValuation with
    | none => rw [hs, hb] at hn; cases hn
    | some buyV =>
      rw [hs, hb] at hn
      simp only [Option.some.injEq] at hn
      subst hn
      cases hi : parseInt form.investedAmt with
      | none =>
        simp [AdminPortfolios.HoldingData.ofHolding, AdminPortfolios.holdingData,
          AdminPortfolios.builtHolding, AdminPortfolios.computedAmount, hs, hb, hi,
          parseIntOrZero, orElse]
      | some n =>
        by_cases hz : n = 0
        · simp [AdminPortfolios.HoldingData.ofHolding, AdminPortfolios.holdingData,
            AdminPortfolios.builtHolding, AdminPortfolios.computedAmount, hs, hb, hi,
            parseIntOrZero, orElse, hz]
        · simp [AdminPortfolios.HoldingData.ofHolding, AdminPortfolios.holdingData,
            AdminPortfolios.builtHolding, AdminPortfolios.computedAmount, hs, hb, hi,
            parseIntOrZero, orElse, hz]

theorem newHolding_eq_none (form : HoldingForm) (co : Company) :
    AdminPortfolios.newHolding form co = none ↔
      parseFloat form.stake = none ∨ parseInt form.buyValuation = none := by
  unfold AdminPortfolios.newHolding
  cases parseFloat form.stake <;> cases parseInt form.buyValuation <;> simp

theorem ofRat_one : Dbl.ofRat (1 : ℚ) = Dbl.round 1 1 0 := by
  simp [Dbl.ofRat]

set_option maxRecDepth 100000 in
theorem roundedAmount_sample : AdminPortfolios.roundedAmount 1 5000000 = 50000 := by
  unfold AdminPortfolios.roundedAmount
  rw [ofRat_one]
  decide

theorem parseFloat_of_scan {s : String} {f : FloatScan} (h : scanFloat s = some f) :
    parseFloat s = some f.value := by
  simp [parseFloat, h]

/-! ## Portfolio claims -/

/-- C12 (counterexample): `addHolding` accepts the forms with stake "0" and buy valuation
"0", with stake "-5" and with stake "150": it stores a holding with that stake and buy
valuation and raises the success toast.  It also accepts the stake "abc" and the buy
valuation ".5", which do not parse: the document it writes then carries `NaN` as stake
(resp. as buy valuation) and as invested amount, with the success toast. -/
theorem C12_out_of_range_inputs_counterexample :
    (AdminPortfolios.addHolding (sampleStore true) (holdingSheet [] "0" "0" "")).map
        (fun r => ((holdingsOf r.1 "u1").map (fun h => (h.stake, h.buyValuation)), r.2.toast)) =
      some ([(0, 0)], some { m := ToastMsg.holdingAdded, t := ToastType.success }) ∧
    (AdminPortfolios.addHolding (sampleStore true) (holdingSheet [] "-5" "5000000" "")).map
        (fun r => ((holdingsOf r.1 "u1").map (fun h => (h.stake, h.buyValuation)), r.2.toast)) =
      some ([(-5, 5000000)], some { m := ToastMsg.holdingAdded, t := ToastType.success }) ∧
    (AdminPortfolios.addHolding (sampleStore true) (holdingSheet [] "150" "5000000" "")).map
        (fun r => ((holdingsOf r.1 "u1").map (fun h => (h.stake, h.buyValuation)), r.2.toast)) =
      some ([(150, 5000000)], some { m := ToastMsg.holdingAdded, t := ToastType.success }) ∧
    AdminPortfolios.addHoldingCall (holdingSheet [] "abc" "5000000" "") =
      (AdminPortfolios.AddHoldingCall.setDoc "u1"
          [{ companyId := 1, companyName := "Acme Tech", sector := "Technology",
             stake := none, buyValuation := some 5000000, investedAmt := none,
             purchaseDate := "2025-01-15" }],
        { m := ToastMsg.holdingAdded, t := ToastType.success }) ∧
    AdminPortfolios.addHoldingCall (holdingSheet [] "1" ".5" "") =
      (AdminPortfolios.AddHoldingCall.setDoc "u1"
          [{ companyId := 1, companyName := "Acme Tech", sector := "Technology",
             stake := some 1, buyValuation := none, investedAmt := none,
             purchaseDate := "2025-01-15" }],
        { m := ToastMsg.holdingAdded, t := ToastType.success }) := by
  have h0 : parseFloat "0" = some 0 := by
    rw [parseFloat_of_scan (show scanFloat "0" = some
      { neg := false, mantissa := 0, fracLen := 0, exponent := 0 } by decide)]
    norm_num [FloatScan.value]
  have h5 : parseFloat "-5" = some (-5) := by
    rw [parseFloat_of_scan (show scanFloat "-5" = some
      { neg := true, mantissa := 5, fracLen := 0, exponent := 0 } by decide)]
    norm_num [FloatScan.value]
  have h150 : parseFloat "150" = some 150 := by
    rw [parseFloat_of_scan (show scanFloat "150" = some
      { neg := false, mantissa := 150, fracLen := 0, exponent := 0 } by decide)]
    norm_num [FloatScan.value]
  have h1 : parseFloat "1" = some 1 := by
    rw [parseFloat_of_scan (show scanFloat "1" = some
      { neg := false, mantissa := 1, fracLen := 0, exponent := 0 } by decide)]
    norm_num [FloatScan.value]
  have habc : parseFloat "abc" = none := by
    have : scanFloat "abc" = none := by decide
    simp [parseFloat, this]
  have hdot : parseInt ".5" = none := by decide
  have hbv : parseInt "5000000" = some 5000000 := by decide
  have hemp : parseInt "" = none := by decide
  have k0 := (addHolding_accepts (sampleStore true) (holdingSheet [] "0" "0" "")
    (sampleCompany 1 5000000 true) sampleClient 0 0 (by decide) (by decide)
    (by decide) h0 (show parseInt "0" = some 0 by decide) rfl).2
  have k5 := (addHolding_accepts (sampleStore true) (holdingSheet [] "-5" "5000000" "")
    (sampleCompany 1 5000000 true) sampleClient (-5) 5000000 (by decide) (by decide)
    (by decide) h5 (show parseInt "5000000" = some 5000000 by decide) rfl).2
  have k150 := (addHolding_accepts (sampleStore true) (holdingSheet [] "150" "5000000" "")
    (sampleCompany 1 5000000 true) sampleClient 150 5000000 (by decide) (by decide)
    (by decide) h150 (show parseInt "5000000" = some 5000000 by decide) rfl).2
  have kabc := addHoldingCall_accepts (holdingSheet [] "abc" "5000000" "")
    (sampleCompany 1 5000000 true) sampleClient (by decide) (by decide) (by decide) rfl
  have kdot := addHoldingCall_accepts (holdingSheet [] "1" ".5" "")
    (sampleCompany 1 5000000 true) sampleClient (by decide) (by decide) (by decide) rfl
  refine ⟨?_, ?_, ?_, ?_, ?_⟩
  · rw [k0]
    have hu : sampleClient.id = "u1" := rfl
    simp only [Option.map_some', hu, holdingsOf_setPortfolioDoc]
    simp [holdingSheet, AdminPortfolios.builtHolding]
  · rw [k5]
    have hu : sampleClient.id = "u1" := rfl
    simp only [Option.map_some', hu, holdingsOf_setPortfolioDoc]
    simp [holdingSheet, AdminPortfolios.builtHolding]
  · rw [k150]
    have hu : sampleClient.id = "u1" := rfl
    simp only [Option.map_some', hu, holdingsOf_setPortfolioDoc]
    simp [holdingSheet, AdminPortfolios.builtHolding]
  · rw [kabc]
    simp [holdingSheet, AdminPortfolios.holdingData, AdminPortfolios.computedAmount, habc,
      hbv, hemp, sampleCompany, sampleClient]
  · rw [kdot]
    simp [holdingSheet, AdminPortfolios.holdingData, AdminPortfolios.computedAmount, h1,
      hdot, hemp, sampleCompany, sampleClient]

/-- C12 (amended): `addHolding` goes past its guard exactly when the form's `companyId`
resolves to a company of the loaded list and the stake and buy valuation inputs are
non-empty.  With a client selected (the sheet is rendered for a selected client only) it
then writes, and the document it writes is the listed holdings
followed by the object whose stake and buy valuation are `parseFloat` and `parseInt` of the
inputs, whatever their sign or size and also when they are `NaN`, with the success toast;
when both parse to numbers that object is the holding `addHolding` leaves in the store.
When the company does not resolve or one of the two inputs is empty it writes nothing and
raises the error toast. -/
theorem C12_addHolding_requires_company_and_inputs (db : Store) (st : AdminPortfolios) :
    ((AdminPortfolios.addHoldingCall st).1 = AdminPortfolios.AddHoldingCall.refused ↔
      (AdminPortfolios.formCompany st = none ∨ st.form.stake = "" ∨
        st.form.buyValuation = "")) ∧
    ((AdminPortfolios.formCompany st = none ∨ st.form.stake = "" ∨
        st.form.buyValuation = "") →
      AdminPortfolios.addHoldingCall st =
        (AdminPortfolios.AddHoldingCall.refused,
          { m := ToastMsg.selectCompanyStakeValuation, t := ToastType.error }) ∧
      AdminPortfolios.addHolding db st =
        some (db,
          { st with
            toast :=
              some { m := ToastMsg.selectCompanyStakeValuation, t := ToastType.error } })) ∧
    (∀ (co : Company) (c : Client),
      AdminPortfolios.formCompany st = some co → st.form.stake ≠ "" →
      st.form.buyValuation ≠ "" → st.selected = some c →
      AdminPortfolios.addHoldingCall st =
        (AdminPortfolios.AddHoldingCall.setDoc c.id
            (st.holdings.map AdminPortfolios.HoldingData.ofHolding ++
              [AdminPortfolios.holdingData st.form co]),
          { m := ToastMsg.holdingAdded, t := ToastType.success }) ∧
      (AdminPortfolios.holdingData st.form co).companyId = co.id ∧
      (AdminPortfolios.holdingData st.form co).stake = parseFloat st.form.stake ∧
      (AdminPortfolios.holdingData st.form co).buyValuation =
        parseInt st.form.buyValuation ∧
      (AdminPortfolios.newHolding st.form co = none ↔
        (parseFloat st.form.stake = none ∨ parseInt st.form.buyValuation = none)) ∧
      (∀ h, AdminPortfolios.newHolding st.form co = some h →
        AdminPortfolios.HoldingData.ofHolding h = AdminPortfolios.holdingData st.form co ∧
        AdminPortfolios.addHolding db st =
          some (setPortfolioDoc db c.id (st.holdings ++ [h]),
            { st with
              holdings := st.holdings ++ [h], sheet := false, saving := false,
              toast := some { m := ToastMsg.holdingAdded, t := ToastType.success } }))) := by
  refine ⟨?_, ?_, ?_⟩
  · constructor
    · intro href
      by_contra hno
      have hno1 : ¬ AdminPortfolios.formCompany st = none ∧ ¬ st.form.stake = "" ∧
          ¬ st.form.buyValuation = "" := by
        refine ⟨fun h => hno (Or.inl h), fun h => hno (Or.inr (Or.inl h)),
          fun h => hno (Or.inr (Or.inr h))⟩
      obtain ⟨h1, h2, h3⟩ := hno1
      have hg : ¬ (st.form.stake = "" ∨ st.form.buyValuation = "") := by
        rintro (h | h)
        · exact h2 h
        · exact h3 h
      cases hc : AdminPortfolios.formCompany st with
      | none => exact h1 hc
      | some co =>
        cases hsel : st.selected with
        | none =>
          simp [AdminPortfolios.addHoldingCall, hc, hg, hsel] at href
        | some c =>
          simp [AdminPortfolios.addHoldingCall, hc, hg, hsel] at href
    · intro h
      rw [addHoldingCall_refused st h]
  · intro h
    exact ⟨addHoldingCall_refused st h, addHolding_refuses db st h⟩
  · intro co c hco hs hb hsel
    refine ⟨addHoldingCall_accepts st co c hco hs hb hsel, rfl, rfl, rfl,
      newHolding_eq_none st.form co, ?_⟩
    intro h hn
    refine ⟨holdingData_of_newHolding st.form co h hn, ?_⟩
    have hg : ¬ (st.form.stake = "" ∨ st.form.buyValuation = "") := by
      rintro (h1 | h1)
      · exact hs h1
      · exact hb h1
    simp only [AdminPortfolios.addHolding, hco, hg, if_false, hn, hsel]

theorem ofRat_seven_twentieths : Dbl.ofRat (7 / 20 : ℚ) = Dbl.round 7 20 0 := by
  have h1 : (7 / 20 : ℚ).num = 7 := by norm_num
  have h2 : (7 / 20 : ℚ).den = 20 := by norm_num
  simp only [Dbl.ofRat, h1, h2]

set_option maxRecDepth 100000 in
theorem roundedAmount_boundary : AdminPortfolios.roundedAmount (7 / 20) 1000 = 3 := by
  unfold AdminPortfolios.roundedAmount
  rw [ofRat_seven_twentieths]
  decide

/-- Witness of C12 (amended): the form with an empty stake is refused and leaves the store
as it was; the form with stake "1" and buy valuation "5000000" is stored; for the stake
"0.35" and the buy valuation "1000" the written object carries the invested amount 3, the
rounding of the double product `3.4999999999999996`. -/
theorem C12_addHolding_requires_company_and_inputs_witness :
    (AdminPortfolios.addHolding (sampleStore true) (holdingSheet [] "" "5000000" "")).map
        (fun r => (r.1.portfolios, r.2.toast)) =
      some ((sampleStore true).portfolios,
        some { m := ToastMsg.selectCompanyStakeValuation, t := ToastType.error }) ∧
    (AdminPortfolios.addHolding (sampleStore true) (holdingSheet [] "1" "5000000" "")).map
        (fun r => (holdingsOf r.1 "u1").map (fun h => (h.stake, h.buyValuation))) =
      some [(1, 5000000)] ∧
    AdminPortfolios.addHoldingCall (holdingSheet [] "0.35" "1000" "") =
      (AdminPortfolios.AddHoldingCall.setDoc "u1"
          [{ companyId := 1, companyName := "Acme Tech", sector := "Technology",
             stake := some (7 / 20), buyValuation := some 1000, investedAmt := some 3,
             purchaseDate := "2025-01-15" }],
        { m := ToastMsg.holdingAdded, t := ToastType.success }) := by
  have h1 : parseFloat "1" = some 1 := by
    rw [parseFloat_of_scan (show scanFloat "1" = some
      { neg := false, mantissa := 1, fracLen := 0, exponent := 0 } by decide)]
    norm_num [FloatScan.value]
  have h35 : parseFloat "0.35" = some (7 / 20) := by
    rw [parseFloat_of_scan (show scanFloat "0.35" = some
      { neg := false, mantissa := 35, fracLen := 2, exponent := 0 } by decide)]
    norm_num [FloatScan.value]
  have hbv : parseInt "5000000" = some 5000000 := by decide
  have hk : parseInt "1000" = some 1000 := by decide
  have hemp : parseInt "" = none := by decide
  have hnew : AdminPortfolios.newHolding (holdingSheet [] "1" "5000000" "").form
      (sampleCompany 1 5000000 true) =
      some (AdminPortfolios.builtHolding (holdingSheet [] "1" "5000000" "").form
        (sampleCompany 1 5000000 true) 1 5000000) := by
    simp [AdminPortfolios.newHolding, holdingSheet, h1, hbv]
  refine ⟨?_, ?_, ?_⟩
  · rw [((C12_addHolding_requires_company_and_inputs (sampleStore true)
      (holdingSheet [] "" "5000000" "")).2.1 (Or.inr (Or.inl rfl))).2]
    rfl
  · rw [(((C12_addHolding_requires_company_and_inputs (sampleStore true)
      (holdingSheet [] "1" "5000000" "")).2.2 (sampleCompany 1 5000000 true) sampleClient
      (by decide) (by decide) (by decide) rfl).2.2.2.2.2 _ hnew).2]
    have hu : sampleClient.id = "u1" := rfl
    simp only [Option.map_some', hu, holdingsOf_setPortfolioDoc]
    simp [holdingSheet, AdminPortfolios.builtHolding]
  · rw [((C12_addHolding_requires_company_and_inputs (sampleStore true)
      (holdingSheet [] "0.35" "1000" "")).2.2 (sampleCompany 1 5000000 true) sampleClient
      (by decide) (by decide) (by decide) rfl).1]
    simp [holdingSheet, AdminPortfolios.holdingData, AdminPortfolios.computedAmount, h35, hk,
      hemp, sampleCompany, sampleClient, roundedAmount_boundary]

/-- C13 (code at the failing input): with stake "1" and buy valuation "5000000" the supplied
amount "0" is not stored: the holding gets `investedAmt = 50000`, the rounded
`(stake/100) * buyValuation`, as it does for an empty amount field; the supplied amount
"12345" is stored. -/
theorem C13_supplied_zero_amount_replaced :
    (AdminPortfolios.newHolding (holdingSheet [] "1" "5000000" "0").form
      (sampleCompany 1 5000000 true)).map (fun h => h.investedAmt) = some 50000 ∧
    (AdminPortfolios.newHolding (holdingSheet [] "1" "5000000" "").form
      (sampleCompany 1 5000000 true)).map (fun h => h.investedAmt) = some 50000 ∧
    (AdminPortfolios.newHolding (holdingSheet [] "1" "5000000" "12345").form
      (sampleCompany 1 5000000 true)).map (fun h => h.investedAmt) = some 12345 := by
  have h1 : parseFloat "1" = some 1 := by
    rw [parseFloat_of_scan (show scanFloat "1" = some
      { neg := false, mantissa := 1, fracLen := 0, exponent := 0 } by decide)]
    norm_num [FloatScan.value]
  have hb : parseInt "5000000" = some 5000000 := by decide
  have hz : parseIntOrZero "0" = 0 := by decide
  have he : parseIntOrZero "" = 0 := by decide
  have hs : parseIntOrZero "12345" = 12345 := by decide
  refine ⟨?_, ?_, ?_⟩ <;>
    norm_num [AdminPortfolios.newHolding, AdminPortfolios.builtHolding, holdingSheet, h1, hb,
      hz, he, hs, orElse, roundedAmount_sample]

/-- C14 (counterexample): the admin's list holds two holdings while the stored portfolio
holds three; `removeHolding` with the index 5 removes nothing, overwrites the stored
portfolio with the two listed holdings and raises the success toast. -/
theorem C14_stale_index_counterexample :
    holdingsOf
        (setPortfolioDoc (sampleStore true) "u1" [stakeHolding 1, stakeHolding 2, stakeHolding 3])
        "u1" = [stakeHolding 1, stakeHolding 2, stakeHolding 3] ∧
    holdingsOf (AdminPortfolios.removeHolding
        (setPortfolioDoc (sampleStore true) "u1" [stakeHolding 1, stakeHolding 2, stakeHolding 3])
        (removalPending [stakeHolding 1, stakeHolding 2] 5)).1 "u1" =
      [stakeHolding 1, stakeHolding 2] ∧
    (AdminPortfolios.removeHolding
        (setPortfolioDoc (sampleStore true) "u1" [stakeHolding 1, stakeHolding 2, stakeHolding 3])
        (removalPending [stakeHolding 1, stakeHolding 2] 5)).2.toast =
      some { m := ToastMsg.removed, t := ToastType.success } := by
  refine ⟨holdingsOf_setPortfolioDoc _ _ _, ?_, rfl⟩
  have h : (AdminPortfolios.removeHolding
      (setPortfolioDoc (sampleStore true) "u1" [stakeHolding 1, stakeHolding 2, stakeHolding 3])
      (removalPending [stakeHolding 1, stakeHolding 2] 5)).1 =
      setPortfolioDoc
        (setPortfolioDoc (sampleStore true) "u1" [stakeHolding 1, stakeHolding 2, stakeHolding 3])
        "u1" (AdminPortfolios.filterIndexNe [stakeHolding 1, stakeHolding 2] 5) := rfl
  rw [h, holdingsOf_setPortfolioDoc, filterIndexNe_eq_eraseIdx]
  rfl

/-- C14 (amended): for an index outside `0..length(L)-1` `removeHolding` removes nothing: it
writes the unchanged list `L` of the screen to the selected client's portfolio document,
keeps `L` on the screen and raises the success toast; no error is raised. -/
theorem C14_out_of_range_index_rewrites_list (db : Store) (st : AdminPortfolios) (idx : Nat)
    (c : Client) (hconf : st.confirm = some idx) (hsel : st.selected = some c)
    (hout : st.holdings.length ≤ idx) :
    AdminPortfolios.removeHolding db st =
      (setPortfolioDoc db c.id st.holdings,
        { st with holdings := st.holdings, confirm := none,
                  toast := some { m := ToastMsg.removed, t := ToastType.success } }) ∧
    holdingsOf (AdminPortfolios.removeHolding db st).1 c.id = st.holdings := by
  have hsame : AdminPortfolios.filterIndexNe st.holdings idx = st.holdings := by
    rw [filterIndexNe_eq_eraseIdx]
    exact List.eraseIdx_of_length_le hout
  have hrm : AdminPortfolios.removeHolding db st =
      (setPortfolioDoc db c.id st.holdings,
        { st with holdings := st.holdings, confirm := none,
                  toast := some { m := ToastMsg.removed, t := ToastType.success } }) := by
    simp only [AdminPortfolios.removeHolding, hconf, hsel, hsame]
  exact ⟨hrm, by rw [hrm]; exact holdingsOf_setPortfolioDoc _ _ _⟩

/-- Witness of C14 (amended): a list of two holdings and the index 5. -/
theorem C14_out_of_range_index_rewrites_list_witness :
    holdingsOf (AdminPortfolios.removeHolding (sampleStore true)
      (removalPending [stakeHolding 1, stakeHolding 2] 5)).1 sampleClient.id =
      [stakeHolding 1, stakeHolding 2] :=
  (C14_out_of_range_index_rewrites_list (sampleStore true)
    (removalPending [stakeHolding 1, stakeHolding 2] 5) 5 sampleClient rfl rfl (by decide)).2

/-- C15: for an index `i` with `i < length(L)` `removeHolding` writes `L` without the
element at position `i`: the written list (in the store and on the screen) has
`length(L) - 1` elements, agrees with `L` at every position before `i` and holds at every
position `j ≥ i` the element `L` holds at `j + 1`. -/
theorem C15_removeHolding_deletes_position (db : Store) (st : AdminPortfolios) (idx : Nat)
    (c : Client) (hconf : st.confirm = some idx) (hsel : st.selected = some c)
    (hin : idx < st.holdings.length) :
    holdingsOf (AdminPortfolios.removeHolding db st).1 c.id =
      (AdminPortfolios.removeHolding db st).2.holdings ∧
    (AdminPortfolios.removeHolding db st).2.holdings = st.holdings.eraseIdx idx ∧
    (AdminPortfolios.removeHolding db st).2.holdings.length = st.holdings.length - 1 ∧
    (∀ j, j < idx →
      (AdminPortfolios.removeHolding db st).2.holdings[j]? = st.holdings[j]?) ∧
    (∀ j, idx ≤ j →
      (AdminPortfolios.removeHolding db st).2.holdings[j]? = st.holdings[j + 1]?) ∧
    (AdminPortfolios.removeHolding db st).2.toast =
      some { m := ToastMsg.removed, t := ToastType.success } := by
  have hrm : AdminPortfolios.removeHolding db st =
      (setPortfolioDoc db c.id (st.holdings.eraseIdx idx),
        { st with holdings := st.holdings.eraseIdx idx, confirm := none,
                  toast := some { m := ToastMsg.removed, t := ToastType.success } }) := by
    simp only [AdminPortfolios.removeHolding, hconf, hsel, filterIndexNe_eq_eraseIdx]
  rw [hrm]
  refine ⟨holdingsOf_setPortfolioDoc _ _ _, rfl, ?_, ?_, ?_, rfl⟩
  · exact List.length_eraseIdx_of_lt hin
  · intro j hj
    exact List.getElem?_eraseIdx_of_lt _ _ _ hj
  · intro j hj
    exact List.getElem?_eraseIdx_of_ge _ _ _ hj

/-- Witness of C15: removing position 1 of three holdings leaves the first and the third. -/
theorem C15_removeHolding_deletes_position_witness :
    (AdminPortfolios.removeHolding (sampleStore true)
      (removalPending [stakeHolding 1, stakeHolding 2, stakeHolding 3] 1)).2.holdings =
      [stakeHolding 1, stakeHolding 3] :=
  (C15_removeHolding_deletes_position (sampleStore true)
    (removalPending [stakeHolding 1, stakeHolding 2, stakeHolding 3] 1) 1 sampleClient rfl rfl
    (by decide)).2.1

/-- C16: an accepted `addHolding` call on the list `L` writes `L` followed by the one new
holding, to the store and to the screen: every position of `L` keeps its holding, the
length grows by one, and the new holding carries the id, name and sector of the selected
company, the parsed stake and the parsed buy valuation. -/
theorem C16_addHolding_appends (db : Store) (st : AdminPortfolios) (co : Company)
    (c : Client) (stake : ℚ) (buyV : Int)
    (hco : AdminPortfolios.formCompany st = some co) (hs : st.form.stake ≠ "")
    (hb : st.form.buyValuation ≠ "") (hstake : parseFloat st.form.stake = some stake)
    (hbuy : parseInt st.form.buyValuation = some buyV) (hsel : st.selected = some c) :
    ∃ r h, AdminPortfolios.addHolding db st = some r ∧
      holdingsOf r.1 c.id = st.holdings ++ [h] ∧
      r.2.holdings = st.holdings ++ [h] ∧
      (st.holdings ++ [h]).length = st.holdings.length + 1 ∧
      (∀ j, j < st.holdings.length → (st.holdings ++ [h])[j]? = st.holdings[j]?) ∧
      (st.holdings ++ [h])[st.holdings.length]? = some h ∧
      h.companyId = co.id ∧ h.companyName = co.name ∧ h.sector = co.sector ∧
      h.stake = stake ∧ h.buyValuation = buyV ∧
      co ∈ st.companies ∧ some co.id = st.form.companyId := by
  have hadd := (addHolding_accepts db st co c stake buyV hco hs hb hstake hbuy hsel).2
  refine ⟨_, AdminPortfolios.builtHolding st.form co stake buyV, hadd,
    holdingsOf_setPortfolioDoc _ _ _, rfl, by simp, ?_, List.getElem?_concat_length _ _,
    rfl, rfl, rfl, rfl, rfl, ?_, ?_⟩
  · intro j hj
    exact List.getElem?_append_left hj
  · unfold AdminPortfolios.formCompany at hco
    cases hid : st.form.companyId with
    | none => rw [hid] at hco; cases hco
    | some id =>
      rw [hid] at hco
      exact List.mem_of_find?_eq_some hco
  · unfold AdminPortfolios.formCompany at hco
    cases hid : st.form.companyId with
    | none => rw [hid] at hco; cases hco
    | some id =>
      rw [hid] at hco
      have := List.find?_some hco
      simp at this
      rw [this]

/-- Witness of C16: the sheet with stake "1" and buy valuation "5000000" over a list of one
holding stores that holding followed by the new one. -/
theorem C16_addHolding_appends_witness :
    (AdminPortfolios.addHolding (sampleStore true)
        (holdingSheet [stakeHolding 2] "1" "5000000" "")).map
        (fun r => (holdingsOf r.1 "u1").map (fun h => (h.companyName, h.stake, h.buyValuation))) =
      some [("Acme Tech", 2, 5000000), ("Acme Tech", 1, 5000000)] := by
  have h1 : parseFloat "1" = some 1 := by
    rw [parseFloat_of_scan (show scanFloat "1" = some
      { neg := false, mantissa := 1, fracLen := 0, exponent := 0 } by decide)]
    norm_num [FloatScan.value]
  obtain ⟨r, h, hr, hs, _, _, _, _, _, hn, _, hst, hbv, _, _⟩ :=
    C16_addHolding_appends (sampleStore true) (holdingSheet [stakeHolding 2] "1" "5000000" "")
      (sampleCompany 1 5000000 true) sampleClient 1 5000000 (by decide) (by decide)
      (by decide) h1 (by decide) rfl
  have hs1 : holdingsOf r.1 "u1" = [stakeHolding 2] ++ [h] := hs
  have hn1 : h.companyName = "Acme Tech" := hn
  rw [hr]
  simp [hs1, hn1, hst, hbv, stakeHolding, sampleHolding]

/-! ## Client scope claims -/

/-- C11 (counterexample): the company of the store is hidden (`active = false`) and valued at
6000000; the load of `PortfolioScreen` reads it and prices the client's 1% holding against
it at 60000, while `HomeScreen.load` reads no company. -/
theorem C11_portfolio_reads_hidden_company_counterexample :
    sampleCompany 1 6000000 false ∈ (PortfolioScreen.load hiddenRepricedStore "u1").2 ∧
    (sampleCompany 1 6000000 false).active = false ∧
    sampleHolding 1 ∈ (PortfolioScreen.load hiddenRepricedStore "u1").1 ∧
    (PortfolioScreen.enrich (PortfolioScreen.load hiddenRepricedStore "u1").2
      (sampleHolding 1)).curr = 60000 ∧
    (HomeScreen.load hiddenRepricedStore "u1").1 = [] := by
  refine ⟨by decide, rfl, by decide, ?_, by decide⟩
  norm_num [PortfolioScreen.enrich, PortfolioScreen.load, hiddenRepricedStore, findCompany,
    nowValuation, sampleCompany, sampleHolding]

/-- C11 (amended): every company record that `HomeScreen.load` reads has `active = true`;
the load of `PortfolioScreen` reads the whole `companies` collection, the companies with
`active = false` included, and prices a holding against the matched company whatever its
`active` flag. -/
theorem C11_client_company_reads (db : Store) (user : User) (st : HomeScreen.State) :
    (∀ c ∈ (HomeScreen.load db user.uid).1, c.active = true) ∧
    (∀ c ∈ (HomeScreen.loadState db user st).companies, c.active = true) ∧
    (PortfolioScreen.load db user.uid).2 = db.companies ∧
    (∀ c ∈ db.companies, c.active = false → c ∈ (PortfolioScreen.load db user.uid).2) ∧
    (∀ h c, findCompany (PortfolioScreen.load db user.uid).2 h = some c →
      c.currentValuation ≠ 0 →
      (PortfolioScreen.enrich (PortfolioScreen.load db user.uid).2 h).curr =
        (h.stake / 100) * (c.currentValuation : ℚ)) := by
  have hact : ∀ c ∈ (HomeScreen.load db user.uid).1, c.active = true := by
    intro c hc
    simpa using (List.mem_filter.mp hc).2
  refine ⟨hact, hact, rfl, fun c hc _ => hc, ?_⟩
  intro h c hf hcv
  simp [PortfolioScreen.enrich, hf, nowValuation, hcv]

/-! ## Notification claims -/

theorem confirmInvest_db (db : Store) (user : User) (now : Nat) (st : HomeScreen.State)
    (co : Company) (hinv : st.investing = some co) :
    (HomeScreen.confirmInvest db user now st).db =
      addNotificationDoc db (HomeScreen.notificationOf user co now) ∧
    (HomeScreen.confirmInvest db user now st).st = { st with sending := false, done := true } ∧
    (HomeScreen.confirmInvest db user now st).opened =
      (if st.adminPhone ≠ "" then
        some (waLink st.adminPhone (HomeScreen.handoffText user co)) else none) := by
  simp only [HomeScreen.confirmInvest, hinv, and_self]

theorem confirmRepeatedly_notifications (user : User) (co : Company) (nows : List Nat) :
    ∀ (db : Store) (st : HomeScreen.State),
      ∃ extra, (HomeScreen.confirmRepeatedly user co db st nows).1.notifications =
          db.notifications ++ extra ∧ extra.length = nows.length ∧
        ∀ m ∈ extra, m.clientId = user.uid ∧ m.companyId = co.id ∧ m.read = false := by
  induction nows with
  | nil =>
    intro db st
    exact ⟨[], by simp [HomeScreen.confirmRepeatedly], rfl, by simp⟩
  | cons now rest ih =>
    intro db st
    obtain ⟨hdb, _, _⟩ := confirmInvest_db db user now (HomeScreen.invest st co) co rfl
    obtain ⟨extra, h1, h2, h3⟩ := ih (HomeScreen.confirmInvest db user now (HomeScreen.invest st co)).db
      (HomeScreen.confirmInvest db user now (HomeScreen.invest st co)).st
    refine ⟨HomeScreen.notificationOf user co now db.nextNotificationId :: extra, ?_, ?_, ?_⟩
    · simp only [HomeScreen.confirmRepeatedly]
      rw [h1, hdb]
      simp [addNotificationDoc]
    · simp [h2]
    · intro m hm
      rcases List.mem_cons.mp hm with hm | hm
      · subst hm
        exact ⟨rfl, rfl, rfl⟩
      · exact h3 m hm

/-- C17 (counterexample): the client's list was loaded while the company was active and the
company was hidden afterwards; `confirmInvest` on the store with the hidden company still
adds the notification. -/
theorem C17_hidden_after_load_counterexample :
    (sampleStore false).companies.map (fun c => (c.id, c.active)) = [(1, false)] ∧
    (sampleStore false).notifications = [] ∧
    (HomeScreen.confirmInvest (sampleStore false) sampleUser 17
        (investingState (sampleStore true))).db.notifications =
      [HomeScreen.notificationOf sampleUser (sampleCompany 1 5000000 true) 17 0] ∧
    (HomeScreen.confirmInvest (sampleStore false) sampleUser 17
        (investingState (sampleStore true))).st.done = true := by
  decide

/-- C17 (amended): the company a client can confirm interest in is one of the loaded list,
which holds only companies that had `active = true` in the store state that was loaded;
`confirmInvest` does not read the company again: whatever the store is at the moment of the
call, it adds the notification for the selected company, shows the confirmation and raises
no error toast. -/
theorem C17_confirmInvest_checks_only_at_load (loaded db : Store) (user : User) (now : Nat)
    (st0 : HomeScreen.State) (co : Company)
    (hlisted : co ∈ (HomeScreen.loadState loaded user st0).companies) :
    co ∈ loaded.companies ∧ co.active = true ∧
    (HomeScreen.confirmInvest db user now
        (HomeScreen.invest (HomeScreen.loadState loaded user st0) co)).db.notifications =
      db.notifications ++ [HomeScreen.notificationOf user co now db.nextNotificationId] ∧
    (HomeScreen.confirmInvest db user now
        (HomeScreen.invest (HomeScreen.loadState loaded user st0) co)).st.done = true ∧
    (HomeScreen.confirmInvest db user now
        (HomeScreen.invest (HomeScreen.loadState loaded user st0) co)).st.toast = st0.toast := by
  have hmem : co ∈ loaded.companies.filter (fun c => c.active == true) := hlisted
  obtain ⟨h1, h2⟩ := List.mem_filter.mp hmem
  obtain ⟨hdb, hst, _⟩ := confirmInvest_db db user now
    (HomeScreen.invest (HomeScreen.loadState loaded user st0) co) co rfl
  refine ⟨h1, by simpa using h2, ?_, ?_, ?_⟩
  · rw [hdb]; rfl
  · rw [hst]
  · rw [hst]; rfl

/-- Witness of C17 (amended): the sample company, active when the list was loaded, against
the store in which it is still active. -/
theorem C17_confirmInvest_checks_only_at_load_witness :
    (sampleCompany 1 5000000 true).active = true ∧
    (HomeScreen.confirmInvest (sampleStore true) sampleUser 17
        (investingState (sampleStore true))).db.notifications =
      [HomeScreen.notificationOf sampleUser (sampleCompany 1 5000000 true) 17 0] :=
  ⟨(C17_confirmInvest_checks_only_at_load (sampleStore true) (sampleStore true) sampleUser 17
      HomeScreen.init (sampleCompany 1 5000000 true) (by decide)).2.1,
    (C17_confirmInvest_checks_only_at_load (sampleStore true) (sampleStore true) sampleUser 17
      HomeScreen.init (sampleCompany 1 5000000 true) (by decide)).2.2.1⟩

/-- C18: a `confirmInvest` call with a selected company adds exactly one notification at the
end of the collection, with `read = false`, `interestedMin`, `companyId` and `companyName`
taken from the selected company and `clientId`, `clientEmail` from the caller; every
notification already stored stays as it was, companies and portfolios are untouched; and
repeating "Invest Now" and "Confirm Interest" `k` times for the same company adds `k`
notifications for that client and company. -/
theorem C18_confirmInvest_adds_one_notification (db : Store) (user : User) (now : Nat)
    (st : HomeScreen.State) (co : Company) (nows : List Nat)
    (hinv : st.investing = some co) :
    (HomeScreen.confirmInvest db user now st).db.notifications =
      db.notifications ++ [HomeScreen.notificationOf user co now db.nextNotificationId] ∧
    (HomeScreen.notificationOf user co now db.nextNotificationId).read = false ∧
    (HomeScreen.notificationOf user co now db.nextNotificationId).interestedMin = co.minInvest ∧
    (HomeScreen.notificationOf user co now db.nextNotificationId).companyId = co.id ∧
    (HomeScreen.notificationOf user co now db.nextNotificationId).companyName = co.name ∧
    (HomeScreen.notificationOf user co now db.nextNotificationId).clientId = user.uid ∧
    (HomeScreen.notificationOf user co now db.nextNotificationId).clientEmail = user.email ∧
    (HomeScreen.confirmInvest db user now st).db.notifications.length =
      db.notifications.length + 1 ∧
    (∀ (i : Nat) (m : Notification), db.notifications[i]? = some m →
      (HomeScreen.confirmInvest db user now st).db.notifications[i]? = some m) ∧
    (HomeScreen.confirmInvest db user now st).db.companies = db.companies ∧
    (HomeScreen.confirmInvest db user now st).db.portfolios = db.portfolios ∧
    (HomeScreen.confirmRepeatedly user co db st nows).1.notifications.length =
      db.notifications.length + nows.length ∧
    (∀ (i : Nat) (m : Notification), db.notifications[i]? = some m →
      (HomeScreen.confirmRepeatedly user co db st nows).1.notifications[i]? = some m) ∧
    (∀ m ∈ (HomeScreen.confirmRepeatedly user co db st nows).1.notifications,
      m ∈ db.notifications ∨ (m.clientId = user.uid ∧ m.companyId = co.id ∧ m.read = false)) := by
  obtain ⟨hdb, _, _⟩ := confirmInvest_db db user now st co hinv
  obtain ⟨extra, h1, h2, h3⟩ := confirmRepeatedly_notifications user co nows db st
  have hpre : ∀ (l extra : List Notification) (i : Nat) (m : Notification),
      l[i]? = some m → (l ++ extra)[i]? = some m := by
    intro l extra i m hm
    have hi : i < l.length := by
      by_contra hge
      rw [List.getElem?_eq_none (by omega)] at hm
      cases hm
    rw [List.getElem?_append_left hi]
    exact hm
  have hnot : (HomeScreen.confirmInvest db user now st).db.notifications =
      db.notifications ++ [HomeScreen.notificationOf user co now db.nextNotificationId] := by
    rw [hdb]; rfl
  refine ⟨hnot, rfl, rfl, rfl, rfl, rfl, rfl, ?_, ?_, ?_, ?_, ?_, ?_, ?_⟩
  · rw [hnot]; simp
  · intro i m hm
    rw [hnot]
    exact hpre _ _ i m hm
  · rw [hdb]; rfl
  · rw [hdb]; rfl
  · rw [h1]; simp [h2]
  · intro i m hm
    rw [h1]
    exact hpre _ _ i m hm
  · intro m hm
    rw [h1] at hm
    rcases List.mem_append.mp hm with hm | hm
    · exact Or.inl hm
    · exact Or.inr (h3 m hm)

/-- Witness of C18: two rounds of "Invest Now" and "Confirm Interest" by the sample client
leave two notifications in the store. -/
theorem C18_confirmInvest_adds_one_notification_witness :
    (HomeScreen.confirmRepeatedly sampleUser (sampleCompany 1 5000000 true) (sampleStore true)
      (investingState (sampleStore true)) [17, 18]).1.notifications.length = 2 :=
  (C18_confirmInvest_adds_one_notification (sampleStore true) sampleUser 17
    (investingState (sampleStore true)) (sampleCompany 1 5000000 true) [17, 18] rfl).2.2.2.2.2.2.2.2.2.2.2.1

theorem updateNotificationDoc_eq (db : Store) (id : DocId)
    (patch : Notification → Notification) :
    (updateNotificationDoc db id patch).getD db =
      { db with
        notifications := db.notifications.map (fun m => if m.id == id then patch m else m) } := by
  unfold updateNotificationDoc
  split
  · rfl
  · rename_i hany
    have hno : ∀ m ∈ db.notifications, (m.id == id) = false := by
      intro m hm
      by_contra hcon
      exact hany (List.any_eq_true.mpr ⟨m, hm, by simpa using hcon⟩)
    have hmap : db.notifications.map (fun m => if m.id == id then patch m else m) =
        db.notifications := by
      calc db.notifications.map (fun m => if m.id == id then patch m else m)
          = db.notifications.map (fun m => m) := by
            apply List.map_congr_left
            intro m hm
            simp [hno m hm]
        _ = db.notifications := by simp
    rw [hmap]
    rfl

theorem markRead_eq (db : Store) (n : Notification) :
    AdminNotifications.markRead db n =
      { db with
        notifications :=
          db.notifications.map
            (fun m => if (m.id == n.id && !n.read) = true then { m with read := true } else m) } := by
  by_cases hr : n.read = true
  · simp [AdminNotifications.markRead, hr]
  · have hrf : n.read = false := by simpa using hr
    have hget : AdminNotifications.markRead db n =
        (updateNotificationDoc db n.id (fun m => { m with read := true })).getD db := by
      simp only [AdminNotifications.markRead, hrf, Bool.false_eq_true, if_false]
      cases updateNotificationDoc db n.id (fun m => { m with read := true }) <;> rfl
    rw [hget, updateNotificationDoc_eq]
    simp [hrf]

theorem read_patch_of_read (m : Notification) (h : m.read = true) :
    ({ m with read := true } : Notification) = m := by
  cases m
  simp at h
  simp [h]

/-- C19: `markRead(n)` sets `read := true` on the stored notification with the id of `n`
when `n` is unread and changes nothing else in the store; called on a read `n` it leaves
the store as it is; a second call, with the same `n` or with the reloaded one, gives the
store of the first call; and neither `markRead` nor `confirmInvest` changes a stored
notification whose `read` flag is true (`openWA` has no access to the store). -/
theorem C19_markRead_idempotent_one_way (db : Store) (n : Notification) :
    AdminNotifications.markRead db n =
      { db with
        notifications :=
          db.notifications.map
            (fun m => if (m.id == n.id && !n.read) = true then { m with read := true } else m) } ∧
    (n ∈ db.notifications →
      ({ n with read := true } : Notification) ∈ (AdminNotifications.markRead db n).notifications) ∧
    (∀ (i : Nat) (m : Notification), db.notifications[i]? = some m → m.id ≠ n.id →
      (AdminNotifications.markRead db n).notifications[i]? = some m) ∧
    (AdminNotifications.markRead db n).notifications.length = db.notifications.length ∧
    AdminNotifications.markRead (AdminNotifications.markRead db n) n =
      AdminNotifications.markRead db n ∧
    AdminNotifications.markRead (AdminNotifications.markRead db n) { n with read := true } =
      AdminNotifications.markRead db n ∧
    (n.read = true → AdminNotifications.markRead db n = db) ∧
    (∀ (i : Nat) (m : Notification), db.notifications[i]? = some m → m.read = true →
      (AdminNotifications.markRead db n).notifications[i]? = some m) ∧
    (∀ (user : User) (now : Nat) (st : HomeScreen.State) (i : Nat) (m : Notification),
      db.notifications[i]? = some m → m.read = true →
      (HomeScreen.confirmInvest db user now st).db.notifications[i]? = some m) := by
  have hget : ∀ (i : Nat) (m : Notification), db.notifications[i]? = some m →
      (AdminNotifications.markRead db n).notifications[i]? =
        some (if (m.id == n.id && !n.read) = true then { m with read := true } else m) := by
    intro i m hm
    rw [markRead_eq]
    simp [List.getElem?_map, hm]
  refine ⟨markRead_eq db n, ?_, ?_, ?_, ?_, rfl, ?_, ?_, ?_⟩
  · intro hn
    rw [markRead_eq]
    simp only [List.mem_map]
    refine ⟨n, hn, ?_⟩
    by_cases hr : n.read = true
    · simp [hr, read_patch_of_read n hr]
    · simp [hr]
  · intro i m hm hne
    rw [hget i m hm]
    have : (m.id == n.id) = false := by simpa using hne
    simp [this]
  · rw [markRead_eq]
    simp
  · rw [markRead_eq (AdminNotifications.markRead db n) n, markRead_eq db n]
    simp only [List.map_map]
    congr 1
    apply List.map_congr_left
    intro m _
    by_cases hc : (m.id == n.id && !n.read) = true
    · simp [Function.comp, hc]
    · simp [Function.comp, hc]
  · intro hr
    rw [markRead_eq]
    simp [hr]
  · intro i m hm hr
    rw [hget i m hm]
    by_cases hc : (m.id == n.id && !n.read) = true
    · simp only [hc, if_true, read_patch_of_read m hr]
    · simp only [hc]
      rfl
  · intro user now st i m hm _
    cases hinv : st.investing with
    | none =>
      simp only [HomeScreen.confirmInvest, hinv]
      exact hm
    | some co =>
      rw [(confirmInvest_db db user now st co hinv).1]
      have hi : i < db.notifications.length := by
        by_contra hge
        rw [List.getElem?_eq_none (by omega)] at hm
        cases hm
      simp only [addNotificationDoc]
      rw [List.getElem?_append_left hi]
      exact hm

/-- Witness of C19: marking the stored unread notification of the sample client read. -/
theorem C19_markRead_idempotent_one_way_witness :
    ({ HomeScreen.notificationOf sampleUser (sampleCompany 1 5000000 true) 17 0 with
        read := true } : Notification) ∈
      (AdminNotifications.markRead
        (HomeScreen.confirmInvest (sampleStore true) sampleUser 17
          (investingState (sampleStore true))).db
        (HomeScreen.notificationOf sampleUser (sampleCompany 1 5000000 true) 17 0)).notifications :=
  (C19_markRead_idempotent_one_way
    (HomeScreen.confirmInvest (sampleStore true) sampleUser 17
      (investingState (sampleStore true))).db
    (HomeScreen.notificationOf sampleUser (sampleCompany 1 5000000 true) 17 0)).2.1 (by decide)

/-! ## Handoff claims -/

theorem hexDigitChar_unreserved {d : Nat} (hd : d < 16) :
    isUriUnreserved (hexDigitChar d) = true := by
  interval_cases d <;> rfl

theorem utf8Bytes_lt (n : Nat) (hn : n < 0x110000) : ∀ b ∈ utf8Bytes n, b < 256 := by
  intro b hb
  unfold utf8Bytes at hb
  split at hb
  · simp at hb; omega
  · split at hb
    · simp at hb; omega
    · split at hb
      · simp at hb; omega
      · simp at hb; omega

theorem encodeURIChar_chars (c : Char) :
    ∀ x ∈ encodeURIChar c, isUriUnreserved x = true ∨ x = '%' := by
  intro x hx
  unfold encodeURIChar at hx
  split at hx
  · rename_i hun
    simp at hx
    subst hx
    exact Or.inl hun
  · simp only [List.mem_flatMap] at hx
    obtain ⟨b, hb, hxb⟩ := hx
    have hlt := utf8Bytes_lt c.toNat (by
      have := c.valid
      rcases this with h | h
      · have : c.toNat < 0xd800 := h
        omega
      · have : c.toNat < 0x110000 := h.2
        omega) b hb
    simp only [percentByte, List.mem_cons, List.mem_singleton, List.not_mem_nil, or_false] at hxb
    rcases hxb with h | h | h
    · exact Or.inr h
    · subst h
      exact Or.inl (hexDigitChar_unreserved (by omega))
    · subst h
      exact Or.inl (hexDigitChar_unreserved (by omega))

theorem orElseStr_empty (a : String) : orElseStr a "" = a := by
  unfold orElseStr
  split
  · rfl
  · rename_i h
    simp at h
    exact h.symm

theorem hexValue_hexDigitChar {d : Nat} (hd : d < 16) : hexValue (hexDigitChar d) = some d := by
  interval_cases d <;> rfl

theorem percentDecode_cons (c : Char) (rest : List Char) :
    percentDecode (c :: rest) =
      if c = '%' then
        match rest with
        | a :: b :: rest2 =>
          match hexValue a, hexValue b, percentDecode rest2 with
          | some x, some y, some bs => some ((16 * x + y) :: bs)
          | _, _, _ => none
        | _ => none
      else (percentDecode rest).map (fun bs => c.toNat :: bs) := by
  cases rest with
  | nil => rfl
  | cons a r =>
    cases r with
    | nil => rfl
    | cons b r2 => rfl

theorem utf8Decode_cons (b0 : Nat) (rest : List Nat) :
    utf8Decode (b0 :: rest) =
      if b0 < 0x80 then (utf8Decode rest).map (fun cs => Char.ofNat b0 :: cs)
      else if b0 < 0xE0 then
        match rest with
        | b1 :: r1 =>
          (utf8Decode r1).map (fun cs => Char.ofNat ((b0 - 0xC0) * 64 + (b1 - 0x80)) :: cs)
        | _ => none
      else if b0 < 0xF0 then
        match rest with
        | b1 :: b2 :: r2 =>
          (utf8Decode r2).map
            (fun cs => Char.ofNat ((b0 - 0xE0) * 4096 + (b1 - 0x80) * 64 + (b2 - 0x80)) :: cs)
        | _ => none
      else
        match rest with
        | b1 :: b2 :: b3 :: r3 =>
          (utf8Decode r3).map
            (fun cs =>
              Char.ofNat ((b0 - 0xF0) * 262144 + (b1 - 0x80) * 4096 + (b2 - 0x80) * 64 +
                (b3 - 0x80)) :: cs)
        | _ => none := by
  cases rest with
  | nil => rfl
  | cons b1 r1 =>
    cases r1 with
    | nil => rfl
    | cons b2 r2 =>
      cases r2 with
      | nil => rfl
      | cons b3 r3 => rfl

theorem percentDecode_percentByte (b : Nat) (hb : b < 256) (rest : List Char) :
    percentDecode (percentByte b ++ rest) = (percentDecode rest).map (fun bs => b :: bs) := by
  have h1 := hexValue_hexDigitChar (show b / 16 < 16 by omega)
  have h2 := hexValue_hexDigitChar (show b % 16 < 16 by omega)
  have hb16 : 16 * (b / 16) + b % 16 = b := by omega
  show percentDecode ('%' :: hexDigitChar (b / 16) :: hexDigitChar (b % 16) :: rest) = _
  rw [percentDecode_cons, if_pos rfl]
  show (match hexValue (hexDigitChar (b / 16)), hexValue (hexDigitChar (b % 16)),
      percentDecode rest with
    | some x, some y, some bs => some ((16 * x + y) :: bs)
    | _, _, _ => none) = _
  rw [h1, h2]
  cases percentDecode rest with
  | none => rfl
  | some bs =>
    show some ((16 * (b / 16) + b % 16) :: bs) = _
    rw [hb16]
    rfl

theorem percentDecode_bytes (bs : List Nat) (hbs : ∀ b ∈ bs, b < 256) (rest : List Char) :
    percentDecode (bs.flatMap percentByte ++ rest) =
      (percentDecode rest).map (fun r => bs ++ r) := by
  induction bs with
  | nil => simp
  | cons b t ih =>
    rw [List.flatMap_cons, List.append_assoc, percentDecode_percentByte b
      (hbs b (List.mem_cons_self _ _)), ih (fun x hx => hbs x (List.mem_cons_of_mem _ hx))]
    cases percentDecode rest <;> simp

theorem char_toNat_lt (c : Char) : c.toNat < 0x110000 := by
  rcases c.valid with h | h
  · have : c.toNat < 0xd800 := h
    omega
  · have : c.toNat < 0x110000 := h.2
    omega

theorem percentDecode_encodeURIChar (c : Char) (rest : List Char) :
    percentDecode (encodeURIChar c ++ rest) =
      (percentDecode rest).map (fun r => utf8Bytes c.toNat ++ r) := by
  unfold encodeURIChar
  split
  · rename_i hun
    have hne : c ≠ '%' := by
      intro h
      rw [h] at hun
      exact absurd hun (by decide)
    have hlt : c.toNat < 0x80 := by
      simp only [isUriUnreserved, Bool.or_eq_true, Bool.and_eq_true, decide_eq_true_eq,
        beq_iff_eq] at hun
      omega
    show percentDecode (c :: rest) = _
    rw [percentDecode_cons, if_neg hne]
    simp only [utf8Bytes, hlt, if_true, List.cons_append, List.nil_append]
  · exact percentDecode_bytes _ (utf8Bytes_lt _ (char_toNat_lt c)) rest

theorem percentDecode_encode (t : List Char) :
    percentDecode (t.flatMap encodeURIChar) = some (t.flatMap (fun c => utf8Bytes c.toNat)) := by
  induction t with
  | nil => rfl
  | cons c t ih =>
    rw [List.flatMap_cons, percentDecode_encodeURIChar, ih]
    rfl

theorem utf8Decode_utf8Bytes (c : Char) (rest : List Nat) :
    utf8Decode (utf8Bytes c.toNat ++ rest) = (utf8Decode rest).map (fun cs => c :: cs) := by
  have hlt := char_toNat_lt c
  have hc : ∀ n, n = c.toNat → Char.ofNat n = c := by
    intro n hn
    rw [hn]
    exact Char.ofNat_toNat c
  unfold utf8Bytes
  split
  · rename_i h1
    show utf8Decode (c.toNat :: rest) = _
    rw [utf8Decode_cons, if_pos h1, hc _ rfl]
  · rename_i h1
    split
    · rename_i h2
      have hb0a : ¬ (0xC0 + c.toNat / 64 < 0x80) := by omega
      have hb0b : 0xC0 + c.toNat / 64 < 0xE0 := by omega
      have hv : (0xC0 + c.toNat / 64 - 0xC0) * 64 + (0x80 + c.toNat % 64 - 0x80) = c.toNat := by
        omega
      show utf8Decode ((0xC0 + c.toNat / 64) :: (0x80 + c.toNat % 64) :: rest) = _
      rw [utf8Decode_cons, if_neg hb0a, if_pos hb0b]
      simp only [hc _ hv]
    · rename_i h2
      split
      · rename_i h3
        have hb0a : ¬ (0xE0 + c.toNat / 4096 < 0x80) := by omega
        have hb0b : ¬ (0xE0 + c.toNat / 4096 < 0xE0) := by omega
        have hb0c : 0xE0 + c.toNat / 4096 < 0xF0 := by omega
        have hv : (0xE0 + c.toNat / 4096 - 0xE0) * 4096 +
            (0x80 + c.toNat / 64 % 64 - 0x80) * 64 + (0x80 + c.toNat % 64 - 0x80) = c.toNat := by
          omega
        show utf8Decode ((0xE0 + c.toNat / 4096) :: (0x80 + c.toNat / 64 % 64) ::
          (0x80 + c.toNat % 64) :: rest) = _
        rw [utf8Decode_cons, if_neg hb0a, if_neg hb0b, if_pos hb0c]
        simp only [hc _ hv]
      · rename_i h3
        have hb0a : ¬ (0xF0 + c.toNat / 262144 < 0x80) := by omega
        have hb0b : ¬ (0xF0 + c.toNat / 262144 < 0xE0) := by omega
        have hb0c : ¬ (0xF0 + c.toNat / 262144 < 0xF0) := by omega
        have hv : (0xF0 + c.toNat / 262144 - 0xF0) * 262144 +
            (0x80 + c.toNat / 4096 % 64 - 0x80) * 4096 +
            (0x80 + c.toNat / 64 % 64 - 0x80) * 64 + (0x80 + c.toNat % 64 - 0x80) = c.toNat := by
          omega
        show utf8Decode ((0xF0 + c.toNat / 262144) :: (0x80 + c.toNat / 4096 % 64) ::
          (0x80 + c.toNat / 64 % 64) :: (0x80 + c.toNat % 64) :: rest) = _
        rw [utf8Decode_cons, if_neg hb0a, if_neg hb0b, if_neg hb0c]
        simp only [hc _ hv]

theorem utf8Decode_encode (t : List Char) :
    utf8Decode (t.flatMap (fun c => utf8Bytes c.toNat)) = some t := by
  induction t with
  | nil => rfl
  | cons c t ih =>
    rw [List.flatMap_cons, utf8Decode_utf8Bytes, ih]
    rfl

theorem percentUtf8Decode_encodeURIComponent (t : String) :
    percentUtf8Decode (encodeURIComponent t) = some t := by
  unfold percentUtf8Decode encodeURIComponent
  simp only [String.toList, percentDecode_encode, utf8Decode_encode]
  rfl

/-- C20: the link a handoff opens is `https://wa.me/`, the phone with every character other
than the decimal digits removed, `?text=` and the encoded message text: every character of
the encoded text is unreserved or `%`, the percent-encoded UTF-8 bytes read back give the
message text itself, and two texts with the same encoding are equal; `confirmInvest` opens
the link for the operator number when one is loaded, `openWA` for the client's number; the
store `confirmInvest` leaves behind does not depend on whether a link is opened, and
`openWA` has no access to the store. -/
theorem C20_handoff_link (p t : String) (db : Store) (user : User) (now : Nat)
    (st : HomeScreen.State) (co : Company) (n : Notification) :
    waLink p t = "https://wa.me/" ++ stripNonDigits p ++ "?text=" ++ encodeURIComponent t ∧
    (stripNonDigits p).toList = p.toList.filter (fun c => 48 ≤ c.toNat && c.toNat ≤ 57) ∧
    (∀ c ∈ (stripNonDigits p).toList, 48 ≤ c.toNat ∧ c.toNat ≤ 57) ∧
    (∀ c ∈ (encodeURIComponent t).toList, isUriUnreserved c = true ∨ c = '%') ∧
    (st.investing = some co → st.adminPhone ≠ "" →
      (HomeScreen.confirmInvest db user now st).opened =
        some (waLink st.adminPhone (HomeScreen.handoffText user co))) ∧
    (∀ link, AdminNotifications.openWA n = some link →
      link = waLink n.clientPhone (AdminNotifications.handoffText n)) ∧
    (HomeScreen.confirmInvest db user now st).db =
      (HomeScreen.confirmInvest db user now { st with adminPhone := "" }).db ∧
    percentUtf8Decode (encodeURIComponent t) = some t ∧
    (∀ t2, encodeURIComponent t2 = encodeURIComponent t → t2 = t) := by
  refine ⟨rfl, rfl, ?_, ?_, ?_, ?_, ?_, percentUtf8Decode_encodeURIComponent t, ?_⟩
  rotate_right
  · intro t2 h2
    have h3 := percentUtf8Decode_encodeURIComponent t2
    rw [h2, percentUtf8Decode_encodeURIComponent t] at h3
    exact (Option.some.inj h3).symm
  · intro c hc
    have hc1 : c ∈ p.toList.filter isDecimalDigit := hc
    have := (List.mem_filter.mp hc1).2
    simpa [isDecimalDigit] using this
  · intro c hc
    have hc1 : c ∈ t.toList.flatMap encodeURIChar := hc
    obtain ⟨x, _, hx⟩ := List.mem_flatMap.mp hc1
    exact encodeURIChar_chars x c hx
  · intro hinv hph
    rw [(confirmInvest_db db user now st co hinv).2.2]
    simp [hph]
  · intro link hlink
    unfold AdminNotifications.openWA at hlink
    simp only [orElseStr_empty] at hlink
    split at hlink
    · cases hlink
    · cases hlink
      rfl
  · cases hinv : st.investing with
    | none => simp [HomeScreen.confirmInvest, hinv]
    | some c0 => simp [HomeScreen.confirmInvest, hinv]

/-- Witness of C20: the link opened for the operator number "+91 99999-00000" is the one
of the digits 919999900000, and the link for that number and the text "Hi ₹5 *A*" ends in
the encoded text "Hi%20%E2%82%B95%20*A*". -/
theorem C20_handoff_link_witness :
    (HomeScreen.confirmInvest (sampleStore true) sampleUser 17
        { investingState (sampleStore true) with adminPhone := "+91 99999-00000" }).opened =
      some (waLink "+91 99999-00000"
        (HomeScreen.handoffText sampleUser (sampleCompany 1 5000000 true))) ∧
    stripNonDigits "+91 99999-00000" = "919999900000" ∧
    waLink "+91 99999-00000" "Hi ₹5 *A*" =
      "https://wa.me/919999900000?text=Hi%20%E2%82%B95%20*A*" ∧
    percentUtf8Decode "Hi%20%E2%82%B95%20*A*" = some "Hi ₹5 *A*" :=
  ⟨(C20_handoff_link "" "" (sampleStore true) sampleUser 17
      { investingState (sampleStore true) with adminPhone := "+91 99999-00000" }
      (sampleCompany 1 5000000 true)
      (HomeScreen.notificationOf sampleUser (sampleCompany 1 5000000 true) 17 0)).2.2.2.2.1
      rfl (by decide),
    by decide, by decide, by decide⟩

/-! ## Valuation claims, continued -/

/-- C23 (counterexample): the holding bought at 5000000 matches a company whose
`currentValuation` is 0; the code takes `nowVal = 5000000` (the buy valuation) and shows
`vp = 0`, where the formula with the matched company's current valuation gives -100. -/
theorem C23_zero_valuation_counterexample :
    findCompany [sampleCompany 1 0 true] (sampleHolding 1) = some (sampleCompany 1 0 true) ∧
    (sampleCompany 1 0 true).currentValuation = 0 ∧
    (PortfolioScreen.enrich [sampleCompany 1 0 true] (sampleHolding 1)).nowVal = 5000000 ∧
    (PortfolioScreen.enrich [sampleCompany 1 0 true] (sampleHolding 1)).vp = 0 ∧
    (((sampleCompany 1 0 true).currentValuation : ℚ) - ((sampleHolding 1).buyValuation : ℚ)) /
        ((sampleHolding 1).buyValuation : ℚ) * 100 = -100 ∧
    (PortfolioScreen.enrich [sampleCompany 1 0 true] (sampleHolding 1)).vp ≠
      (((sampleCompany 1 0 true).currentValuation : ℚ) - ((sampleHolding 1).buyValuation : ℚ)) /
        ((sampleHolding 1).buyValuation : ℚ) * 100 := by
  refine ⟨by decide, rfl, by decide, ?_, ?_, ?_⟩ <;>
    norm_num [PortfolioScreen.enrich, findCompany, nowValuation, sampleCompany, sampleHolding]

/-- C23 (amended): the valuation change is `vp = (nowVal - buyValuation)/buyValuation*100`
when `buyValuation > 0` and 0 otherwise, where `nowVal` is the `currentValuation` of the
matched company when there is one and that valuation is not 0, and `buyValuation` when no
company matches or the matched one has the valuation 0. -/
theorem C23_valuation_change_pct (h : Holding) (companies : List Company) :
    (PortfolioScreen.enrich companies h).vp =
      (if h.buyValuation > 0 then
        (((PortfolioScreen.enrich companies h).nowVal : ℚ) - (h.buyValuation : ℚ)) /
          (h.buyValuation : ℚ) * 100
       else 0) ∧
    (∀ c, findCompany companies h = some c → c.currentValuation ≠ 0 →
      (PortfolioScreen.enrich companies h).nowVal = c.currentValuation) ∧
    (∀ c, findCompany companies h = some c → c.currentValuation = 0 →
      (PortfolioScreen.enrich companies h).nowVal = h.buyValuation) ∧
    (findCompany companies h = none →
      (PortfolioScreen.enrich companies h).nowVal = h.buyValuation) ∧
    (h.buyValuation ≤ 0 → (PortfolioScreen.enrich companies h).vp = 0) := by
  refine ⟨rfl, ?_, ?_, ?_, ?_⟩
  · intro c hf hcv
    simp [PortfolioScreen.enrich, hf, nowValuation, hcv]
  · intro c hf hcv
    simp [PortfolioScreen.enrich, hf, nowValuation, hcv]
  · intro hf
    simp [PortfolioScreen.enrich, hf, nowValuation]
  · intro hle
    have : ¬ h.buyValuation > 0 := by omega
    simp [PortfolioScreen.enrich, this]

/-- Witness of C23 (amended): bought at 5000000 and now valued at 6000000, the change is 20. -/
theorem C23_valuation_change_pct_witness :
    (PortfolioScreen.enrich [sampleCompany 1 6000000 true] (sampleHolding 1)).nowVal = 6000000 ∧
    (PortfolioScreen.enrich [sampleCompany 1 6000000 true] (sampleHolding 1)).vp = 20 := by
  have hn := (C23_valuation_change_pct (sampleHolding 1) [sampleCompany 1 6000000 true]).2.1
    (sampleCompany 1 6000000 true) (by decide) (by decide)
  have hv := (C23_valuation_change_pct (sampleHolding 1) [sampleCompany 1 6000000 true]).1
  refine ⟨hn, ?_⟩
  rw [hv, hn]
  norm_num [sampleHolding, sampleCompany]

theorem ofRat_smallHolding : Dbl.ofRat smallHolding.stake = Dbl.round 7 10 0 := by
  have h1 : (7 / 10 : ℚ).num = 7 := by norm_num
  have h2 : (7 / 10 : ℚ).den = 10 := by norm_num
  show Dbl.round (7 / 10 : ℚ).num (7 / 10 : ℚ).den 0 = _
  rw [h1, h2]

theorem ofRat_thinHolding : Dbl.ofRat thinHolding.stake = Dbl.round 9 10 0 := by
  have h1 : (9 / 10 : ℚ).num = 9 := by norm_num
  have h2 : (9 / 10 : ℚ).den = 10 := by norm_num
  show Dbl.round (9 / 10 : ℚ).num (9 / 10 : ℚ).den 0 = _
  rw [h1, h2]

set_option maxRecDepth 100000 in
/-- C26 (counterexample): computed in doubles, as the code computes them, `gp` and `vp`
differ.  For a stake of 0.7% bought at 3000000 in a company now valued at 3100000, `gp` is
the double `7505999378950828 * 2^-51` (3.333333333333334) and `vp` the double
`7505999378950827 * 2^-51` (3.3333333333333335).  For a stake of 0.9% bought at 2000000 in
a company now valued at 2000100, `gp` is below 0.005 and `vp` above it, so `pct` shows the
two as "+0.00%" and "+0.01%". -/
theorem C26_double_rounding_counterexample :
    0 < smallHolding.stake ∧ 0 < smallHolding.buyValuation ∧
    (PortfolioScreen.enrichDouble [sampleCompany 1 3100000 true] smallHolding).gp =
      { m := 7505999378950828, e := -51 } ∧
    (PortfolioScreen.enrichDouble [sampleCompany 1 3100000 true] smallHolding).vp =
      { m := 7505999378950827, e := -51 } ∧
    (PortfolioScreen.enrichDouble [sampleCompany 1 3100000 true] smallHolding).gp ≠
      (PortfolioScreen.enrichDouble [sampleCompany 1 3100000 true] smallHolding).vp ∧
    (PortfolioScreen.enrichDouble [sampleCompany 1 2000100 true] thinHolding).gp =
      { m := 5764607523020252, e := -60 } ∧
    (PortfolioScreen.enrichDouble [sampleCompany 1 2000100 true] thinHolding).vp =
      { m := 5764607523034235, e := -60 } ∧
    (PortfolioScreen.enrichDouble [sampleCompany 1 2000100 true] thinHolding).gp.toRat <
      5 / 1000 ∧
    5 / 1000 <
      (PortfolioScreen.enrichDouble [sampleCompany 1 2000100 true] thinHolding).vp.toRat := by
  have hg1 : (PortfolioScreen.enrichDouble [sampleCompany 1 3100000 true] smallHolding).gp =
      { m := 7505999378950828, e := -51 } := by
    simp only [PortfolioScreen.enrichDouble, ofRat_smallHolding]
    decide
  have hv1 : (PortfolioScreen.enrichDouble [sampleCompany 1 3100000 true] smallHolding).vp =
      { m := 7505999378950827, e := -51 } := by
    simp only [PortfolioScreen.enrichDouble, ofRat_smallHolding]
    decide
  have hg2 : (PortfolioScreen.enrichDouble [sampleCompany 1 2000100 true] thinHolding).gp =
      { m := 5764607523020252, e := -60 } := by
    simp only [PortfolioScreen.enrichDouble, ofRat_thinHolding]
    decide
  have hv2 : (PortfolioScreen.enrichDouble [sampleCompany 1 2000100 true] thinHolding).vp =
      { m := 5764607523034235, e := -60 } := by
    simp only [PortfolioScreen.enrichDouble, ofRat_thinHolding]
    decide
  refine ⟨by norm_num [smallHolding], by decide, hg1, hv1, ?_, hg2, hv2, ?_, ?_⟩
  · rw [hg1, hv1]
    decide
  · rw [hg2]
    norm_num [Dbl.toRat]
  · rw [hv2]
    norm_num [Dbl.toRat]

/-- C26 (amended): evaluated exactly, without the rounding of the doubles, the return `gp`
of a holding with `stake > 0` and `buyValuation > 0` equals its valuation change `vp`,
whatever the company list; hence two such holdings that differ only in their stake have
the same exact `gp`. -/
theorem C26_return_equals_valuation_change (h : Holding) (companies : List Company)
    (hs : 0 < h.stake) (hb : 0 < h.buyValuation) :
    (PortfolioScreen.enrich companies h).gp = (PortfolioScreen.enrich companies h).vp ∧
    (∀ stake : ℚ, 0 < stake →
      (PortfolioScreen.enrich companies { h with stake := stake }).gp =
        (PortfolioScreen.enrich companies h).gp) := by
  have hbq : (0 : ℚ) < (h.buyValuation : ℚ) := by exact_mod_cast hb
  have key : ∀ stake : ℚ, 0 < stake →
      (PortfolioScreen.enrich companies { h with stake := stake }).gp =
        (PortfolioScreen.enrich companies h).vp := by
    intro stake hst
    have hbuy : 0 < stake / 100 * (h.buyValuation : ℚ) := by positivity
    have hfind : findCompany companies { h with stake := stake } = findCompany companies h := rfl
    have hnow : ∀ co, nowValuation co { h with stake := stake } = nowValuation co h := by
      intro co
      cases co <;> rfl
    simp only [PortfolioScreen.enrich, hfind, hnow, hbuy, hb, gt_iff_lt, if_true]
    field_simp
    ring
  refine ⟨?_, ?_⟩
  · have := key h.stake hs
    simpa using this
  · intro stake hst
    rw [key stake hst]
    have := key h.stake hs
    rw [← this]

/-- Witness of C26 (amended): the sample holding against a company repriced to 6000000. -/
theorem C26_return_equals_valuation_change_witness :
    (PortfolioScreen.enrich [sampleCompany 1 6000000 true] (sampleHolding 1)).gp =
      (PortfolioScreen.enrich [sampleCompany 1 6000000 true] (sampleHolding 1)).vp :=
  (C26_return_equals_valuation_change (sampleHolding 1) [sampleCompany 1 6000000 true]
    (by norm_num [sampleHolding]) (by decide)).1

/-- C27: on the same holdings and the same company list the three copies of the valuation
code agree: `curr`, `buy` and `g` of the home screen row, of `PortfolioScreen.enriched` and
of the admin's holding card are equal (and so is `gp` on the two client screens), and the
totals `totI`, `totC`, `totG`, `totGP` of the home screen equal `totI`, `totC`, `totG`,
`totP` of the portfolio screen. -/
theorem C27_valuation_copies_agree (companies : List Company) (holdings : List Holding)
    (h : Holding) :
    (HomeScreen.row companies h).curr = (PortfolioScreen.enrich companies h).curr ∧
    (HomeScreen.row companies h).buy = (PortfolioScreen.enrich companies h).buy ∧
    (HomeScreen.row companies h).g = (PortfolioScreen.enrich companies h).g ∧
    (HomeScreen.row companies h).gp = (PortfolioScreen.enrich companies h).gp ∧
    (AdminPortfolios.row companies h).curr = (PortfolioScreen.enrich companies h).curr ∧
    (AdminPortfolios.row companies h).buy = (PortfolioScreen.enrich companies h).buy ∧
    (AdminPortfolios.row companies h).g = (PortfolioScreen.enrich companies h).g ∧
    HomeScreen.totI holdings = PortfolioScreen.totI companies holdings ∧
    HomeScreen.totC companies holdings = PortfolioScreen.totC companies holdings ∧
    HomeScreen.totG companies holdings = PortfolioScreen.totG companies holdings ∧
    HomeScreen.totGP companies holdings = PortfolioScreen.totP companies holdings := by
  have hI : HomeScreen.totI holdings = PortfolioScreen.totI companies holdings := by
    simp [HomeScreen.totI, PortfolioScreen.totI, PortfolioScreen.enriched, List.foldl_map,
      PortfolioScreen.enrich]
  have hC : HomeScreen.totC companies holdings = PortfolioScreen.totC companies holdings := by
    simp [HomeScreen.totC, PortfolioScreen.totC, PortfolioScreen.enriched, List.foldl_map,
      PortfolioScreen.enrich]
  have hG : HomeScreen.totG companies holdings = PortfolioScreen.totG companies holdings := by
    simp [HomeScreen.totG, PortfolioScreen.totG, hI, hC]
  refine ⟨rfl, rfl, rfl, rfl, rfl, rfl, rfl, hI, hC, hG, ?_⟩
  simp [HomeScreen.totGP, PortfolioScreen.totP, hI, hG]

/-- C28: the derived figures do not read `investedAmt`, `purchaseDate` or `companyName`: two
holdings lists whose holdings agree position by position in `companyId`, `sector`, `stake`
and `buyValuation` have the same per-holding `curr`, `buy`, `g`, `gp`, `vp` and the same
`totI`, `totC`, `totG`, `totP`, against every company list; the invested value is
`(stake/100) * buyValuation`. -/
theorem C28_metrics_ignore_snapshot_fields (companies : List Company) (l1 l2 : List Holding)
    (hrel : List.Forall₂
      (fun a b : Holding => a.companyId = b.companyId ∧ a.sector = b.sector ∧
        a.stake = b.stake ∧ a.buyValuation = b.buyValuation) l1 l2) :
    (PortfolioScreen.enriched companies l1).map
        (fun e => (e.curr, e.buy, e.g, e.gp, e.vp, e.nowVal)) =
      (PortfolioScreen.enriched companies l2).map
        (fun e => (e.curr, e.buy, e.g, e.gp, e.vp, e.nowVal)) ∧
    PortfolioScreen.totI companies l1 = PortfolioScreen.totI companies l2 ∧
    PortfolioScreen.totC companies l1 = PortfolioScreen.totC companies l2 ∧
    PortfolioScreen.totG companies l1 = PortfolioScreen.totG companies l2 ∧
    PortfolioScreen.totP companies l1 = PortfolioScreen.totP companies l2 ∧
    (∀ h ∈ l1, (PortfolioScreen.enrich companies h).buy =
      (h.stake / 100) * (h.buyValuation : ℚ)) := by
  have hone : ∀ a b : Holding, a.companyId = b.companyId → a.stake = b.stake →
      a.buyValuation = b.buyValuation →
      (PortfolioScreen.enrich companies a).curr = (PortfolioScreen.enrich companies b).curr ∧
      (PortfolioScreen.enrich companies a).buy = (PortfolioScreen.enrich companies b).buy ∧
      (PortfolioScreen.enrich companies a).g = (PortfolioScreen.enrich companies b).g ∧
      (PortfolioScreen.enrich companies a).gp = (PortfolioScreen.enrich companies b).gp ∧
      (PortfolioScreen.enrich companies a).vp = (PortfolioScreen.enrich companies b).vp ∧
      (PortfolioScreen.enrich companies a).nowVal =
        (PortfolioScreen.enrich companies b).nowVal := by
    intro a b hid hst hbv
    have hfind : findCompany companies a = findCompany companies b := by
      simp [findCompany, hid]
    have hnow : nowValuation (findCompany companies b) a =
        nowValuation (findCompany companies b) b := by
      cases findCompany companies b <;> simp [nowValuation, hbv]
    simp only [PortfolioScreen.enrich, hfind, hnow, hst, hbv, and_self]
  have hI : ∀ l : List Holding, PortfolioScreen.totI companies l =
      ((PortfolioScreen.enriched companies l).map
        (fun e => (e.curr, e.buy, e.g, e.gp, e.vp, e.nowVal))).foldl
        (fun s t => s + t.2.1) 0 := by
    intro l
    simp [PortfolioScreen.totI, List.foldl_map]
  have hC : ∀ l : List Holding, PortfolioScreen.totC companies l =
      ((PortfolioScreen.enriched companies l).map
        (fun e => (e.curr, e.buy, e.g, e.gp, e.vp, e.nowVal))).foldl
        (fun s t => s + t.1) 0 := by
    intro l
    simp [PortfolioScreen.totC, List.foldl_map]
  have hmap : (PortfolioScreen.enriched companies l1).map
      (fun e => (e.curr, e.buy, e.g, e.gp, e.vp, e.nowVal)) =
      (PortfolioScreen.enriched companies l2).map
        (fun e => (e.curr, e.buy, e.g, e.gp, e.vp, e.nowVal)) := by
    induction hrel with
    | nil => rfl
    | cons hab _ ih =>
      obtain ⟨hid, _, hst, hbv⟩ := hab
      obtain ⟨h1, h2, h3, h4, h5, h6⟩ := hone _ _ hid hst hbv
      simp only [PortfolioScreen.enriched, List.map_cons] at ih ⊢
      rw [ih, h1, h2, h3, h4, h5, h6]
  have hIeq : PortfolioScreen.totI companies l1 = PortfolioScreen.totI companies l2 := by
    rw [hI l1, hI l2, hmap]
  have hCeq : PortfolioScreen.totC companies l1 = PortfolioScreen.totC companies l2 := by
    rw [hC l1, hC l2, hmap]
  have hGeq : PortfolioScreen.totG companies l1 = PortfolioScreen.totG companies l2 := by
    simp [PortfolioScreen.totG, hIeq, hCeq]
  refine ⟨hmap, hIeq, hCeq, hGeq, ?_, fun _ _ => rfl⟩
  simp [PortfolioScreen.totP, hIeq, hGeq]

/-- Witness of C28: the sample holding and a copy with another invested amount, purchase
date and company name have the same totals. -/
theorem C28_metrics_ignore_snapshot_fields_witness :
    PortfolioScreen.totC [sampleCompany 1 6000000 true] [sampleHolding 1] =
      PortfolioScreen.totC [sampleCompany 1 6000000 true]
        [{ sampleHolding 1 with investedAmt := 1, purchaseDate := "2020-02-02",
                                companyName := "Renamed" }] :=
  (C28_metrics_ignore_snapshot_fields [sampleCompany 1 6000000 true] [sampleHolding 1]
    [{ sampleHolding 1 with investedAmt := 1, purchaseDate := "2020-02-02",
                            companyName := "Renamed" }]
    (List.Forall₂.cons ⟨rfl, rfl, rfl, rfl⟩ List.Forall₂.nil)).2.2.1

/-! ## Handoff claims, continued -/

theorem stripNonDigits_ne_NA (s : String) : stripNonDigits s ≠ "NA" := by
  intro h
  have hl : (stripNonDigits s).toList = ['N', 'A'] := by rw [h]; rfl
  have hm : 'N' ∈ s.toList.filter isDecimalDigit := by
    have : (stripNonDigits s).toList = s.toList.filter isDecimalDigit := rfl
    rw [← this, hl]
    exact List.mem_cons_self _ _
  exact absurd (List.mem_filter.mp hm).2 (by decide)

theorem stripNonDigits_eq_empty_iff (s : String) :
    stripNonDigits s = "" ↔ ∀ c ∈ s.toList, isDecimalDigit c = false := by
  constructor
  · intro h c hc
    have hl : s.toList.filter isDecimalDigit = [] := by
      have : (stripNonDigits s).toList = s.toList.filter isDecimalDigit := rfl
      rw [← this, h]
      rfl
    cases hd : isDecimalDigit c with
    | false => rfl
    | true =>
      have : c ∈ s.toList.filter isDecimalDigit := List.mem_filter.mpr ⟨hc, hd⟩
      rw [hl] at this
      cases this
  · intro h
    have hl : s.toList.filter isDecimalDigit = [] := by
      rw [List.filter_eq_nil_iff]
      intro c hc
      simp [h c hc]
    unfold stripNonDigits
    rw [hl]

/-- C30: `openWA(n)` opens a link exactly when the phone of the notification, stripped of
every character other than the decimal digits, is not empty, and the link is then the one
of that stripped number; a phone without a decimal digit opens none, and the notification
`confirmInvest` builds for a client without a phone carries the placeholder "N/A" and opens
none. -/
theorem C30_openWA_needs_digits (n : Notification) :
    ((AdminNotifications.openWA n).isSome = true ↔ stripNonDigits n.clientPhone ≠ "") ∧
    (stripNonDigits n.clientPhone ≠ "" →
      AdminNotifications.openWA n =
        some ("https://wa.me/" ++ stripNonDigits n.clientPhone ++ "?text=" ++
          encodeURIComponent (AdminNotifications.handoffText n))) ∧
    ((∀ c ∈ n.clientPhone.toList, isDecimalDigit c = false) →
      AdminNotifications.openWA n = none) ∧
    (∀ (user : User) (co : Company) (now : Nat) (id : DocId), user.phone = "" →
      (HomeScreen.notificationOf user co now id).clientPhone = "N/A" ∧
      AdminNotifications.openWA (HomeScreen.notificationOf user co now id) = none) := by
  have hopen : ∀ m : Notification, AdminNotifications.openWA m =
      if stripNonDigits m.clientPhone = "" then none
      else some ("https://wa.me/" ++ stripNonDigits m.clientPhone ++ "?text=" ++
        encodeURIComponent (AdminNotifications.handoffText m)) := by
    intro m
    unfold AdminNotifications.openWA
    simp only [orElseStr_empty, stripNonDigits_ne_NA, or_false]
  refine ⟨?_, ?_, ?_, ?_⟩
  · rw [hopen n]
    by_cases h : stripNonDigits n.clientPhone = "" <;> simp [h]
  · intro h
    rw [hopen n, if_neg h]
  · intro h
    rw [hopen n, if_pos ((stripNonDigits_eq_empty_iff _).mpr h)]
  · intro user co now id hph
    have hp : (HomeScreen.notificationOf user co now id).clientPhone = "N/A" := by
      simp [HomeScreen.notificationOf, orElseStr, hph]
    refine ⟨hp, ?_⟩
    rw [hopen, hp, if_pos (by decide)]

/-- Witness of C30: the notification of a client without a phone opens no link, and the one
of the sample client opens the link of the number 919876543210. -/
theorem C30_openWA_needs_digits_witness :
    AdminNotifications.openWA
        (HomeScreen.notificationOf { sampleUser with phone := "" }
          (sampleCompany 1 5000000 true) 17 0) = none ∧
    AdminNotifications.openWA
        (HomeScreen.notificationOf sampleUser (sampleCompany 1 5000000 true) 17 0) =
      some ("https://wa.me/" ++ "919876543210" ++ "?text=" ++
        encodeURIComponent (AdminNotifications.handoffText
          (HomeScreen.notificationOf sampleUser (sampleCompany 1 5000000 true) 17 0))) :=
  ⟨((C30_openWA_needs_digits
      (HomeScreen.notificationOf sampleUser (sampleCompany 1 5000000 true) 17 0)).2.2.2
      { sampleUser with phone := "" } (sampleCompany 1 5000000 true) 17 0 rfl).2,
   (C30_openWA_needs_digits
      (HomeScreen.notificationOf sampleUser (sampleCompany 1 5000000 true) 17 0)).2.1
      (by decide)⟩

/-! ## Profile claims -/

theorem panRegexTest_format (v : String) (h : ProfileScreen.panRegexTest v = true) :
    v.length = 10 ∧
    (v.toList.take 5).all ProfileScreen.isUpperLetter = true ∧
    ((v.toList.drop 5).take 4).all isDecimalDigit = true ∧
    (v.toList.drop 9).all ProfileScreen.isUpperLetter = true := by
  unfold ProfileScreen.panRegexTest at h
  have hlen : v.length = v.toList.length := rfl
  split at h
  · rename_i a b c d e f g x i j heq
    rw [hlen, heq]
    simp only [Bool.and_eq_true] at h
    simp [h]
  · cases h

theorem updateClientDoc_clients (db : Store) (uid : String) (patch : ClientDoc → ClientDoc) :
    ((updateClientDoc db uid patch).getD db).clients =
      db.clients.map (fun p => if p.1 == uid then (p.1, patch p.2) else p) ∧
    ((updateClientDoc db uid patch).getD db).companies = db.companies ∧
    ((updateClientDoc db uid patch).getD db).portfolios = db.portfolios ∧
    ((updateClientDoc db uid patch).getD db).notifications = db.notifications := by
  unfold updateClientDoc
  split
  · exact ⟨rfl, rfl, rfl, rfl⟩
  · rename_i h
    refine ⟨?_, rfl, rfl, rfl⟩
    simp only [Option.getD_none]
    symm
    conv_rhs => rw [← List.map_id db.clients]
    apply List.map_congr_left
    intro p hp
    have : (p.1 == uid) = false := by
      cases hb : (p.1 == uid) with
      | false => rfl
      | true => exact absurd (List.any_eq_true.mpr ⟨p, hp, hb⟩) h
    simp [this]

theorem lookup_map_patch (l : List (String × ClientDoc)) (uid : String)
    (patch : ClientDoc → ClientDoc) :
    (l.map (fun p => if p.1 == uid then (p.1, patch p.2) else p)).lookup uid =
      (l.lookup uid).map patch := by
  induction l with
  | nil => rfl
  | cons p t ih =>
    obtain ⟨k, d⟩ := p
    rw [List.map_cons]
    by_cases hk : k = uid
    · have h1 : ((k, d).1 == uid) = true := by simp [hk]
      have h2 : (uid == k) = true := by simp [hk]
      rw [if_pos h1]
      simp only [List.lookup, h2, Option.map_some']
    · have h1 : ¬ ((k, d).1 == uid) = true := by simpa using hk
      have h2 : (uid == k) = false := by simpa using fun h => hk h.symm
      rw [if_neg h1]
      simp only [List.lookup, h2]
      exact ih

theorem any_of_lookup (l : List (String × ClientDoc)) (uid : String) (d : ClientDoc)
    (h : l.lookup uid = some d) : l.any (fun p => p.1 == uid) = true := by
  induction l with
  | nil => cases h
  | cons p t ih =>
    obtain ⟨k, e⟩ := p
    by_cases hk : k = uid
    · simp [hk]
    · have h2 : (uid == k) = false := by simpa using fun h => hk h.symm
      simp only [List.lookup, h2] at h
      simp [ih h]

theorem savePan_eq (db : Store) (user : User) (st : ProfileScreen) :
    (ProfileScreen.savePan db user st).1 =
      if ProfileScreen.panRegexTest (toUpperCase st.pan) = true then
        (updateClientDoc db user.uid
          (fun d => { d with pan := some (toUpperCase st.pan) })).getD db
      else db := by
  unfold ProfileScreen.savePan
  by_cases h : ProfileScreen.panRegexTest (toUpperCase st.pan) = true
  · simp only [h, Bool.not_true, if_true]
    cases updateClientDoc db user.uid (fun d => { d with pan := some (toUpperCase st.pan) }) <;>
      rfl
  · simp only [Bool.not_eq_true] at h
    simp [h]

/-- C21: `savePan` writes `pan` on the caller's client document exactly when the upper-cased
input matches `^[A-Z]{5}[0-9]{4}[A-Z]$`, the value written is the upper-cased input and
nothing else in the store changes; an input that does not match leaves the store as it is
and raises the error toast; so a store changed by `savePan` got a value of exactly 10
characters, five letters A-Z, four digits and a letter A-Z. -/
theorem C21_savePan_validates (db : Store) (user : User) (st : ProfileScreen) :
    (ProfileScreen.panRegexTest (toUpperCase st.pan) = true →
      (ProfileScreen.savePan db user st).1.clients =
        db.clients.map (fun p =>
          if p.1 == user.uid then (p.1, { p.2 with pan := some (toUpperCase st.pan) })
          else p) ∧
      (ProfileScreen.savePan db user st).1.companies = db.companies ∧
      (ProfileScreen.savePan db user st).1.portfolios = db.portfolios ∧
      (ProfileScreen.savePan db user st).1.notifications = db.notifications) ∧
    (ProfileScreen.panRegexTest (toUpperCase st.pan) = true →
      ∀ d, getClientDoc db user.uid = some d →
        getClientDoc (ProfileScreen.savePan db user st).1 user.uid =
          some { d with pan := some (toUpperCase st.pan) } ∧
        (ProfileScreen.savePan db user st).2.toast =
          some { m := ToastMsg.panSaved, t := ToastType.success }) ∧
    (ProfileScreen.panRegexTest (toUpperCase st.pan) = false →
      (ProfileScreen.savePan db user st).1 = db ∧
      (ProfileScreen.savePan db user st).2.toast =
        some { m := ToastMsg.invalidPan, t := ToastType.error }) ∧
    ((ProfileScreen.savePan db user st).1.clients ≠ db.clients →
      ProfileScreen.panRegexTest (toUpperCase st.pan) = true ∧
      (toUpperCase st.pan).length = 10 ∧
      ((toUpperCase st.pan).toList.take 5).all ProfileScreen.isUpperLetter = true ∧
      (((toUpperCase st.pan).toList.drop 5).take 4).all isDecimalDigit = true ∧
      ((toUpperCase st.pan).toList.drop 9).all ProfileScreen.isUpperLetter = true) := by
  refine ⟨?_, ?_, ?_, ?_⟩
  · intro h
    rw [savePan_eq, if_pos h]
    exact updateClientDoc_clients db user.uid _
  · intro h d hd
    refine ⟨?_, ?_⟩
    · unfold getClientDoc at hd ⊢
      rw [savePan_eq, if_pos h, (updateClientDoc_clients db user.uid _).1]
      have hl := lookup_map_patch db.clients user.uid
        (fun d => { d with pan := some (toUpperCase st.pan) })
      rw [hd] at hl
      exact hl
    · have hany := any_of_lookup db.clients user.uid d hd
      unfold ProfileScreen.savePan updateClientDoc
      simp [h, hany]
  · intro h
    unfold ProfileScreen.savePan
    simp [h]
  · intro hne
    have h : ProfileScreen.panRegexTest (toUpperCase st.pan) = true := by
      by_contra hc
      rw [savePan_eq, if_neg hc] at hne
      exact hne rfl
    exact ⟨h, panRegexTest_format _ h⟩

/-- Witness of C21: "abcde1234f" is stored as "ABCDE1234F" on the document of the sample
client; "ABCDE123F" is rejected and the store stays as it was. -/
theorem C21_savePan_validates_witness :
    getClientDoc (ProfileScreen.savePan clientStore sampleUser (panEntry "abcde1234f")).1 "u1" =
      some { sampleClientDoc with pan := some "ABCDE1234F" } ∧
    (ProfileScreen.savePan clientStore sampleUser (panEntry "ABCDE123F")).1 = clientStore ∧
    (ProfileScreen.savePan clientStore sampleUser (panEntry "ABCDE123F")).2.toast =
      some { m := ToastMsg.invalidPan, t := ToastType.error } :=
  ⟨((C21_savePan_validates clientStore sampleUser (panEntry "abcde1234f")).2.1 (by decide)
      sampleClientDoc (by decide)).1,
   (C21_savePan_validates clientStore sampleUser (panEntry "ABCDE123F")).2.2.1 (by decide)⟩

/-! ## Role claims -/

/-- C22 (code at the failing input): the profile is
`{ uid, email, isAdmin, ...snap.data() }`, so a field of the client's own document
replaces the role computed from the email and the uid of the signed-in user.  The sample
client, whose email is not the reserved one, gets the admin application when the document
carries `isAdmin: true`, and a client application with the uid "u2" when the document
carries `uid: 'u2'`.  On every other path the role follows the email: when the email is
the reserved one, when there is no document, or when the document carries neither field,
`isAdmin` holds exactly for the reserved email, the admin application is selected exactly
then and the client application has the uid of the signed-in user; with nobody signed in
the login screen is selected. -/
theorem C22_document_fields_override_role (db : Store) (u : FbUser) (app : App) :
    sampleFbUser.email ≠ ADMIN_EMAIL ∧
    App.render (App.onAuthStateChanged selfPromotedStore (some sampleFbUser) App.init) =
      Screen.adminApp
        { uid := "u1", email := "asha@anandfinco.com", name := "Asha",
          phone := "+91 98765 43210", isAdmin := true, pan := "", city := "Mumbai",
          joinDate := "2025", welcomeNote := "", username := "asha" } ∧
    App.render (App.onAuthStateChanged foreignUidStore (some sampleFbUser) App.init) =
      Screen.clientApp
        { uid := "u2", email := "asha@anandfinco.com", name := "Asha",
          phone := "+91 98765 43210", isAdmin := false, pan := "", city := "Mumbai",
          joinDate := "2025", welcomeNote := "", username := "asha" } ∧
    App.render (App.onAuthStateChanged clientStore (some sampleFbUser) App.init) =
      Screen.clientApp
        { uid := "u1", email := "asha@anandfinco.com", name := "Asha",
          phone := "+91 98765 43210", isAdmin := false, pan := "", city := "Mumbai",
          joinDate := "2025", welcomeNote := "", username := "asha" } ∧
    (u.email = ADMIN_EMAIL →
      App.render (App.onAuthStateChanged db (some u) app) =
        Screen.adminApp (App.bareProfile u true)) ∧
    (u.email ≠ ADMIN_EMAIL → getClientDoc db u.uid = none →
      App.render (App.onAuthStateChanged db (some u) app) =
        Screen.clientApp (App.bareProfile u false)) ∧
    (∀ d, u.email ≠ ADMIN_EMAIL → getClientDoc db u.uid = some d → d.isAdmin ≠ some true →
      d.uid = none →
      App.render (App.onAuthStateChanged db (some u) app) =
        Screen.clientApp (App.spreadProfile u false d) ∧
      (App.spreadProfile u false d).uid = u.uid ∧
      (App.spreadProfile u false d).isAdmin = false) ∧
    (∀ d, u.email ≠ ADMIN_EMAIL → getClientDoc db u.uid = some d → d.isAdmin = some true →
      App.render (App.onAuthStateChanged db (some u) app) =
        Screen.adminApp (App.spreadProfile u false d)) ∧
    App.render (App.onAuthStateChanged db none app) = Screen.loginScreen := by
  refine ⟨by decide, by decide, by decide, by decide, ?_, ?_, ?_, ?_, rfl⟩
  · intro h
    simp [App.onAuthStateChanged, App.render, h, App.bareProfile]
  · intro h hd
    simp [App.onAuthStateChanged, App.render, h, hd, App.bareProfile]
  · intro d h hd hadm huid
    have hfalse : d.isAdmin.getD false = false := by
      cases hi : d.isAdmin with
      | none => rfl
      | some b =>
        cases b with
        | false => rfl
        | true => exact absurd hi hadm
    refine ⟨?_, ?_, ?_⟩
    · simp [App.onAuthStateChanged, App.render, h, hd, App.spreadProfile, hfalse]
    · simp [App.spreadProfile, huid]
    · simp [App.spreadProfile, hfalse]
  · intro d h hd hadm
    simp [App.onAuthStateChanged, App.render, h, hd, App.spreadProfile, hadm]

/-! ## Account claims -/

theorem append_right_cancel (a b t : String) : a ++ t = b ++ t ↔ a = b := by
  constructor
  · intro h
    have hd : (a ++ t).data = (b ++ t).data := by rw [h]
    rw [String.data_append, String.data_append] at hd
    exact String.ext (List.append_cancel_right hd)
  · intro h
    rw [h]

theorem map_eq_self_iff {α : Type} (f : α → α) (l : List α) :
    l.map f = l ↔ ∀ c ∈ l, f c = c := by
  induction l with
  | nil => simp
  | cons x t ih => simp [ih]

theorem replaceWhiteSpace_eq_self_iff (s : String) :
    replaceWhiteSpace s = s ↔ ∀ c ∈ s.toList, isStrWhiteSpaceChar c = false := by
  have hdata : replaceWhiteSpace s = s ↔
      s.toList.map (fun c => if isStrWhiteSpaceChar c then '.' else c) = s.toList := by
    constructor
    · intro h
      have : (replaceWhiteSpace s).data = s.data := by rw [h]
      exact this
    · intro h
      exact String.ext h
  rw [hdata, map_eq_self_iff]
  constructor
  · intro h c hc
    cases hw : isStrWhiteSpaceChar c with
    | false => rfl
    | true =>
      have hdot := h c hc
      rw [hw] at hdot
      simp only [if_true] at hdot
      rw [← hdot] at hw
      exact absurd hw (by decide)
  · intro h c hc
    simp [h c hc]

theorem loginEmail_eq (un : String) :
    LoginScreen.email un = toLowerCase (jsTrim un) ++ "@anandfinco.com" := by
  unfold LoginScreen.email
  split
  · rename_i h
    rw [h]
    decide
  · rfl

theorem replaceWhiteSpace_eq_admin (s : String) :
    replaceWhiteSpace s = "admin" ↔ s = "admin" := by
  constructor
  · intro h
    have hne : ∀ c ∈ s.toList, isStrWhiteSpaceChar c = false := by
      intro c hc
      cases hw : isStrWhiteSpaceChar c with
      | false => rfl
      | true =>
        have hmem : (if isStrWhiteSpaceChar c then '.' else c) ∈
            (replaceWhiteSpace s).toList := by
          have hl : (replaceWhiteSpace s).toList =
              s.toList.map (fun c => if isStrWhiteSpaceChar c then '.' else c) := rfl
          rw [hl]
          exact List.mem_map_of_mem _ hc
        rw [hw, h] at hmem
        simp only [if_true] at hmem
        exact absurd hmem (by decide)
    rw [← (replaceWhiteSpace_eq_self_iff s).mpr hne]
    exact h
  · intro h
    rw [h]
    decide

theorem adminClientsEmail_eq_admin (un : String) :
    AdminClients.email un = ADMIN_EMAIL ↔ toLowerCase (jsTrim un) = "admin" := by
  have hA : ADMIN_EMAIL = "admin" ++ "@anandfinco.com" := by decide
  unfold AdminClients.email
  rw [hA, append_right_cancel, replaceWhiteSpace_eq_admin]

/-- C25 (code at the failing input): `addClient` replaces the white space inside the
username by dots before it registers the address, `login` does not.  For the username
"rahul sharma" the admin's sheet registers "rahul.sharma@anandfinco.com" and announces the
login "rahul sharma"; the login screen derives "rahul sharma@anandfinco.com" from that
username and the sign-in is rejected, while "rahul.sharma" signs in.  In general the login
address is the trimmed, lower-cased username followed by "@anandfinco.com", and it equals
the registered address exactly when the trimmed username has no white space inside. -/
theorem C25_login_keeps_inner_white_space (un : String) :
    (AdminClients.addClient adminAuth clientStore "2025"
        (clientSheet "Rahul Sharma" "rahul sharma" "secret1")).auth.accounts =
      adminAuth.accounts ++
        [{ uid := "uid1", email := "rahul.sharma@anandfinco.com", password := "secret1" }] ∧
    (AdminClients.addClient adminAuth clientStore "2025"
        (clientSheet "Rahul Sharma" "rahul sharma" "secret1")).st.toast =
      some { m := ToastMsg.clientAdded "Rahul Sharma" "rahul sharma" "secret1",
             t := ToastType.success } ∧
    LoginScreen.email "rahul sharma" = "rahul sharma@anandfinco.com" ∧
    LoginScreen.login
        (AdminClients.addClient adminAuth clientStore "2025"
          (clientSheet "Rahul Sharma" "rahul sharma" "secret1")).auth
        (loginEntry "rahul sharma" "secret1") =
      ({ loginEntry "rahul sharma" "secret1" with
          error := some (LoginError.rejected AuthError.userNotFound) }, none) ∧
    (LoginScreen.login
        (AdminClients.addClient adminAuth clientStore "2025"
          (clientSheet "Rahul Sharma" "rahul sharma" "secret1")).auth
        (loginEntry "rahul.sharma" "secret1")).2 =
      some { uid := "uid1", email := "rahul.sharma@anandfinco.com" } ∧
    LoginScreen.email un = toLowerCase (jsTrim un) ++ "@anandfinco.com" ∧
    (LoginScreen.email un = AdminClients.email un ↔
      ∀ c ∈ (toLowerCase (jsTrim un)).toList, isStrWhiteSpaceChar c = false) := by
  refine ⟨by decide, by decide, by decide, by decide, by decide, loginEmail_eq un, ?_⟩
  rw [loginEmail_eq]
  unfold AdminClients.email
  rw [append_right_cancel, eq_comm, replaceWhiteSpace_eq_self_iff]

/-- C29 (counterexample): the usernames "admin" and " Admin " pass the checks of `addClient`
(name, username and password not empty, password of 6 characters) and the address derived
for them is the reserved one; on an identity provider where that address is free
`addClient` creates the account, and `App` gives a user with that address the admin
application. -/
theorem C29_admin_username_counterexample :
    AdminClients.email "admin" = ADMIN_EMAIL ∧
    AdminClients.email " Admin " = ADMIN_EMAIL ∧
    (AdminClients.addClient { accounts := [], nextUid := 0 } clientStore "2025"
        (clientSheet "Eve" "admin" "secret1")).auth.accounts =
      [{ uid := "uid0", email := "admin@anandfinco.com", password := "secret1" }] ∧
    (AdminClients.addClient { accounts := [], nextUid := 0 } clientStore "2025"
        (clientSheet "Eve" "admin" "secret1")).st.toast =
      some { m := ToastMsg.clientAdded "Eve" "admin" "secret1", t := ToastType.success } ∧
    App.render
        (App.onAuthStateChanged
          (AdminClients.addClient { accounts := [], nextUid := 0 } clientStore "2025"
            (clientSheet "Eve" "admin" "secret1")).db
          (some { uid := "uid0", email := "admin@anandfinco.com" }) App.init) =
      Screen.adminApp
        { uid := "uid0", email := "admin@anandfinco.com", name := "", phone := "",
          isAdmin := true } := by
  refine ⟨by decide, by decide, by decide, by decide, by decide⟩

theorem createUser_accounts (auth auth1 : Auth) (email password : String) (u : FbUser)
    (h : createUserWithEmailAndPassword auth email password = Except.ok (auth1, u)) :
    auth.accounts.any (fun a => a.email == email) = false ∧
    auth1.accounts =
      auth.accounts ++ [{ uid := u.uid, email := email, password := password }] := by
  unfold createUserWithEmailAndPassword at h
  split at h
  · cases h
  · rename_i hany
    split at h
    · cases h
    · simp only [Except.ok.injEq, Prod.mk.injEq] at h
      obtain ⟨h1, h2⟩ := h
      refine ⟨by simpa using hany, ?_⟩
      rw [← h1, ← h2]

/-- C29 (amended): the address `addClient` derives is the reserved one exactly when the
trimmed, lower-cased username is "admin"; when the identity provider holds an account with
the reserved address, `addClient` then creates no account and writes no document (with the
toast 'Username already exists.' when the form passes the checks), and no account that
`addClient` adds has the reserved address. -/
theorem C29_reserved_address_needs_free_address (auth : Auth) (db : Store) (year : String)
    (st : AdminClients) (hadmin : ∃ a ∈ auth.accounts, a.email = ADMIN_EMAIL) :
    (AdminClients.email st.form.username = ADMIN_EMAIL ↔
      toLowerCase (jsTrim st.form.username) = "admin") ∧
    (AdminClients.email st.form.username = ADMIN_EMAIL →
      (AdminClients.addClient auth db year st).auth = auth ∧
      (AdminClients.addClient auth db year st).db.clients = db.clients ∧
      (st.form.name ≠ "" → st.form.username ≠ "" → 6 ≤ utf16Length st.form.password →
        (AdminClients.addClient auth db year st).st.toast =
          some { m := ToastMsg.usernameExists, t := ToastType.error })) ∧
    (∀ a ∈ (AdminClients.addClient auth db year st).auth.accounts,
      a ∉ auth.accounts → a.email ≠ ADMIN_EMAIL) := by
  have hany : auth.accounts.any (fun a => a.email == ADMIN_EMAIL) = true := by
    obtain ⟨a, ha, he⟩ := hadmin
    exact List.any_eq_true.mpr ⟨a, ha, by simp [he]⟩
  refine ⟨adminClientsEmail_eq_admin _, ?_, ?_⟩
  · intro he
    have hcreate : ∀ pw, createUserWithEmailAndPassword auth
        (AdminClients.email st.form.username) pw = Except.error AuthError.emailAlreadyInUse := by
      intro pw
      unfold createUserWithEmailAndPassword
      rw [he, if_pos hany]
    refine ⟨?_, ?_, ?_⟩
    · unfold AdminClients.addClient
      split
      · rfl
      · split
        · rfl
        · rw [hcreate]
    · unfold AdminClients.addClient
      split
      · rfl
      · split
        · rfl
        · rw [hcreate]
    · intro hn hu hp
      have hpw : st.form.password ≠ "" := by
        intro h0
        rw [h0] at hp
        exact absurd hp (by decide)
      unfold AdminClients.addClient
      rw [if_neg (by simp [hn, hu, hpw]), if_neg (by omega), hcreate]
  · intro a ha hnew
    unfold AdminClients.addClient at ha
    split at ha
    · exact absurd ha hnew
    · split at ha
      · exact absurd ha hnew
      · cases hc : createUserWithEmailAndPassword auth (AdminClients.email st.form.username)
            st.form.password with
        | error e =>
          rw [hc] at ha
          exact absurd ha hnew
        | ok r =>
          obtain ⟨auth1, u⟩ := r
          rw [hc] at ha
          obtain ⟨hfree, hacc⟩ := createUser_accounts auth auth1 _ _ u hc
          have ha1 : a ∈ auth1.accounts := ha
          rw [hacc, List.mem_append] at ha1
          rcases ha1 with h | h
          · exact absurd h hnew
          · simp only [List.mem_singleton] at h
            intro hemail
            rw [h] at hemail
            simp only at hemail
            rw [hemail, hany] at hfree
            cases hfree

/-- Witness of C29: with the account of the admin registered, the sheet with the username
"admin" creates no account and raises 'Username already exists.'. -/
theorem C29_reserved_address_needs_free_address_witness :
    (AdminClients.addClient adminAuth clientStore "2025"
        (clientSheet "Eve" "admin" "secret1")).auth = adminAuth ∧
    (AdminClients.addClient adminAuth clientStore "2025"
        (clientSheet "Eve" "admin" "secret1")).st.toast =
      some { m := ToastMsg.usernameExists, t := ToastType.error } :=
  ⟨((C29_reserved_address_needs_free_address adminAuth clientStore "2025"
      (clientSheet "Eve" "admin" "secret1")
      ⟨{ uid := "admin-uid", email := ADMIN_EMAIL, password := "admin-secret" },
        by decide, rfl⟩).2.1 (by decide)).1,
   ((C29_reserved_address_needs_free_address adminAuth clientStore "2025"
      (clientSheet "Eve" "admin" "secret1")
      ⟨{ uid := "admin-uid", email := ADMIN_EMAIL, password := "admin-secret" },
        by decide, rfl⟩).2.1 (by decide)).2.2 (by decide) (by decide) (by decide)⟩

/-! ## Sector breakdown -/

theorem assoc_lookup_of_mem (a : List (String × ℚ)) (hn : (a.map Prod.fst).Nodup)
    (k : String) (v : ℚ) (hm : (k, v) ∈ a) : a.lookup k = some v := by
  induction a with
  | nil => cases hm
  | cons p t ih =>
    obtain ⟨k1, v1⟩ := p
    simp only [List.map_cons, List.nodup_cons] at hn
    rcases List.mem_cons.mp hm with h | h
    · simp only [Prod.mk.injEq] at h
      obtain ⟨hk, hv⟩ := h
      subst hk
      subst hv
      simp [List.lookup]
    · have hne : k ≠ k1 := by
        intro hk
        subst hk
        exact hn.1 (List.mem_map_of_mem Prod.fst h)
      have h2 : (k == k1) = false := by simpa using hne
      simp only [List.lookup, h2]
      exact ih hn.2 h

theorem assoc_lookup_none (a : List (String × ℚ)) (k : String)
    (h : a.any (fun p => p.1 == k) = false) : a.lookup k = none := by
  induction a with
  | nil => rfl
  | cons p t ih =>
    obtain ⟨k1, v1⟩ := p
    simp only [List.any_cons, Bool.or_eq_false_iff] at h
    have h2 : (k == k1) = false := by
      have := h.1
      simp only [beq_eq_false_iff_ne, ne_eq] at this ⊢
      exact fun hh => this hh.symm
    simp only [List.lookup, h2]
    exact ih h.2

theorem assoc_lookup_set (a : List (String × ℚ)) (s k : String) (v : ℚ) :
    (a.map (fun p => if p.1 == s then (p.1, v) else p)).lookup k =
      if k = s then (a.lookup k).map (fun _ => v) else a.lookup k := by
  induction a with
  | nil => simp
  | cons p t ih =>
    obtain ⟨k1, v1⟩ := p
    rw [List.map_cons]
    by_cases h1 : k1 = s
    · have hb : ((k1, v1).1 == s) = true := by simp [h1]
      rw [if_pos hb]
      by_cases h2 : k = k1
      · have hb2 : (k == k1) = true := by simp [h2]
        simp [List.lookup, hb2, h2, h1]
      · have hb2 : (k == k1) = false := by simpa using h2
        simp only [List.lookup, hb2]
        exact ih
    · have hb : ¬ ((k1, v1).1 == s) = true := by simpa using h1
      rw [if_neg hb]
      by_cases h2 : k = k1
      · have hb2 : (k == k1) = true := by simp [h2]
        have hks : k ≠ s := fun h => h1 (h2 ▸ h)
        simp [List.lookup, hb2, hks]
      · have hb2 : (k == k1) = false := by simpa using h2
        simp only [List.lookup, hb2]
        exact ih

theorem assoc_lookup_append (a : List (String × ℚ)) (s k : String) (v : ℚ) :
    (a ++ [(s, v)]).lookup k =
      match a.lookup k with
      | some x => some x
      | none => if k = s then some v else none := by
  induction a with
  | nil =>
    by_cases h : k = s
    · simp [List.lookup, h]
    · have hb : (k == s) = false := by simpa using h
      simp [List.lookup, hb, h]
  | cons p t ih =>
    obtain ⟨k1, v1⟩ := p
    by_cases h2 : k = k1
    · have hb2 : (k == k1) = true := by simp [h2]
      simp [List.lookup, hb2]
    · have hb2 : (k == k1) = false := by simpa using h2
      simp only [List.cons_append, List.lookup, hb2]
      exact ih

theorem assoc_lookup_some (a : List (String × ℚ)) (k : String)
    (h : a.any (fun p => p.1 == k) = true) : ∃ x, a.lookup k = some x := by
  induction a with
  | nil => cases h
  | cons q t ih =>
    obtain ⟨k1, v1⟩ := q
    by_cases h2 : k = k1
    · have hb2 : (k == k1) = true := by simp [h2]
      exact ⟨v1, by simp only [List.lookup, hb2]⟩
    · have hb2 : (k == k1) = false := by simpa using h2
      have hb3 : ((k1, v1).1 == k) = false := by simpa using fun hh => h2 hh.symm
      simp only [List.any_cons, hb3, Bool.false_or] at h
      obtain ⟨x, hx⟩ := ih h
      exact ⟨x, by simp only [List.lookup, hb2]; exact hx⟩

theorem addSector_keys (a : List (String × ℚ)) (e : PortfolioScreen.Enriched) :
    (PortfolioScreen.addSector a e).map Prod.fst =
      if e.h.sector ∈ a.map Prod.fst then a.map Prod.fst
      else a.map Prod.fst ++ [e.h.sector] := by
  unfold PortfolioScreen.addSector
  by_cases h : a.any (fun p => p.1 == e.h.sector) = true
  · have hm : e.h.sector ∈ a.map Prod.fst := by
      obtain ⟨p, hp, hk⟩ := List.any_eq_true.mp h
      have : p.1 = e.h.sector := by simpa using hk
      rw [← this]
      exact List.mem_map_of_mem Prod.fst hp
    simp only [h, if_true, hm]
    rw [List.map_map]
    apply List.map_congr_left
    intro p _
    simp only [Function.comp]
    split <;> rfl
  · have hm : e.h.sector ∉ a.map Prod.fst := by
      intro hmem
      obtain ⟨p, hp, hk⟩ := List.mem_map.mp hmem
      exact h (List.any_eq_true.mpr ⟨p, hp, by simp [hk]⟩)
    rw [if_neg h, if_neg hm]
    simp only [List.map_append, List.map_cons, List.map_nil]

theorem addSector_value (a : List (String × ℚ)) (e : PortfolioScreen.Enriched) (k : String) :
    ((PortfolioScreen.addSector a e).lookup k).getD 0 =
      (a.lookup k).getD 0 + (if e.h.sector = k then e.curr else 0) := by
  unfold PortfolioScreen.addSector
  by_cases h : a.any (fun p => p.1 == e.h.sector) = true
  · simp only [h, if_true]
    rw [assoc_lookup_set]
    by_cases hk : k = e.h.sector
    · rw [hk]
      obtain ⟨x, hx⟩ := assoc_lookup_some a e.h.sector h
      simp [hx]
    · have hk2 : ¬ e.h.sector = k := fun hh => hk hh.symm
      simp [hk, hk2]
  · have hf : a.any (fun p => p.1 == e.h.sector) = false := Bool.eq_false_iff.mpr h
    rw [if_neg h, assoc_lookup_append]
    by_cases hk : k = e.h.sector
    · rw [hk, assoc_lookup_none a _ hf]
      simp
    · have hk2 : ¬ e.h.sector = k := fun hh => hk hh.symm
      cases hl : a.lookup k <;> simp [hk, hk2]

theorem foldl_addSector (es : List PortfolioScreen.Enriched) (a : List (String × ℚ))
    (hn : (a.map Prod.fst).Nodup) :
    ((es.foldl PortfolioScreen.addSector a).map Prod.fst).Nodup ∧
    (∀ k, k ∈ (es.foldl PortfolioScreen.addSector a).map Prod.fst ↔
      k ∈ a.map Prod.fst ∨ ∃ e ∈ es, e.h.sector = k) ∧
    (∀ k, ((es.foldl PortfolioScreen.addSector a).lookup k).getD 0 =
      (a.lookup k).getD 0 +
        ((es.filter (fun e => e.h.sector == k)).map (fun e => e.curr)).sum) := by
  induction es generalizing a with
  | nil => simp [hn]
  | cons e t ih =>
    have hn1 : ((PortfolioScreen.addSector a e).map Prod.fst).Nodup := by
      rw [addSector_keys]
      split
      · exact hn
      · rename_i hm
        exact List.nodup_append.mpr ⟨hn, List.nodup_singleton _,
          fun x hx hx2 => hm ((List.mem_singleton.mp hx2) ▸ hx)⟩
    obtain ⟨h1, h2, h3⟩ := ih (PortfolioScreen.addSector a e) hn1
    refine ⟨h1, ?_, ?_⟩
    · intro k
      rw [List.foldl_cons, h2 k, addSector_keys]
      by_cases hm : e.h.sector ∈ a.map Prod.fst
      · rw [if_pos hm]
        constructor
        · rintro (h | ⟨x, hx, hk⟩)
          · exact Or.inl h
          · exact Or.inr ⟨x, List.mem_cons_of_mem _ hx, hk⟩
        · rintro (h | ⟨x, hx, hk⟩)
          · exact Or.inl h
          · rcases List.mem_cons.mp hx with hxe | hxt
            · left
              rw [← hk, hxe]
              exact hm
            · exact Or.inr ⟨x, hxt, hk⟩
      · rw [if_neg hm]
        constructor
        · rintro (h | ⟨x, hx, hk⟩)
          · rcases List.mem_append.mp h with h | h
            · exact Or.inl h
            · right
              exact ⟨e, List.mem_cons_self _ _, (List.mem_singleton.mp h).symm⟩
          · exact Or.inr ⟨x, List.mem_cons_of_mem _ hx, hk⟩
        · rintro (h | ⟨x, hx, hk⟩)
          · exact Or.inl (List.mem_append.mpr (Or.inl h))
          · rcases List.mem_cons.mp hx with hxe | hxt
            · left
              rw [← hk, hxe]
              exact List.mem_append.mpr (Or.inr (List.mem_singleton.mpr rfl))
            · exact Or.inr ⟨x, hxt, hk⟩
    · intro k
      rw [List.foldl_cons, h3 k, addSector_value]
      by_cases hk : e.h.sector = k
      · simp [List.filter_cons, hk, add_assoc]
      · simp [List.filter_cons, hk]

/-- C24 (counterexample): a portfolio with the one holding of -5% has `totC = -250000`,
which is not 0; the breakdown lists the sector with the value -250000 and the share 0, not
`value/totC*100 = 100`. -/
theorem C24_negative_total_counterexample :
    PortfolioScreen.totC [sampleCompany 1 5000000 true] [negativeHolding] = -250000 ∧
    (PortfolioScreen.sectorBars [sampleCompany 1 5000000 true] [negativeHolding]).map
        (fun b => (b.sec, b.val, b.p)) = [("Technology", -250000, 0)] ∧
    (-250000 : ℚ) /
        PortfolioScreen.totC [sampleCompany 1 5000000 true] [negativeHolding] * 100 = 100 := by
  have ht : PortfolioScreen.totC [sampleCompany 1 5000000 true] [negativeHolding] = -250000 := by
    norm_num [PortfolioScreen.totC, PortfolioScreen.enriched, PortfolioScreen.enrich,
      negativeHolding, sampleHolding, sampleCompany, findCompany, nowValuation]
  refine ⟨ht, ?_, ?_⟩
  · rw [PortfolioScreen.sectorBars, ht]
    norm_num [PortfolioScreen.sortedSectors, PortfolioScreen.sectors,
      PortfolioScreen.addSector, PortfolioScreen.sectorShare,
      PortfolioScreen.enriched, PortfolioScreen.enrich,
      negativeHolding, sampleHolding, sampleCompany, findCompany, nowValuation]
  · rw [ht]
    norm_num

/-- C24 (amended): the sector breakdown has exactly one bar per distinct sector of the
holdings, the value of a bar is the sum of `curr` over the holdings of its sector, its
share is `value/totC*100` when `totC > 0` and 0 otherwise (for `totC = 0` and for a
negative `totC`), and the bars are listed in descending order of value. -/
theorem C24_sector_breakdown (companies : List Company) (holdings : List Holding) :
    ((PortfolioScreen.sectorBars companies holdings).map (fun b => b.sec)).Nodup ∧
    (∀ s, s ∈ (PortfolioScreen.sectorBars companies holdings).map (fun b => b.sec) ↔
      ∃ h ∈ holdings, h.sector = s) ∧
    (∀ b ∈ PortfolioScreen.sectorBars companies holdings,
      b.val = ((holdings.filter (fun h => h.sector == b.sec)).map
        (fun h => (PortfolioScreen.enrich companies h).curr)).sum ∧
      (0 < PortfolioScreen.totC companies holdings →
        b.p = b.val / PortfolioScreen.totC companies holdings * 100) ∧
      (PortfolioScreen.totC companies holdings ≤ 0 → b.p = 0)) ∧
    (PortfolioScreen.sectorBars companies holdings).Pairwise (fun a b => b.val ≤ a.val) := by
  have hbars : PortfolioScreen.sectorBars companies holdings =
      (PortfolioScreen.sortedSectors (PortfolioScreen.enriched companies holdings)).map
        (fun x => { sec := x.1, val := x.2,
                    p := PortfolioScreen.sectorShare
                      (PortfolioScreen.totC companies holdings) x.2 }) := by
    unfold PortfolioScreen.sectorBars
    split
    · rfl
    · rename_i hlen
      have hnil : PortfolioScreen.enriched companies holdings = [] :=
        List.length_eq_zero.mp (by omega)
      rw [hnil]
      rfl
  have hperm : (PortfolioScreen.sortedSectors (PortfolioScreen.enriched companies holdings)).Perm
      (PortfolioScreen.sectors (PortfolioScreen.enriched companies holdings)) :=
    List.perm_insertionSort _ _
  obtain ⟨hnodup, hkeys, hval⟩ :=
    foldl_addSector (PortfolioScreen.enriched companies holdings) [] List.nodup_nil
  have hsec : (PortfolioScreen.sectorBars companies holdings).map (fun b => b.sec) =
      (PortfolioScreen.sortedSectors (PortfolioScreen.enriched companies holdings)).map
        Prod.fst := by
    rw [hbars, List.map_map]
    rfl
  have hpermk := hperm.map Prod.fst
  refine ⟨?_, ?_, ?_, ?_⟩
  · rw [hsec]
    exact hpermk.nodup_iff.mpr hnodup
  · intro s
    rw [hsec, hpermk.mem_iff]
    have := hkeys s
    unfold PortfolioScreen.sectors
    rw [this]
    simp [PortfolioScreen.enriched, PortfolioScreen.enrich]
  · intro b hb
    rw [hbars] at hb
    obtain ⟨x, hx, rfl⟩ := List.mem_map.mp hb
    have hx1 : x ∈ PortfolioScreen.sectors (PortfolioScreen.enriched companies holdings) :=
      hperm.mem_iff.mp hx
    have hl := assoc_lookup_of_mem _ hnodup x.1 x.2 hx1
    have hv := hval x.1
    rw [hl] at hv
    refine ⟨?_, ?_, ?_⟩
    · simp only [Option.getD_some, List.lookup, Option.getD_none, zero_add] at hv
      rw [hv]
      simp only [PortfolioScreen.enriched, List.filter_map, List.map_map]
      rfl
    · intro hpos
      simp [PortfolioScreen.sectorShare, hpos]
    · intro hle
      have : ¬ PortfolioScreen.totC companies holdings > 0 := not_lt.mpr hle
      simp [PortfolioScreen.sectorShare, this]
  · rw [hbars]
    rw [List.pairwise_map]
    have hsorted := @List.sorted_insertionSort (String × ℚ) (fun x y => y.2 ≤ x.2) _
      ⟨fun a b => le_total b.2 a.2⟩ ⟨fun a b c hab hbc => le_trans hbc hab⟩
      (PortfolioScreen.sectors (PortfolioScreen.enriched companies holdings))
    exact hsorted

end AnandFinco
